import Mathlib

/-!
# Langfuse Terraform provider: scoped clients and resource reconcilers

A shallow embedding of the provider's Go sources.

* Go `error` values are represented by their text (`err.Error()`).
* A function returning `(*T, error)` is an `Except error T`; a function
  returning only `error` is an `Option error` (`none` is `nil`).
* The host plugin framework (attribute values, diagnostics, state) and the Go
  standard library (HTTP round trip, JSON codec) are collaborators of the
  sources: the framework is modelled over typed records, the standard library
  is taken as a parameter.
* Decoding a configuration or a state into a struct (`Config.Get`, `State.Get`)
  fails when a field of the struct has not the value type of its attribute in
  the schema the resource declares.
* Every reconciler phase returns the response it leaves behind together with
  the client calls it made, in order.
-/

set_option autoImplicit false

/-- Text of a Go `error`. -/
abbrev error := String

/-! ## Host framework: attribute values -/

namespace basetypes

/-- A string attribute value: null, unknown or known. -/
inductive StringValue where
  | null
  | unknown
  | known (value : String)
  deriving DecidableEq, Repr

/-- `ValueString` is the known value, and the empty string for null or unknown. -/
def StringValue.ValueString : StringValue → String
  | .known v => v
  | _ => ""

/-- A 32-bit integer attribute value (`types.Int32`): null, unknown or known. The known
value is a Go `int32`, held as an integer; no phase computes with it. -/
inductive Int32Value where
  | null
  | unknown
  | known (value : Int)
  deriving DecidableEq, Repr

/-- `ValueInt32` is the known value, and 0 for null or unknown. -/
def Int32Value.ValueInt32 : Int32Value → Int
  | .known v => v
  | _ => 0

instance : Inhabited StringValue := ⟨.null⟩
instance : Inhabited Int32Value := ⟨.null⟩

end basetypes

namespace types

/-- `types.StringValue(s)`: a known string. -/
def StringValue (value : String) : basetypes.StringValue := .known value

/-- `types.Int32Value(i)`: a known 32-bit integer. -/
def Int32Value (value : Int) : basetypes.Int32Value := .known value

end types

/-! ## Host framework: diagnostics -/

namespace diag

inductive Severity where
  | Error
  | Warning
  deriving DecidableEq, Repr

structure Diagnostic where
  Severity : Severity
  Summary : String
  Detail : String
  deriving DecidableEq, Repr

abbrev Diagnostics := List Diagnostic

def NewErrorDiagnostic (summary detail : String) : Diagnostic :=
  { Severity := .Error, Summary := summary, Detail := detail }

/-- `HasError`: some diagnostic has error severity. -/
def Diagnostics.HasError (diags : Diagnostics) : Bool :=
  diags.any (fun d => decide (d.Severity = Severity.Error))

/-- `Contains`: an equal diagnostic is already in the collection. -/
def Diagnostics.Contains (diags : Diagnostics) (d : Diagnostic) : Bool :=
  diags.any (fun x => decide (x = d))

/-- `Append` adds each given diagnostic in turn, skipping one that is already contained. -/
def Diagnostics.Append (diags : Diagnostics) (more : Diagnostics) : Diagnostics :=
  more.foldl (fun acc d => if Diagnostics.Contains acc d then acc else acc ++ [d]) diags

/-- `AddError` appends a new error diagnostic. -/
def Diagnostics.AddError (diags : Diagnostics) (summary detail : String) : Diagnostics :=
  Diagnostics.Append diags [NewErrorDiagnostic summary detail]

end diag

/-! ## Host framework: schemas -/

namespace schema

/-- The plan modifiers the schemas use. -/
inductive PlanModifier where
  | RequiresReplace
  | UseStateForUnknown
  deriving DecidableEq, Repr

/-- A schema attribute; a field that a literal leaves out has its zero value. -/
structure Attribute where
  Required : Bool := false
  Optional : Bool := false
  Computed : Bool := false
  Sensitive : Bool := false
  Description : String := ""
  PlanModifiers : List PlanModifier := []
  deriving DecidableEq, Repr

/-- The two attribute types the schemas use. -/
inductive Typed where
  | StringAttribute (a : Attribute)
  | Int64Attribute (a : Attribute)
  deriving DecidableEq, Repr

def Typed.attribute : Typed → Attribute
  | .StringAttribute a => a
  | .Int64Attribute a => a

/-- The value type of an attribute and of a struct field that holds one:
`basetypes.StringValue` (`types.String`), `basetypes.Int32Value` (`types.Int32`) and
`basetypes.Int64Value` (`types.Int64`). -/
inductive ValueType where
  | StringValue
  | Int32Value
  | Int64Value
  deriving DecidableEq, Repr

def ValueType.name : ValueType → String
  | .StringValue => "basetypes.StringValue"
  | .Int32Value => "basetypes.Int32Value"
  | .Int64Value => "basetypes.Int64Value"

/-- The name of the attribute type whose values have this value type. -/
def ValueType.typeName : ValueType → String
  | .StringValue => "basetypes.StringType"
  | .Int32Value => "basetypes.Int32Type"
  | .Int64Value => "basetypes.Int64Type"

/-- The type of the value an attribute decodes to: a string attribute gives a
`basetypes.StringValue`, an int64 attribute a `basetypes.Int64Value`. -/
def Typed.valueType : Typed → ValueType
  | .StringAttribute _ => .StringValue
  | .Int64Attribute _ => .Int64Value

/-- A schema: the `Attributes` map, as its entries. -/
structure Schema where
  Attributes : List (String × Typed)
  deriving DecidableEq, Repr

/-- `Attributes[name]`, when the name is a key of the map. -/
def Schema.attr (s : Schema) (name : String) : Option Attribute :=
  match s.Attributes.find? (fun entry => decide (entry.1 = name)) with
  | some entry => some entry.2.attribute
  | none => none

end schema

/-! ## Host framework: configuration and state over a typed record -/

namespace tfsdk

/-- The diagnostic the framework reports when a null object is read into a struct. -/
def nullObjectDiagnostic : diag.Diagnostic :=
  diag.NewErrorDiagnostic "Value Conversion Error"
    "Received null value, however the target type cannot handle null values."

/-- Persisted state of one resource: `Raw = none` is the null object (resource absent). -/
structure State (M : Type) where
  Raw : Option M
  deriving DecidableEq, Repr

/-- Declared configuration of one resource. -/
structure Config (M : Type) where
  Raw : Option M
  deriving DecidableEq, Repr

/-- What the conversion between an object and a struct depends on: the schema the host
attaches to the configuration and the state of a resource, which is the schema the resource
declares, and the tag and type of each field of the struct. -/
class Target (M : Type) where
  Schema : schema.Schema
  Fields : List (String × schema.ValueType)

/-- The diagnostic the framework reports when the object and the struct do not have the
same attribute names: an error with the summary `Value Conversion Error`; the detail stands
for the framework's text, which lists the names. -/
def structMismatchDiagnostic : diag.Diagnostic :=
  diag.NewErrorDiagnostic "Value Conversion Error" "mismatch between struct and object"

/-- The diagnostic the framework reports when the value of an attribute is not of the type
of the struct field tagged with its name: an error with the summary
`Value Conversion Error`, whose detail names the type of the field, the type of the value
and the attribute type of the schema. -/
def wrongTypeDiagnostic (target value : schema.ValueType) : diag.Diagnostic :=
  diag.NewErrorDiagnostic "Value Conversion Error"
    ("An unexpected error was encountered trying to convert into a Terraform value. "
      ++ "This is always an error in the provider. "
      ++ "Please report the following to the provider developer:\n\n"
      ++ "Cannot use attr.Value " ++ target.name ++ ", only " ++ value.name
      ++ " is supported because " ++ value.typeName ++ " is the type in the schema")

/-- The diagnostics of converting an object of the schema into a struct with these fields,
which do not depend on the values: the attributes of the schema and the tags of the struct
are the same names, and the value of each attribute has the type of its field. -/
def conversionDiagnostics (s : schema.Schema) (fields : List (String × schema.ValueType)) :
    diag.Diagnostics :=
  if s.Attributes.all (fun entry => fields.any (fun field => decide (field.1 = entry.1)))
      ∧ fields.all (fun field => s.Attributes.any (fun entry => decide (entry.1 = field.1)))
  then
    fields.filterMap (fun field =>
      match s.Attributes.find? (fun entry => decide (entry.1 = field.1)) with
      | some entry =>
        if entry.2.valueType = field.2 then none
        else some (wrongTypeDiagnostic field.2 entry.2.valueType)
      | none => none)
  else [structMismatchDiagnostic]

/-- The conversion diagnostics of the struct `M` under the schema of its resource. -/
def conversion (M : Type) [Target M] : diag.Diagnostics :=
  conversionDiagnostics (Target.Schema M) (Target.Fields M)

/-- `State.Get(ctx, &data)`: the diagnostics of the conversion and the value left in `data`
(the zero value when the conversion fails). The conversion fails on the null object, and on
every object when a field of the struct has not the type of its attribute. -/
def State.Get {M : Type} [Inhabited M] [Target M] (s : State M) : diag.Diagnostics × M :=
  match s.Raw with
  | none => ([nullObjectDiagnostic], default)
  | some m =>
    match conversion M with
    | [] => ([], m)
    | d :: more => (d :: more, default)

/-- `Config.Get(ctx, &data)`. -/
def Config.Get {M : Type} [Inhabited M] [Target M] (c : Config M) : diag.Diagnostics × M :=
  match c.Raw with
  | none => ([nullObjectDiagnostic], default)
  | some m =>
    match conversion M with
    | [] => ([], m)
    | d :: more => (d :: more, default)

/-- `State.Set(ctx, &model)`: the new state and the diagnostics of the conversion. -/
def State.Set {M : Type} (_s : State M) (m : M) : State M × diag.Diagnostics :=
  ({ Raw := some m }, [])

/-- `State.RemoveResource(ctx)`: the state becomes the null object. -/
def State.RemoveResource {M : Type} (_s : State M) : State M :=
  { Raw := none }

end tfsdk

namespace resource

structure CreateRequest (M : Type) where
  Config : tfsdk.Config M

structure CreateResponse (M : Type) where
  State : tfsdk.State M
  Diagnostics : diag.Diagnostics
  deriving DecidableEq, Repr

structure ReadRequest (M : Type) where
  State : tfsdk.State M

structure ReadResponse (M : Type) where
  State : tfsdk.State M
  Diagnostics : diag.Diagnostics
  deriving DecidableEq, Repr

structure UpdateRequest (M : Type) where
  Config : tfsdk.Config M
  State : tfsdk.State M

structure UpdateResponse (M : Type) where
  State : tfsdk.State M
  Diagnostics : diag.Diagnostics
  deriving DecidableEq, Repr

structure DeleteRequest (M : Type) where
  State : tfsdk.State M

structure DeleteResponse (M : Type) where
  State : tfsdk.State M
  Diagnostics : diag.Diagnostics
  deriving DecidableEq, Repr

/-- What a phase leaves behind: the response and the client calls made, in order. -/
structure Ran (C R : Type) where
  resp : R
  calls : List C

end resource

/-! ## Standard library collaborators: HTTP and JSON -/

namespace url

/-- A parsed URL (`*url.URL`), represented by the text its `String` method gives. -/
structure URL where
  Text : String
  deriving DecidableEq, Repr

end url

namespace http

def MethodGet : String := "GET"
def MethodPost : String := "POST"
def MethodPut : String := "PUT"
def MethodDelete : String := "DELETE"

abbrev Header := List (String × String)

/-- `Header.Set(key, value)` replaces whatever was stored under the key. -/
def Header.Set (h : Header) (key value : String) : Header :=
  h.filter (fun kv => decide (kv.1 ≠ key)) ++ [(key, value)]

/-- `Header.Get(key)`: the first value stored under the key, or the empty text. -/
def Header.Get (h : Header) (key : String) : String :=
  match h.find? (fun kv => decide (kv.1 = key)) with
  | some kv => kv.2
  | none => ""

structure Request where
  Method : String
  URL : url.URL
  Header : Header
  Body : Option String
  deriving DecidableEq, Repr

/-- A response body as `io.ReadAll` sees it: the bytes read and the read error, if any. -/
structure Body where
  data : String
  err : Option error
  deriving DecidableEq, Repr

structure Response where
  StatusCode : Int
  Body : Body
  deriving DecidableEq, Repr

/-- The HTTP client: `Do` is one round trip, failing with a transport error. -/
structure Client where
  Do : Request → Except error Response

/-- `http.NewRequestWithContext`: fails when the standard library rejects the method or
cannot parse the URL text (`requestError`), otherwise a request with this method and body,
the URL parsed from the text (`parseURL`, which stands for `url.Parse`) and no header. -/
def NewRequestWithContext (requestError : String → String → Option error)
    (parseURL : String → url.URL) (method url : String) (body : Option String) :
    Except error Request :=
  match requestError method url with
  | some err => .error err
  | none => .ok { Method := method, URL := parseURL url, Header := [], Body := body }

end http

namespace json

/-- Stands for `json.Unmarshal` into a fresh value of type `T`. -/
abbrev Unmarshal (T : Type) := String → Except error T

end json

/-! ## `internal/langfuse`: transport primitives and the two scoped clients -/

namespace internal.langfuse

/-- A Go `map[string]string`, as its entries. -/
abbrev StringMap := List (String × String)

structure Organization where
  ID : String
  Name : String
  Metadata : StringMap
  deriving DecidableEq, Repr

structure OrganizationApiKey where
  ID : String
  PublicKey : String
  SecretKey : String
  deriving DecidableEq, Repr

/-- The `Organizations` field is a `[]*Organization`: an entry may be nil. -/
structure ListOrganizationsResponse where
  Organizations : List (Option Organization)
  deriving DecidableEq, Repr

structure CreateOrganizationRequest where
  Name : String
  Metadata : StringMap
  deriving DecidableEq, Repr

structure UpdateOrganizationRequest where
  Name : String
  Metadata : StringMap
  deriving DecidableEq, Repr

structure deleteOrganizationResponse where
  Success : Bool
  deriving DecidableEq, Repr

structure listOrganizationApiKeysResponse where
  ApiKeys : List OrganizationApiKey
  deriving DecidableEq, Repr

structure deleteOrganizationApiKeyResponse where
  Success : Bool
  deriving DecidableEq, Repr

structure Project where
  ID : String
  Name : String
  RetentionDays : Int
  Metadata : StringMap
  deriving DecidableEq, Repr

structure ProjectApiKey where
  ID : String
  PublicKey : String
  SecretKey : String
  deriving DecidableEq, Repr

structure CreateProjectRequest where
  Name : String
  RetentionDays : Int
  Metadata : StringMap
  deriving DecidableEq, Repr

structure UpdateProjectRequest where
  Name : String
  RetentionDays : Int
  Metadata : StringMap
  deriving DecidableEq, Repr

/-- The `Projects` field is a `[]*Project`: an entry may be nil. -/
structure listProjectsResponse where
  Projects : List (Option Project)
  deriving DecidableEq, Repr

structure listProjectApiKeysResponse where
  ApiKeys : List ProjectApiKey
  deriving DecidableEq, Repr

structure deleteProjectResponse where
  Success : Bool
  Message : String
  deriving DecidableEq, Repr

structure deleteProjectApiKeyResponse where
  Success : Bool
  deriving DecidableEq, Repr

/-- The request bodies handed to `buildBaseRequest` as `body any`. -/
inductive RequestBody where
  | CreateOrganization (request : CreateOrganizationRequest)
  | UpdateOrganization (request : UpdateOrganizationRequest)
  | CreateProject (request : CreateProjectRequest)
  | UpdateProject (request : UpdateProjectRequest)
  deriving DecidableEq, Repr

/-- The standard-library functions the package calls, as parameters: request construction
failing, the URL `url.Parse` gives for a text it accepts, `json.Marshal` of a request body,
base64 of the basic-auth pair, and `json.Unmarshal` at each response type. -/
structure Env where
  requestError : String → String → Option error
  parseURL : String → url.URL
  Marshal : RequestBody → Except error String
  base64 : String → String
  unmarshalOrganization : json.Unmarshal Organization
  unmarshalListOrganizations : json.Unmarshal ListOrganizationsResponse
  unmarshalDeleteOrganization : json.Unmarshal deleteOrganizationResponse
  unmarshalOrganizationApiKey : json.Unmarshal OrganizationApiKey
  unmarshalListOrganizationApiKeys : json.Unmarshal listOrganizationApiKeysResponse
  unmarshalDeleteOrganizationApiKey : json.Unmarshal deleteOrganizationApiKeyResponse
  unmarshalProject : json.Unmarshal Project
  unmarshalListProjects : json.Unmarshal listProjectsResponse
  unmarshalDeleteProject : json.Unmarshal deleteProjectResponse
  unmarshalProjectApiKey : json.Unmarshal ProjectApiKey
  unmarshalListProjectApiKeys : json.Unmarshal listProjectApiKeysResponse
  unmarshalDeleteProjectApiKey : json.Unmarshal deleteProjectApiKeyResponse

/-! ### utils.go -/

def buildBaseRequest (env : Env) (method url : String) (body : Option RequestBody) :
    Except error http.Request :=
  let bodyReader : Except error (Option String) :=
    match body with
    | some b =>
      match env.Marshal b with
      | .error err => .error ("failed to marshal request body: " ++ err)
      | .ok jsonBody => .ok (some jsonBody)
    | none => .ok none
  match bodyReader with
  | .error err => .error err
  | .ok bodyReader =>
    match http.NewRequestWithContext env.requestError env.parseURL method url bodyReader with
    | .error err => .error ("failed to create request: " ++ err)
    | .ok req =>
      .ok { req with Header := http.Header.Set req.Header "Content-Type" "application/json" }

def decodeResponse {T : Type} (unmarshal : json.Unmarshal T) (resp : http.Response) :
    Except error T :=
  if resp.StatusCode < 200 ∨ resp.StatusCode ≥ 300 then
    .error ("request failed with status code " ++ toString resp.StatusCode
      ++ ", response body: " ++ resp.Body.data)
  else
    match resp.Body.err with
    | some err => .error ("failed to read response body: " ++ err)
    | none =>
      match unmarshal resp.Body.data with
      | .error err => .error ("failed to unmarshal response body: " ++ err)
      | .ok target => .ok target

def buildURL (host apiPath : String) : String :=
  if host = "" then apiPath
  else if host.data.getLast? = some '/' then host ++ apiPath
  else host ++ "/" ++ apiPath

/-! ### admin_client.go -/

structure adminClientImpl where
  host : String
  apiKey : String
  httpClient : http.Client

def adminClientImpl.makeRequest (env : Env) (c : adminClientImpl) (method apiPath : String)
    (body : Option RequestBody) : Except error http.Response :=
  match buildBaseRequest env method (buildURL c.host apiPath) body with
  | .error err => .error err
  | .ok req =>
    let req := { req with Header := http.Header.Set req.Header "Authorization" ("Bearer " ++ c.apiKey) }
    match c.httpClient.Do req with
    | .error err => .error ("failed to make request: " ++ err)
    | .ok resp => .ok resp

def adminClientImpl.ListOrganizations (env : Env) (c : adminClientImpl) :
    Except error (List (Option Organization)) :=
  match c.makeRequest env http.MethodGet "api/admin/organizations" none with
  | .error err => .error err
  | .ok resp =>
    match decodeResponse env.unmarshalListOrganizations resp with
    | .error err => .error err
    | .ok listOrgResp => .ok listOrgResp.Organizations

def adminClientImpl.GetOrganization (env : Env) (c : adminClientImpl) (orgID : String) :
    Except error Organization :=
  match c.makeRequest env http.MethodGet ("api/admin/organizations/" ++ orgID) none with
  | .error err => .error err
  | .ok resp =>
    match decodeResponse env.unmarshalOrganization resp with
    | .error err => .error err
    | .ok org => .ok org

def adminClientImpl.CreateOrganization (env : Env) (c : adminClientImpl)
    (request : CreateOrganizationRequest) : Except error Organization :=
  match c.makeRequest env http.MethodPost "api/admin/organizations"
      (some (.CreateOrganization request)) with
  | .error err => .error err
  | .ok resp =>
    match decodeResponse env.unmarshalOrganization resp with
    | .error err => .error err
    | .ok org => .ok org

def adminClientImpl.UpdateOrganization (env : Env) (c : adminClientImpl) (orgID : String)
    (request : UpdateOrganizationRequest) : Except error Organization :=
  match c.makeRequest env http.MethodPut ("api/admin/organizations/" ++ orgID)
      (some (.UpdateOrganization request)) with
  | .error err => .error err
  | .ok resp =>
    match decodeResponse env.unmarshalOrganization resp with
    | .error err => .error err
    | .ok org => .ok org

def adminClientImpl.DeleteOrganization (env : Env) (c : adminClientImpl) (orgID : String) :
    Option error :=
  match c.makeRequest env http.MethodDelete ("api/admin/organizations/" ++ orgID) none with
  | .error err => some err
  | .ok resp =>
    match decodeResponse env.unmarshalDeleteOrganization resp with
    | .error err => some err
    | .ok deleteOrgResp =>
      if !deleteOrgResp.Success then
        some ("failed to delete organization with ID " ++ orgID)
      else none

def adminClientImpl.GetOrganizationApiKey (env : Env) (c : adminClientImpl)
    (orgID apiKeyID : String) : Except error OrganizationApiKey :=
  match c.makeRequest env http.MethodGet ("api/admin/organizations/" ++ orgID ++ "/apiKeys") none with
  | .error err => .error err
  | .ok resp =>
    match decodeResponse env.unmarshalListOrganizationApiKeys resp with
    | .error err => .error err
    | .ok listOrgApiKeysResp =>
      match listOrgApiKeysResp.ApiKeys.find? (fun key => decide (key.ID = apiKeyID)) with
      | some key => .ok key
      | none =>
        .error ("cannot find API key with ID " ++ apiKeyID ++ " in organization " ++ orgID)

def adminClientImpl.CreateOrganizationApiKey (env : Env) (c : adminClientImpl)
    (orgID : String) : Except error OrganizationApiKey :=
  match c.makeRequest env http.MethodPost ("api/admin/organizations/" ++ orgID ++ "/apiKeys") none with
  | .error err => .error err
  | .ok resp =>
    match decodeResponse env.unmarshalOrganizationApiKey resp with
    | .error err => .error err
    | .ok apiKey => .ok apiKey

def adminClientImpl.DeleteOrganizationApiKey (env : Env) (c : adminClientImpl)
    (orgID apiKeyID : String) : Option error :=
  match c.makeRequest env http.MethodDelete
      ("api/admin/organizations/" ++ orgID ++ "/apiKeys/" ++ apiKeyID) none with
  | .error err => some err
  | .ok resp =>
    match decodeResponse env.unmarshalDeleteOrganizationApiKey resp with
    | .error err => some err
    | .ok deleteOrgApiKeyResp =>
      if !deleteOrgApiKeyResp.Success then
        some ("failed to delete API key with ID " ++ apiKeyID ++ " in organization " ++ orgID)
      else none

/-! ### organization_client.go -/

structure organizationClientImpl where
  host : String
  publicKey : String
  privateKey : String
  httpClient : http.Client

/-- `req.SetBasicAuth(username, password)`. -/
def SetBasicAuth (env : Env) (req : http.Request) (username password : String) : http.Request :=
  let credentials := env.base64 (username ++ ":" ++ password)
  { req with Header := http.Header.Set req.Header "Authorization" ("Basic " ++ credentials) }

def organizationClientImpl.makeRequest (env : Env) (c : organizationClientImpl)
    (methodType apiPath : String) (body : Option RequestBody) : Except error http.Response :=
  match buildBaseRequest env methodType (buildURL c.host apiPath) body with
  | .error err => .error err
  | .ok req =>
    let req := SetBasicAuth env req c.publicKey c.privateKey
    match c.httpClient.Do req with
    | .error err => .error ("failed to make request: " ++ err)
    | .ok resp => .ok resp

/-- Result of a call that can also abort on a nil pointer dereference. -/
inductive Outcome (α : Type) where
  | ok (value : α)
  | err (e : error)
  | panic
  deriving DecidableEq, Repr

def organizationClientImpl.ListProjects (env : Env) (c : organizationClientImpl) :
    Except error (List (Option Project)) :=
  match c.makeRequest env http.MethodGet "api/public/organizations/projects" none with
  | .error err => .error err
  | .ok resp =>
    match decodeResponse env.unmarshalListProjects resp with
    | .error err => .error err
    | .ok listProjResp => .ok listProjResp.Projects

/-- The scan of `GetProject`: `proj.ID` is read through the pointer, so a nil entry reached
before a match aborts the call. -/
def scanProjects (projectID : String) : List (Option Project) → Outcome Project
  | [] => .err ("cannot find project with ID " ++ projectID)
  | none :: _ => .panic
  | some proj :: rest => if proj.ID = projectID then .ok proj else scanProjects projectID rest

def organizationClientImpl.GetProject (env : Env) (c : organizationClientImpl)
    (projectID : String) : Outcome Project :=
  match c.makeRequest env http.MethodGet "api/public/organizations/projects" none with
  | .error err => .err err
  | .ok resp =>
    match decodeResponse env.unmarshalListProjects resp with
    | .error err => .err err
    | .ok listProjResp => scanProjects projectID listProjResp.Projects

def organizationClientImpl.CreateProject (env : Env) (c : organizationClientImpl)
    (request : CreateProjectRequest) : Except error Project :=
  match c.makeRequest env http.MethodPost "api/public/projects" (some (.CreateProject request)) with
  | .error err => .error err
  | .ok resp =>
    match decodeResponse env.unmarshalProject resp with
    | .error err => .error err
    | .ok proj => .ok proj

def organizationClientImpl.UpdateProject (env : Env) (c : organizationClientImpl)
    (projectID : String) (request : UpdateProjectRequest) : Except error Project :=
  match c.makeRequest env http.MethodPut ("api/public/projects/" ++ projectID)
      (some (.UpdateProject request)) with
  | .error err => .error err
  | .ok resp =>
    match decodeResponse env.unmarshalProject resp with
    | .error err => .error err
    | .ok proj => .ok proj

def organizationClientImpl.DeleteProject (env : Env) (c : organizationClientImpl)
    (projectID : String) : Option error :=
  match c.makeRequest env http.MethodDelete ("api/public/projects/" ++ projectID) none with
  | .error err => some err
  | .ok resp =>
    match decodeResponse env.unmarshalDeleteProject resp with
    | .error err => some err
    | .ok deleteProjResp =>
      if !deleteProjResp.Success then
        some ("failed to delete project with ID " ++ projectID ++ ": " ++ deleteProjResp.Message)
      else none

def organizationClientImpl.GetProjectApiKey (env : Env) (c : organizationClientImpl)
    (projectID apiKeyID : String) : Except error ProjectApiKey :=
  match c.makeRequest env http.MethodGet ("api/public/projects/" ++ projectID ++ "/apiKeys") none with
  | .error err => .error err
  | .ok resp =>
    match decodeResponse env.unmarshalListProjectApiKeys resp with
    | .error err => .error err
    | .ok listProjApiKeysResp =>
      match listProjApiKeysResp.ApiKeys.find? (fun key => decide (key.ID = apiKeyID)) with
      | some key => .ok key
      | none =>
        .error ("cannot find API key with ID " ++ apiKeyID ++ " in project " ++ projectID)

def organizationClientImpl.CreateProjectApiKey (env : Env) (c : organizationClientImpl)
    (projectID : String) : Except error ProjectApiKey :=
  match c.makeRequest env http.MethodPost ("api/public/projects/" ++ projectID ++ "/apiKeys") none with
  | .error err => .error err
  | .ok resp =>
    match decodeResponse env.unmarshalProjectApiKey resp with
    | .error err => .error err
    | .ok apiKey => .ok apiKey

def organizationClientImpl.DeleteProjectApiKey (env : Env) (c : organizationClientImpl)
    (projectID apiKeyID : String) : Option error :=
  match c.makeRequest env http.MethodDelete
      ("api/public/projects/" ++ projectID ++ "/apiKeys/" ++ apiKeyID) none with
  | .error err => some err
  | .ok resp =>
    match decodeResponse env.unmarshalDeleteProjectApiKey resp with
    | .error err => some err
    | .ok deleteProjApiKeyResp =>
      if !deleteProjApiKeyResp.Success then
        some ("failed to delete API key with ID " ++ apiKeyID ++ " in project " ++ projectID)
      else none

/-! ### The `AdminClient` interface and its implementation -/

/-- The `AdminClient` interface: one function per method. A `(*T, error)` result is taken
to be either a value or an error. -/
structure AdminClient where
  ListOrganizations : Except error (List (Option Organization))
  GetOrganization : String → Except error Organization
  CreateOrganization : CreateOrganizationRequest → Except error Organization
  UpdateOrganization : String → UpdateOrganizationRequest → Except error Organization
  DeleteOrganization : String → Option error
  GetOrganizationApiKey : String → String → Except error OrganizationApiKey
  CreateOrganizationApiKey : String → Except error OrganizationApiKey
  DeleteOrganizationApiKey : String → String → Option error

/-- An `adminClientImpl` seen through the `AdminClient` interface. -/
def adminClientImpl.asAdminClient (env : Env) (c : adminClientImpl) : AdminClient :=
  { ListOrganizations := c.ListOrganizations env
    GetOrganization := c.GetOrganization env
    CreateOrganization := c.CreateOrganization env
    UpdateOrganization := c.UpdateOrganization env
    DeleteOrganization := c.DeleteOrganization env
    GetOrganizationApiKey := c.GetOrganizationApiKey env
    CreateOrganizationApiKey := c.CreateOrganizationApiKey env
    DeleteOrganizationApiKey := c.DeleteOrganizationApiKey env }

/-- `NewAdminClient(host, apiKey)`; the fresh `http.Client` is the given round tripper. -/
def NewAdminClient (env : Env) (httpClient : http.Client) (host apiKey : String) : AdminClient :=
  adminClientImpl.asAdminClient env { host := host, apiKey := apiKey, httpClient := httpClient }

/-- `NewOrganizationClient(host, publicKey, privateKey)`. -/
def NewOrganizationClient (httpClient : http.Client) (host publicKey privateKey : String) :
    organizationClientImpl :=
  { host := host, publicKey := publicKey, privateKey := privateKey, httpClient := httpClient }

/-! ### client_factory.go -/

structure clientFactoryImpl where
  host : String
  adminApiKey : String

def NewClientFactory (host adminApiKey : String) : clientFactoryImpl :=
  { host := host, adminApiKey := adminApiKey }

def clientFactoryImpl.NewAdminClient (env : Env) (httpClient : http.Client)
    (cf : clientFactoryImpl) : AdminClient :=
  internal.langfuse.NewAdminClient env httpClient cf.host cf.adminApiKey

def clientFactoryImpl.NewOrganizationClient (httpClient : http.Client) (cf : clientFactoryImpl)
    (publicKey privateKey : String) : organizationClientImpl :=
  internal.langfuse.NewOrganizationClient httpClient cf.host publicKey privateKey

end internal.langfuse

namespace internal.langfuse

/-- One invocation of an `AdminClient` method, with its arguments. -/
inductive AdminClient.Call where
  | ListOrganizations
  | GetOrganization (orgID : String)
  | CreateOrganization (request : CreateOrganizationRequest)
  | UpdateOrganization (orgID : String) (request : UpdateOrganizationRequest)
  | DeleteOrganization (orgID : String)
  | GetOrganizationApiKey (orgID apiKeyID : String)
  | CreateOrganizationApiKey (orgID : String)
  | DeleteOrganizationApiKey (orgID apiKeyID : String)
  deriving DecidableEq, Repr

end internal.langfuse

/-! ## `internal/provider`: the organization and organization-credential reconcilers -/

namespace internal.provider

open internal.langfuse (AdminClient)

/-! ### organization_resource.go -/

structure organizationResourceModel where
  ID : basetypes.StringValue
  Name : basetypes.StringValue
  deriving DecidableEq, Repr

/-- The zero value `organizationResourceModel{}`. -/
instance : Inhabited organizationResourceModel := ⟨{ ID := .null, Name := .null }⟩

structure organizationResource where
  AdminClient : AdminClient

def organizationResource.Schema : schema.Schema :=
  { Attributes :=
      [ ("id", .StringAttribute { Computed := true }),
        ("name", .StringAttribute
          { Required := true, Description := "The display name of the organization." }) ] }

/-- The schema the resource declares and the tagged fields of `organizationResourceModel`. -/
instance : tfsdk.Target organizationResourceModel :=
  { Schema := organizationResource.Schema
    Fields := [("id", .StringValue), ("name", .StringValue)] }

def organizationResource.Create (r : organizationResource)
    (req : resource.CreateRequest organizationResourceModel)
    (resp : resource.CreateResponse organizationResourceModel) :
    resource.Ran AdminClient.Call (resource.CreateResponse organizationResourceModel) :=
  let got := req.Config.Get
  let data := got.2
  let resp := { resp with Diagnostics := resp.Diagnostics.Append got.1 }
  if resp.Diagnostics.HasError then { resp := resp, calls := [] }
  else
    let request : langfuse.CreateOrganizationRequest :=
      { Name := data.Name.ValueString, Metadata := [] }
    match r.AdminClient.CreateOrganization request with
    | .error err =>
      { resp := { resp with
          Diagnostics := resp.Diagnostics.AddError "Error creating organization" err }
        calls := [.CreateOrganization request] }
    | .ok org =>
      let set := resp.State.Set
        { ID := types.StringValue org.ID, Name := types.StringValue org.Name }
      { resp := { State := set.1, Diagnostics := resp.Diagnostics.Append set.2 }
        calls := [.CreateOrganization request] }

def organizationResource.Read (r : organizationResource)
    (req : resource.ReadRequest organizationResourceModel)
    (resp : resource.ReadResponse organizationResourceModel) :
    resource.Ran AdminClient.Call (resource.ReadResponse organizationResourceModel) :=
  let got := req.State.Get
  let data := got.2
  let resp := { resp with Diagnostics := resp.Diagnostics.Append got.1 }
  if resp.Diagnostics.HasError then { resp := resp, calls := [] }
  else
    match r.AdminClient.GetOrganization data.ID.ValueString with
    | .error err =>
      { resp := { resp with
          Diagnostics := resp.Diagnostics.AddError "Error reading organization" err }
        calls := [.GetOrganization data.ID.ValueString] }
    | .ok org =>
      let set := resp.State.Set
        { ID := types.StringValue org.ID, Name := types.StringValue org.Name }
      { resp := { State := set.1, Diagnostics := resp.Diagnostics.Append set.2 }
        calls := [.GetOrganization data.ID.ValueString] }

def organizationResource.Update (r : organizationResource)
    (req : resource.UpdateRequest organizationResourceModel)
    (resp : resource.UpdateResponse organizationResourceModel) :
    resource.Ran AdminClient.Call (resource.UpdateResponse organizationResourceModel) :=
  let got := req.Config.Get
  let data := got.2
  let resp := { resp with Diagnostics := resp.Diagnostics.Append got.1 }
  if resp.Diagnostics.HasError then { resp := resp, calls := [] }
  else
    let request : langfuse.UpdateOrganizationRequest :=
      { Name := data.Name.ValueString, Metadata := [] }
    match r.AdminClient.UpdateOrganization data.ID.ValueString request with
    | .error err =>
      { resp := { resp with
          Diagnostics := resp.Diagnostics.AddError "Error updating organization" err }
        calls := [.UpdateOrganization data.ID.ValueString request] }
    | .ok org =>
      let set := resp.State.Set
        { ID := types.StringValue org.ID, Name := types.StringValue org.Name }
      { resp := { State := set.1, Diagnostics := resp.Diagnostics.Append set.2 }
        calls := [.UpdateOrganization data.ID.ValueString request] }

def organizationResource.Delete (r : organizationResource)
    (req : resource.DeleteRequest organizationResourceModel)
    (resp : resource.DeleteResponse organizationResourceModel) :
    resource.Ran AdminClient.Call (resource.DeleteResponse organizationResourceModel) :=
  let got := req.State.Get
  let data := got.2
  let resp := { resp with Diagnostics := resp.Diagnostics.Append got.1 }
  if resp.Diagnostics.HasError then { resp := resp, calls := [] }
  else
    match r.AdminClient.DeleteOrganization data.ID.ValueString with
    | some err =>
      { resp := { resp with
          Diagnostics := resp.Diagnostics.AddError "Error deleting organization" err }
        calls := [.DeleteOrganization data.ID.ValueString] }
    | none =>
      let set := resp.State.Set (default : organizationResourceModel)
      { resp := { State := set.1, Diagnostics := resp.Diagnostics.Append set.2 }
        calls := [.DeleteOrganization data.ID.ValueString] }

/-! ### organization_api_key_resource.go -/

structure organizationApiKeyResourceModel where
  ID : basetypes.StringValue
  OrganizationID : basetypes.StringValue
  PublicKey : basetypes.StringValue
  SecretKey : basetypes.StringValue
  deriving DecidableEq, Repr

/-- The zero value `organizationApiKeyResourceModel{}`. -/
instance : Inhabited organizationApiKeyResourceModel :=
  ⟨{ ID := .null, OrganizationID := .null, PublicKey := .null, SecretKey := .null }⟩

structure organizationApiKeyResource where
  AdminClient : AdminClient

def organizationApiKeyResource.Schema : schema.Schema :=
  { Attributes :=
      [ ("id", .StringAttribute { Computed := true }),
        ("organization_id", .StringAttribute
          { Required := true
            Description := "The Langfuse organization the key belongs to."
            PlanModifiers := [.RequiresReplace] }),
        ("public_key", .StringAttribute
          { Computed := true, Sensitive := true
            Description := "The public value of the API key (only returned at creation time)."
            PlanModifiers := [.UseStateForUnknown] }),
        ("secret_key", .StringAttribute
          { Computed := true, Sensitive := true
            Description := "The secret value of the API key (only returned at creation time)."
            PlanModifiers := [.UseStateForUnknown] }) ] }

/-- The schema the resource declares and the tagged fields of `organizationApiKeyResourceModel`. -/
instance : tfsdk.Target organizationApiKeyResourceModel :=
  { Schema := organizationApiKeyResource.Schema
    Fields := [("id", .StringValue), ("organization_id", .StringValue), ("public_key", .StringValue),
      ("secret_key", .StringValue)] }

def organizationApiKeyResource.Create (r : organizationApiKeyResource)
    (req : resource.CreateRequest organizationApiKeyResourceModel)
    (resp : resource.CreateResponse organizationApiKeyResourceModel) :
    resource.Ran AdminClient.Call (resource.CreateResponse organizationApiKeyResourceModel) :=
  let got := req.Config.Get
  let data := got.2
  let resp := { resp with Diagnostics := resp.Diagnostics.Append got.1 }
  if resp.Diagnostics.HasError then { resp := resp, calls := [] }
  else
    match r.AdminClient.CreateOrganizationApiKey data.OrganizationID.ValueString with
    | .error err =>
      { resp := { resp with
          Diagnostics := resp.Diagnostics.AddError "Error creating organization API key" err }
        calls := [.CreateOrganizationApiKey data.OrganizationID.ValueString] }
    | .ok orgKey =>
      let set := resp.State.Set
        { ID := types.StringValue orgKey.ID
          OrganizationID := types.StringValue data.OrganizationID.ValueString
          PublicKey := types.StringValue orgKey.PublicKey
          SecretKey := types.StringValue orgKey.SecretKey }
      { resp := { State := set.1, Diagnostics := resp.Diagnostics.Append set.2 }
        calls := [.CreateOrganizationApiKey data.OrganizationID.ValueString] }

def organizationApiKeyResource.Read (r : organizationApiKeyResource)
    (req : resource.ReadRequest organizationApiKeyResourceModel)
    (resp : resource.ReadResponse organizationApiKeyResourceModel) :
    resource.Ran AdminClient.Call (resource.ReadResponse organizationApiKeyResourceModel) :=
  let got := req.State.Get
  let data := got.2
  let resp := { resp with Diagnostics := resp.Diagnostics.Append got.1 }
  if resp.Diagnostics.HasError then { resp := resp, calls := [] }
  else
    match r.AdminClient.GetOrganizationApiKey data.OrganizationID.ValueString
        data.ID.ValueString with
    | .error _ =>
      { resp := { resp with State := resp.State.RemoveResource }
        calls := [.GetOrganizationApiKey data.OrganizationID.ValueString data.ID.ValueString] }
    | .ok _ =>
      let set := resp.State.Set data
      { resp := { State := set.1, Diagnostics := resp.Diagnostics.Append set.2 }
        calls := [.GetOrganizationApiKey data.OrganizationID.ValueString data.ID.ValueString] }

def organizationApiKeyResource.Update (_r : organizationApiKeyResource)
    (_req : resource.UpdateRequest organizationApiKeyResourceModel)
    (resp : resource.UpdateResponse organizationApiKeyResourceModel) :
    resource.Ran AdminClient.Call (resource.UpdateResponse organizationApiKeyResourceModel) :=
  { resp := resp, calls := [] }

def organizationApiKeyResource.Delete (r : organizationApiKeyResource)
    (req : resource.DeleteRequest organizationApiKeyResourceModel)
    (resp : resource.DeleteResponse organizationApiKeyResourceModel) :
    resource.Ran AdminClient.Call (resource.DeleteResponse organizationApiKeyResourceModel) :=
  let got := req.State.Get
  let data := got.2
  let resp := { resp with Diagnostics := resp.Diagnostics.Append got.1 }
  if resp.Diagnostics.HasError then { resp := resp, calls := [] }
  else
    match r.AdminClient.DeleteOrganizationApiKey data.OrganizationID.ValueString
        data.ID.ValueString with
    | some err =>
      { resp := { resp with
          Diagnostics := resp.Diagnostics.AddError "Error deleting organization API key" err }
        calls := [.DeleteOrganizationApiKey data.OrganizationID.ValueString data.ID.ValueString] }
    | none =>
      let set := resp.State.Set (default : organizationApiKeyResourceModel)
      { resp := { State := set.1, Diagnostics := resp.Diagnostics.Append set.2 }
        calls := [.DeleteOrganizationApiKey data.OrganizationID.ValueString data.ID.ValueString] }

end internal.provider

/-! ## `langfuse`: the client interface the project-level reconcilers are written against -/

namespace langfuse

structure Project where
  ID : String
  Name : String
  Retention : Int
  deriving DecidableEq, Repr

structure ProjectApiKey where
  ID : String
  ProjectID : String
  PublicKey : String
  SecretKey : String
  deriving DecidableEq, Repr

structure UpdateProjectRequest where
  Name : String
  Retention : Int
  Metadata : List (String × String)
  deriving DecidableEq, Repr

/-- The `OrganizationClient` interface: one function per method. A `(*T, error)` result is
taken to be either a value or an error. -/
structure OrganizationClient where
  GetProject : String → Except error Project
  CreateProject : Project → Except error Project
  UpdateProject : String → UpdateProjectRequest → Except error Project
  DeleteProject : String → Option error
  GetProjectApiKey : String → String → Except error ProjectApiKey
  CreateProjectApiKey : String → Except error ProjectApiKey
  DeleteProjectApiKey : String → Option error

/-- One invocation of an `OrganizationClient` method, with its arguments. -/
inductive OrganizationClient.Call where
  | GetProject (projectID : String)
  | CreateProject (project : Project)
  | UpdateProject (projectID : String) (request : UpdateProjectRequest)
  | DeleteProject (projectID : String)
  | GetProjectApiKey (projectID apiKeyID : String)
  | CreateProjectApiKey (projectID : String)
  | DeleteProjectApiKey (projectID : String)
  deriving DecidableEq, Repr

/-- The client factory as the reconcilers use it: `NewOrganizationClient(publicKey,
privateKey)` yields the client scoped by that key pair. -/
structure ClientFactory where
  NewOrganizationClient : String → String → OrganizationClient

/-- A call made on a client obtained from the factory: the key pair the client was
constructed with, and the method invoked on it. -/
structure ClientFactory.Call where
  publicKey : String
  privateKey : String
  call : OrganizationClient.Call
  deriving DecidableEq, Repr

end langfuse

/-! ## `provider`: the project and project-credential reconcilers -/

namespace provider

open langfuse (ClientFactory)

/-! ### project_resource.go -/

structure projectResourceModel where
  ID : basetypes.StringValue
  Name : basetypes.StringValue
  Retention : basetypes.Int32Value
  OrganizationPublicKey : basetypes.StringValue
  OrganizationPrivateKey : basetypes.StringValue
  deriving DecidableEq, Repr

/-- The zero value `projectResourceModel{}`. -/
instance : Inhabited projectResourceModel :=
  ⟨{ ID := .null, Name := .null, Retention := .null, OrganizationPublicKey := .null,
     OrganizationPrivateKey := .null }⟩

structure projectResource where
  ClientFactory : ClientFactory

def projectResource.Schema : schema.Schema :=
  { Attributes :=
      [ ("id", .StringAttribute { Computed := true }),
        ("name", .StringAttribute
          { Required := true, Description := "The display name of the project." }),
        ("retention", .Int64Attribute
          { Optional := true
            Description := "The retention period for the project in days. If not set, or set "
              ++ "with a value of 0, data will be stored indefinitely." }),
        ("organization_public_key", .StringAttribute
          { Optional := false, Sensitive := true
            Description := "Organization public key to authenticate the call."
            PlanModifiers := [.UseStateForUnknown] }),
        ("organization_private_key", .StringAttribute
          { Optional := false, Sensitive := true
            Description := "Organization private key to authenticate the call."
            PlanModifiers := [.UseStateForUnknown] }) ] }

/-- The schema the resource declares and the tagged fields of `projectResourceModel`. The
field tagged `retention` is a `types.Int32` and the schema declares `retention` as an int64
attribute, so no object of the schema decodes into the struct. -/
instance : tfsdk.Target projectResourceModel :=
  { Schema := projectResource.Schema
    Fields := [("id", .StringValue), ("name", .StringValue), ("retention", .Int32Value),
      ("organization_public_key", .StringValue),
      ("organization_private_key", .StringValue)] }

def projectResource.Create (r : projectResource)
    (req : resource.CreateRequest projectResourceModel)
    (resp : resource.CreateResponse projectResourceModel) :
    resource.Ran ClientFactory.Call (resource.CreateResponse projectResourceModel) :=
  let got := req.Config.Get
  let data := got.2
  let resp := { resp with Diagnostics := resp.Diagnostics.Append got.1 }
  if resp.Diagnostics.HasError then { resp := resp, calls := [] }
  else
    let publicKey := data.OrganizationPublicKey.ValueString
    let privateKey := data.OrganizationPrivateKey.ValueString
    let organizationClient := r.ClientFactory.NewOrganizationClient publicKey privateKey
    let request : langfuse.Project :=
      { ID := "", Name := data.Name.ValueString, Retention := data.Retention.ValueInt32 }
    match organizationClient.CreateProject request with
    | .error err =>
      { resp := { resp with
          Diagnostics := resp.Diagnostics.AddError "Error creating project" err }
        calls := [⟨publicKey, privateKey, .CreateProject request⟩] }
    | .ok project =>
      let set := resp.State.Set
        { ID := types.StringValue project.ID
          Name := types.StringValue project.Name
          Retention := types.Int32Value project.Retention
          OrganizationPublicKey := types.StringValue data.OrganizationPublicKey.ValueString
          OrganizationPrivateKey := types.StringValue data.OrganizationPrivateKey.ValueString }
      { resp := { State := set.1, Diagnostics := resp.Diagnostics.Append set.2 }
        calls := [⟨publicKey, privateKey, .CreateProject request⟩] }

def projectResource.Read (r : projectResource)
    (req : resource.ReadRequest projectResourceModel)
    (resp : resource.ReadResponse projectResourceModel) :
    resource.Ran ClientFactory.Call (resource.ReadResponse projectResourceModel) :=
  let got := req.State.Get
  let data := got.2
  let resp := { resp with Diagnostics := resp.Diagnostics.Append got.1 }
  if resp.Diagnostics.HasError then { resp := resp, calls := [] }
  else
    let publicKey := data.OrganizationPublicKey.ValueString
    let privateKey := data.OrganizationPrivateKey.ValueString
    let organizationClient := r.ClientFactory.NewOrganizationClient publicKey privateKey
    match organizationClient.GetProject data.ID.ValueString with
    | .error err =>
      { resp := { resp with
          Diagnostics := resp.Diagnostics.AddError "Error reading project" err }
        calls := [⟨publicKey, privateKey, .GetProject data.ID.ValueString⟩] }
    | .ok project =>
      let set := resp.State.Set
        { ID := types.StringValue project.ID
          Name := types.StringValue project.Name
          Retention := types.Int32Value project.Retention
          OrganizationPublicKey := types.StringValue data.OrganizationPublicKey.ValueString
          OrganizationPrivateKey := types.StringValue data.OrganizationPrivateKey.ValueString }
      { resp := { State := set.1, Diagnostics := resp.Diagnostics.Append set.2 }
        calls := [⟨publicKey, privateKey, .GetProject data.ID.ValueString⟩] }

def projectResource.Update (r : projectResource)
    (req : resource.UpdateRequest projectResourceModel)
    (resp : resource.UpdateResponse projectResourceModel) :
    resource.Ran ClientFactory.Call (resource.UpdateResponse projectResourceModel) :=
  let got := req.Config.Get
  let data := got.2
  let resp := { resp with Diagnostics := resp.Diagnostics.Append got.1 }
  if resp.Diagnostics.HasError then { resp := resp, calls := [] }
  else
    let publicKey := data.OrganizationPublicKey.ValueString
    let privateKey := data.OrganizationPrivateKey.ValueString
    let organizationClient := r.ClientFactory.NewOrganizationClient publicKey privateKey
    let opts : langfuse.UpdateProjectRequest :=
      { Name := data.Name.ValueString, Retention := data.Retention.ValueInt32, Metadata := [] }
    match organizationClient.UpdateProject data.ID.ValueString opts with
    | .error err =>
      { resp := { resp with
          Diagnostics := resp.Diagnostics.AddError "Error updating project" err }
        calls := [⟨publicKey, privateKey, .UpdateProject data.ID.ValueString opts⟩] }
    | .ok project =>
      let set := resp.State.Set
        { ID := types.StringValue project.ID
          Name := types.StringValue project.Name
          Retention := types.Int32Value project.Retention
          OrganizationPublicKey := types.StringValue data.OrganizationPublicKey.ValueString
          OrganizationPrivateKey := types.StringValue data.OrganizationPrivateKey.ValueString }
      { resp := { State := set.1, Diagnostics := resp.Diagnostics.Append set.2 }
        calls := [⟨publicKey, privateKey, .UpdateProject data.ID.ValueString opts⟩] }

def projectResource.Delete (r : projectResource)
    (req : resource.DeleteRequest projectResourceModel)
    (resp : resource.DeleteResponse projectResourceModel) :
    resource.Ran ClientFactory.Call (resource.DeleteResponse projectResourceModel) :=
  let got := req.State.Get
  let data := got.2
  let resp := { resp with Diagnostics := resp.Diagnostics.Append got.1 }
  if resp.Diagnostics.HasError then { resp := resp, calls := [] }
  else
    let publicKey := data.OrganizationPublicKey.ValueString
    let privateKey := data.OrganizationPrivateKey.ValueString
    let organizationClient := r.ClientFactory.NewOrganizationClient publicKey privateKey
    match organizationClient.DeleteProject data.ID.ValueString with
    | some err =>
      { resp := { resp with
          Diagnostics := resp.Diagnostics.AddError "Error deleting project" err }
        calls := [⟨publicKey, privateKey, .DeleteProject data.ID.ValueString⟩] }
    | none =>
      let set := resp.State.Set (default : projectResourceModel)
      { resp := { State := set.1, Diagnostics := resp.Diagnostics.Append set.2 }
        calls := [⟨publicKey, privateKey, .DeleteProject data.ID.ValueString⟩] }

/-! ### project_api_key_resource.go -/

structure projectApiKeyResourceModel where
  ID : basetypes.StringValue
  OrganizationPublicKey : basetypes.StringValue
  OrganizationPrivateKey : basetypes.StringValue
  ProjectID : basetypes.StringValue
  PublicKey : basetypes.StringValue
  SecretKey : basetypes.StringValue
  deriving DecidableEq, Repr

/-- The zero value `projectApiKeyResourceModel{}`. -/
instance : Inhabited projectApiKeyResourceModel :=
  ⟨{ ID := .null, OrganizationPublicKey := .null, OrganizationPrivateKey := .null,
     ProjectID := .null, PublicKey := .null, SecretKey := .null }⟩

structure projectApiKeyResource where
  ClientFactory : ClientFactory

def projectApiKeyResource.Schema : schema.Schema :=
  { Attributes :=
      [ ("id", .StringAttribute { Computed := true }),
        ("project_id", .StringAttribute
          { Required := true
            Description := "The ID of the project the key belongs to."
            PlanModifiers := [.RequiresReplace] }),
        ("organization_public_key", .StringAttribute
          { Required := true
            Description := "Organization public key to authenticate the call."
            PlanModifiers := [.UseStateForUnknown] }),
        ("organization_private_key", .StringAttribute
          { Required := true, Sensitive := true
            Description := "Organization private key to authenticate the call."
            PlanModifiers := [.UseStateForUnknown] }),
        ("public_key", .StringAttribute
          { Computed := true, Sensitive := true
            Description := "The public value of the API key (only returned at creation time)."
            PlanModifiers := [.UseStateForUnknown] }),
        ("secret_key", .StringAttribute
          { Computed := true, Sensitive := true
            Description := "The secret value of the API key (only returned at creation time)."
            PlanModifiers := [.UseStateForUnknown] }) ] }

/-- The schema the resource declares and the tagged fields of `projectApiKeyResourceModel`. -/
instance : tfsdk.Target projectApiKeyResourceModel :=
  { Schema := projectApiKeyResource.Schema
    Fields := [("id", .StringValue), ("organization_public_key", .StringValue),
      ("organization_private_key", .StringValue), ("project_id", .StringValue),
      ("public_key", .StringValue), ("secret_key", .StringValue)] }

def projectApiKeyResource.Create (r : projectApiKeyResource)
    (req : resource.CreateRequest projectApiKeyResourceModel)
    (resp : resource.CreateResponse projectApiKeyResourceModel) :
    resource.Ran ClientFactory.Call (resource.CreateResponse projectApiKeyResourceModel) :=
  let got := req.Config.Get
  let data := got.2
  let resp := { resp with Diagnostics := resp.Diagnostics.Append got.1 }
  if resp.Diagnostics.HasError then { resp := resp, calls := [] }
  else
    let publicKey := data.OrganizationPublicKey.ValueString
    let privateKey := data.OrganizationPrivateKey.ValueString
    let organizationClient := r.ClientFactory.NewOrganizationClient publicKey privateKey
    match organizationClient.CreateProjectApiKey data.ProjectID.ValueString with
    | .error err =>
      { resp := { resp with
          Diagnostics := resp.Diagnostics.AddError "Error creating project API key" err }
        calls := [⟨publicKey, privateKey, .CreateProjectApiKey data.ProjectID.ValueString⟩] }
    | .ok projectApiKey =>
      let set := resp.State.Set
        { ID := types.StringValue projectApiKey.ID
          OrganizationPublicKey := types.StringValue data.OrganizationPublicKey.ValueString
          OrganizationPrivateKey := types.StringValue data.OrganizationPrivateKey.ValueString
          ProjectID := types.StringValue data.ProjectID.ValueString
          PublicKey := types.StringValue projectApiKey.PublicKey
          SecretKey := types.StringValue projectApiKey.SecretKey }
      { resp := { State := set.1, Diagnostics := resp.Diagnostics.Append set.2 }
        calls := [⟨publicKey, privateKey, .CreateProjectApiKey data.ProjectID.ValueString⟩] }

def projectApiKeyResource.Read (r : projectApiKeyResource)
    (req : resource.ReadRequest projectApiKeyResourceModel)
    (resp : resource.ReadResponse projectApiKeyResourceModel) :
    resource.Ran ClientFactory.Call (resource.ReadResponse projectApiKeyResourceModel) :=
  let got := req.State.Get
  let data := got.2
  let resp := { resp with Diagnostics := resp.Diagnostics.Append got.1 }
  if resp.Diagnostics.HasError then { resp := resp, calls := [] }
  else
    let publicKey := data.OrganizationPublicKey.ValueString
    let privateKey := data.OrganizationPrivateKey.ValueString
    let organizationClient := r.ClientFactory.NewOrganizationClient publicKey privateKey
    match organizationClient.GetProject data.ProjectID.ValueString with
    | .error _ =>
      { resp := { resp with State := resp.State.RemoveResource }
        calls := [⟨publicKey, privateKey, .GetProject data.ProjectID.ValueString⟩] }
    | .ok _ =>
      let set := resp.State.Set data
      { resp := { State := set.1, Diagnostics := resp.Diagnostics.Append set.2 }
        calls := [⟨publicKey, privateKey, .GetProject data.ProjectID.ValueString⟩] }

def projectApiKeyResource.Update (_r : projectApiKeyResource)
    (_req : resource.UpdateRequest projectApiKeyResourceModel)
    (resp : resource.UpdateResponse projectApiKeyResourceModel) :
    resource.Ran ClientFactory.Call (resource.UpdateResponse projectApiKeyResourceModel) :=
  { resp := resp, calls := [] }

def projectApiKeyResource.Delete (r : projectApiKeyResource)
    (req : resource.DeleteRequest projectApiKeyResourceModel)
    (resp : resource.DeleteResponse projectApiKeyResourceModel) :
    resource.Ran ClientFactory.Call (resource.DeleteResponse projectApiKeyResourceModel) :=
  let got := req.State.Get
  let data := got.2
  let resp := { resp with Diagnostics := resp.Diagnostics.Append got.1 }
  if resp.Diagnostics.HasError then { resp := resp, calls := [] }
  else
    let publicKey := data.OrganizationPublicKey.ValueString
    let privateKey := data.OrganizationPrivateKey.ValueString
    let organizationClient := r.ClientFactory.NewOrganizationClient publicKey privateKey
    match organizationClient.DeleteProjectApiKey data.ProjectID.ValueString with
    | some err =>
      { resp := { resp with
          Diagnostics := resp.Diagnostics.AddError "Error deleting project API key" err }
        calls := [⟨publicKey, privateKey, .DeleteProjectApiKey data.ProjectID.ValueString⟩] }
    | none =>
      let set := resp.State.Set (default : projectApiKeyResourceModel)
      { resp := { State := set.1, Diagnostics := resp.Diagnostics.Append set.2 }
        calls := [⟨publicKey, privateKey, .DeleteProjectApiKey data.ProjectID.ValueString⟩] }

end provider

/-! ## Host framework: resource metadata -/

namespace resource

structure MetadataRequest where
  ProviderTypeName : String
  deriving DecidableEq, Repr

structure MetadataResponse where
  TypeName : String
  deriving DecidableEq, Repr

end resource

namespace internal.provider

/-- `organizationResource.Metadata`; the receiver is not used. -/
def organizationResource.Metadata (req : resource.MetadataRequest)
    (_resp : resource.MetadataResponse) : resource.MetadataResponse :=
  { TypeName := req.ProviderTypeName ++ "_organization" }

/-- `organizationApiKeyResource.Metadata`; the receiver is not used. -/
def organizationApiKeyResource.Metadata (req : resource.MetadataRequest)
    (_resp : resource.MetadataResponse) : resource.MetadataResponse :=
  { TypeName := req.ProviderTypeName ++ "_organization_api_key" }

end internal.provider

namespace provider

/-- A `resource.Resource` value of the package as its constructors return it: an
unconfigured value, given by its dynamic type. The package's `organizationResource` is
declared in a file that is not among the sources; it is the type of
`internal/provider/organization_resource.go`. -/
inductive Resource where
  | organizationResource
  | projectResource
  | projectApiKeyResource
  deriving DecidableEq, Repr

def NewProjectResource : Resource := .organizationResource

def NewProjectApiKeyResource : Resource := .projectApiKeyResource

/-- `projectResource.Metadata`; the receiver is not used. -/
def projectResource.Metadata (req : resource.MetadataRequest)
    (_resp : resource.MetadataResponse) : resource.MetadataResponse :=
  { TypeName := req.ProviderTypeName ++ "_project" }

/-- `projectApiKeyResource.Metadata`; the receiver is not used. -/
def projectApiKeyResource.Metadata (req : resource.MetadataRequest)
    (_resp : resource.MetadataResponse) : resource.MetadataResponse :=
  { TypeName := req.ProviderTypeName ++ "_project_api_key" }

/-- `r.Metadata(ctx, req, &resp)` on a `resource.Resource`: the method of its dynamic
type. -/
def Resource.Metadata (r : Resource) (req : resource.MetadataRequest)
    (resp : resource.MetadataResponse) : resource.MetadataResponse :=
  match r with
  | .organizationResource => internal.provider.organizationResource.Metadata req resp
  | .projectResource => projectResource.Metadata req resp
  | .projectApiKeyResource => projectApiKeyResource.Metadata req resp

end provider

/-! ## Requests an operation sends -/

namespace http

/-- An operation, as a function of the round tripper, sends exactly the request `req`:
the answer to `req` decides its result (two round trippers that answer `req` alike give the
same result), and a transport failure on `req` is the operation's failure, with the text
`failed to make request: ` followed by the failure. -/
def SendsExactly {R : Type} (fail : error → R) (op : Client → R) (req : Request) : Prop :=
  (∀ first second : Client, first.Do req = second.Do req → op first = op second) ∧
  (∀ (httpClient : Client) (err : error), httpClient.Do req = .error err →
    op httpClient = fail ("failed to make request: " ++ err))

/-- An operation sends exactly one request, and that request satisfies `P`. -/
def Sends {R : Type} (fail : error → R) (op : Client → R) (P : Request → Prop) : Prop :=
  ∃ req : Request, P req ∧ SendsExactly fail op req

/-- An operation sends nothing: it fails with one and the same error whatever the round
tripper. -/
def SendsNothing {R : Type} (fail : error → R) (op : Client → R) : Prop :=
  ∃ err : error, ∀ httpClient : Client, op httpClient = fail err

/-- When `built` holds the operation sends exactly one request, and that request satisfies
`P`; when it does not hold the operation sends nothing. -/
def SendsWhen {R : Type} (built : Prop) (fail : error → R) (op : Client → R)
    (P : Request → Prop) : Prop :=
  (built → Sends fail op P) ∧ (¬ built → SendsNothing fail op)

end http

namespace internal.langfuse

/-- The request of this method, URL text and body can be built: `buildBaseRequest` returns a
request, so the body, if any, encodes and the standard library accepts the method and the
URL text. -/
def canBuild (env : Env) (method url : String) (body : Option RequestBody) : Prop :=
  ∃ req : http.Request, buildBaseRequest env method url body = .ok req

/-- The request carries basic-auth credentials with this user name and password, and its URL
is parsed from an API path joined to this host. -/
def carriesKeyPair (env : Env) (host publicKey privateKey : String) (req : http.Request) :
    Prop :=
  http.Header.Get req.Header "Authorization"
      = "Basic " ++ env.base64 (publicKey ++ ":" ++ privateKey) ∧
    ∃ apiPath, req.URL = env.parseURL (buildURL host apiPath)

end internal.langfuse

/-! ## Text containment -/

/-- The text `t` occurs in the text `s`. -/
def occursIn (t s : String) : Prop := t.data <:+: s.data

instance (t s : String) : Decidable (occursIn t s) := by
  unfold occursIn; infer_instance

/-! ## Sample inputs -/

namespace sample

/-- An admin client on which every operation succeeds. -/
def adminClient : internal.langfuse.AdminClient :=
  { ListOrganizations := .ok []
    GetOrganization := fun orgID => .ok { ID := orgID, Name := "Acme Inc", Metadata := [] }
    CreateOrganization := fun request =>
      .ok { ID := "org-123", Name := request.Name, Metadata := request.Metadata }
    UpdateOrganization := fun orgID request =>
      .ok { ID := orgID, Name := request.Name, Metadata := request.Metadata }
    DeleteOrganization := fun _ => none
    GetOrganizationApiKey := fun _ apiKeyID =>
      .ok { ID := apiKeyID, PublicKey := "pk-other", SecretKey := "" }
    CreateOrganizationApiKey := fun _ =>
      .ok { ID := "oak-123", PublicKey := "pk-1234", SecretKey := "sk-1234" }
    DeleteOrganizationApiKey := fun _ _ => none }

/-- An admin client on which every operation fails with the given error. -/
def failingAdminClient (e : error) : internal.langfuse.AdminClient :=
  { ListOrganizations := .error e
    GetOrganization := fun _ => .error e
    CreateOrganization := fun _ => .error e
    UpdateOrganization := fun _ _ => .error e
    DeleteOrganization := fun _ => some e
    GetOrganizationApiKey := fun _ _ => .error e
    CreateOrganizationApiKey := fun _ => .error e
    DeleteOrganizationApiKey := fun _ _ => some e }

/-- An organization-scoped client on which every operation succeeds; the lookup echoes the
id and reports retention 0. -/
def projectClient : langfuse.OrganizationClient :=
  { GetProject := fun projectID => .ok { ID := projectID, Name := "test-project", Retention := 0 }
    CreateProject := fun project => .ok { project with ID := "proj-123" }
    UpdateProject := fun projectID request =>
      .ok { ID := projectID, Name := request.Name, Retention := request.Retention }
    DeleteProject := fun _ => none
    GetProjectApiKey := fun projectID apiKeyID =>
      .ok { ID := apiKeyID, ProjectID := projectID, PublicKey := "", SecretKey := "" }
    CreateProjectApiKey := fun projectID =>
      .ok { ID := "pak-123", ProjectID := projectID, PublicKey := "pub", SecretKey := "sec" }
    DeleteProjectApiKey := fun _ => none }

def projectFactory : langfuse.ClientFactory :=
  { NewOrganizationClient := fun _ _ => projectClient }

/-- A factory whose clients fail every operation with the given error. -/
def failingProjectFactory (e : error) : langfuse.ClientFactory :=
  { NewOrganizationClient := fun _ _ =>
      { GetProject := fun _ => .error e
        CreateProject := fun _ => .error e
        UpdateProject := fun _ _ => .error e
        DeleteProject := fun _ => some e
        GetProjectApiKey := fun _ _ => .error e
        CreateProjectApiKey := fun _ => .error e
        DeleteProjectApiKey := fun _ => some e } }

/-- A factory whose clients report every project as missing from the listing. -/
def missingProjectFactory : langfuse.ClientFactory :=
  { NewOrganizationClient := fun _ _ =>
      { projectClient with
        GetProject := fun projectID => .error ("cannot find project with ID " ++ projectID) } }

/-- A factory whose clients work only when built from the key pair `pk_test_123` /
`sk_test_456`; built from any other pair they fail every operation. -/
def keyedFactory : langfuse.ClientFactory :=
  { NewOrganizationClient := fun publicKey privateKey =>
      if publicKey = "pk_test_123" ∧ privateKey = "sk_test_456" then projectClient
      else (failingProjectFactory "unauthorized").NewOrganizationClient publicKey privateKey }

/-- A factory whose clients still list the project but no longer hold the credential. -/
def credentialGoneFactory : langfuse.ClientFactory :=
  { NewOrganizationClient := fun _ _ =>
      { projectClient with
        GetProjectApiKey := fun projectID apiKeyID =>
          .error ("cannot find API key with ID " ++ apiKeyID ++ " in project " ++ projectID) } }

def organizationState : internal.provider.organizationResourceModel :=
  { ID := .known "org-123", Name := .known "Acme Inc" }

def organizationApiKeyState : internal.provider.organizationApiKeyResourceModel :=
  { ID := .known "oak-123", OrganizationID := .known "org-123"
    PublicKey := .known "pk-1234", SecretKey := .known "sk-1234" }

/-- The persisted project record of the unit test: retention 30. -/
def projectState : provider.projectResourceModel :=
  { ID := .known "proj-123", Name := .known "test-project", Retention := .known 30
    OrganizationPublicKey := .known "pub-key", OrganizationPrivateKey := .known "priv-key" }

def projectApiKeyState : provider.projectApiKeyResourceModel :=
  { ID := .known "pak-123", OrganizationPublicKey := .known "pk_test_123"
    OrganizationPrivateKey := .known "sk_test_456", ProjectID := .known "proj-123"
    PublicKey := .known "pub", SecretKey := .known "sec" }

/-- A configuration of the organization credential: only the parent id is declared. -/
def organizationApiKeyConfig : internal.provider.organizationApiKeyResourceModel :=
  { ID := .null, OrganizationID := .known "org-123", PublicKey := .null, SecretKey := .null }

def projectApiKeyConfig : provider.projectApiKeyResourceModel :=
  { ID := .null, OrganizationPublicKey := .known "pk_test_123"
    OrganizationPrivateKey := .known "sk_test_456", ProjectID := .known "proj-123"
    PublicKey := .null, SecretKey := .null }

def projectConfig : provider.projectResourceModel :=
  { ID := .null, Name := .known "ChatQA", Retention := .known 0
    OrganizationPublicKey := .known "pk_test_123"
    OrganizationPrivateKey := .known "sk_test_456" }

def organizationConfig : internal.provider.organizationResourceModel :=
  { ID := .null, Name := .known "Acme Inc" }

def deleteRefused : String := "\x7b\"success\":false\x7d"

def deleteProjectRefused : String := "\x7b\"success\":false,\"message\":\"in use\"\x7d"

def otherKeyListing : String :=
  "\x7b\"apiKeys\":[\x7b\"id\":\"oak-999\",\"publicKey\":\"pk-999\"\x7d]\x7d"

def otherProjectListing : String :=
  "\x7b\"projects\":[\x7b\"id\":\"proj-999\",\"name\":\"other\"\x7d]\x7d"

/-- A codec that decodes the sample bodies above and rejects everything else; every request
can be built, and a URL keeps the text it is parsed from, as the sample URLs do. -/
def env : internal.langfuse.Env :=
  { requestError := fun _ _ => none
    parseURL := fun text => { Text := text }
    Marshal := fun _ => .ok "null"
    base64 := fun s => s
    unmarshalOrganization := fun _ => .error "unexpected end of JSON input"
    unmarshalListOrganizations := fun _ => .error "unexpected end of JSON input"
    unmarshalDeleteOrganization := fun body =>
      if body = deleteRefused then .ok { Success := false }
      else .error "unexpected end of JSON input"
    unmarshalOrganizationApiKey := fun _ => .error "unexpected end of JSON input"
    unmarshalListOrganizationApiKeys := fun body =>
      if body = otherKeyListing then
        .ok { ApiKeys := [{ ID := "oak-999", PublicKey := "pk-999", SecretKey := "" }] }
      else .error "unexpected end of JSON input"
    unmarshalDeleteOrganizationApiKey := fun body =>
      if body = deleteRefused then .ok { Success := false }
      else .error "unexpected end of JSON input"
    unmarshalProject := fun _ => .error "unexpected end of JSON input"
    unmarshalListProjects := fun body =>
      if body = otherProjectListing then
        .ok { Projects := [some { ID := "proj-999", Name := "other", RetentionDays := 0
                                  Metadata := [] }] }
      else .error "unexpected end of JSON input"
    unmarshalDeleteProject := fun body =>
      if body = deleteProjectRefused then .ok { Success := false, Message := "in use" }
      else .error "unexpected end of JSON input"
    unmarshalProjectApiKey := fun _ => .error "unexpected end of JSON input"
    unmarshalListProjectApiKeys := fun _ => .error "unexpected end of JSON input"
    unmarshalDeleteProjectApiKey := fun body =>
      if body = deleteRefused then .ok { Success := false }
      else .error "unexpected end of JSON input" }

def twoKeyListing : String :=
  "\x7b\"apiKeys\":[\x7b\"id\":\"oak-999\"\x7d,\x7b\"id\":\"oak-123\",\"publicKey\":\"pk-first\"\x7d,"
    ++ "\x7b\"id\":\"oak-123\",\"publicKey\":\"pk-second\"\x7d]\x7d"

def twoProjectListing : String :=
  "\x7b\"projects\":[\x7b\"id\":\"proj-999\"\x7d,\x7b\"id\":\"proj-123\",\"name\":\"first\"\x7d,"
    ++ "\x7b\"id\":\"proj-123\",\"name\":\"second\"\x7d]\x7d"

/-- The codec above, also decoding the listings with a repeated id. -/
def listingEnv : internal.langfuse.Env :=
  { env with
    unmarshalListOrganizationApiKeys := fun body =>
      if body = twoKeyListing then
        .ok { ApiKeys := [{ ID := "oak-999", PublicKey := "", SecretKey := "" },
                          { ID := "oak-123", PublicKey := "pk-first", SecretKey := "" },
                          { ID := "oak-123", PublicKey := "pk-second", SecretKey := "" }] }
      else env.unmarshalListOrganizationApiKeys body
    unmarshalListProjectApiKeys := fun body =>
      if body = twoKeyListing then
        .ok { ApiKeys := [{ ID := "oak-999", PublicKey := "", SecretKey := "" },
                          { ID := "oak-123", PublicKey := "pk-first", SecretKey := "" },
                          { ID := "oak-123", PublicKey := "pk-second", SecretKey := "" }] }
      else env.unmarshalListProjectApiKeys body
    unmarshalListProjects := fun body =>
      if body = twoProjectListing then
        .ok { Projects := [some { ID := "proj-999", Name := "", RetentionDays := 0
                                  Metadata := [] },
                           some { ID := "proj-123", Name := "first", RetentionDays := 0
                                  Metadata := [] },
                           some { ID := "proj-123", Name := "second", RetentionDays := 0
                                  Metadata := [] }] }
      else env.unmarshalListProjects body }

/-- An admin client that returns every organization with a metadata entry. -/
def taggedAdminClient : internal.langfuse.AdminClient :=
  { adminClient with
    CreateOrganization := fun request =>
      .ok { ID := "org-123", Name := request.Name, Metadata := [("team", "ai")] }
    UpdateOrganization := fun orgID request =>
      .ok { ID := orgID, Name := request.Name, Metadata := [("team", "ai")] } }

/-- A configuration of the organization in which no attribute is set. -/
def emptyOrganizationConfig : internal.provider.organizationResourceModel :=
  { ID := .null, Name := .null }

/-- A configuration as the host passes it to Update: the computed id is null. -/
def renameOrganizationConfig : internal.provider.organizationResourceModel :=
  { ID := .null, Name := .known "Acme Corporation" }

def emptyObject : String := "\x7b\x7d"

def deleteAccepted : String := "\x7b\"success\":true\x7d"

def nullEntryListing : String := "\x7b\"projects\":[null]\x7d"

/-- The codec above, also decoding the empty object and an accepted delete as a delete
response, and a project listing whose only entry is null. -/
def edgeEnv : internal.langfuse.Env :=
  { env with
    unmarshalDeleteOrganization := fun body =>
      if body = emptyObject then .ok { Success := false }
      else if body = deleteAccepted then .ok { Success := true }
      else env.unmarshalDeleteOrganization body
    unmarshalListProjects := fun body =>
      if body = nullEntryListing then .ok { Projects := [none] }
      else if body = emptyObject then .ok { Projects := [] }
      else env.unmarshalListProjects body }

/-- A round tripper that answers every request with status 200 and the given body. -/
def answering (body : String) : http.Client :=
  { Do := fun _ => .ok { StatusCode := 200, Body := { data := body, err := none } } }

/-- A round tripper that answers every request with status 500. -/
def refusing : http.Client :=
  { Do := fun _ =>
      .ok { StatusCode := 500, Body := { data := "Internal Server Error", err := none } } }

/-- A round tripper that answers with status 200 and the given body only the requests
carrying `Authorization: Bearer k`, and fails every other request. -/
def bearerOnly (k body : String) : http.Client :=
  { Do := fun req =>
      if http.Header.Get req.Header "Authorization" = "Bearer " ++ k then
        .ok { StatusCode := 200, Body := { data := body, err := none } }
      else .error "unauthorized" }

/-- A round tripper on which every request fails in transport. -/
def unreachable : http.Client :=
  { Do := fun _ => .error "connection refused" }

def adminImpl (httpClient : http.Client) : internal.langfuse.adminClientImpl :=
  { host := "https://cloud.langfuse.com", apiKey := "admin-key", httpClient := httpClient }

def organizationImpl (httpClient : http.Client) : internal.langfuse.organizationClientImpl :=
  { host := "https://cloud.langfuse.com", publicKey := "pk-1234", privateKey := "sk-1234"
    httpClient := httpClient }

end sample

/-! ## Diagnostics lemmas -/

theorem diag_Append_nil (diags : diag.Diagnostics) :
    diag.Diagnostics.Append diags [] = diags := rfl

theorem diag_Contains_error_of_no_error (diags : diag.Diagnostics) (summary detail : String)
    (h : diag.Diagnostics.HasError diags = false) :
    diag.Diagnostics.Contains diags (diag.NewErrorDiagnostic summary detail) = false := by
  induction diags with
  | nil => rfl
  | cons d ds ih =>
    simp only [diag.Diagnostics.HasError, List.any_cons, Bool.or_eq_false_iff,
      decide_eq_false_iff_not] at h
    have ih2 := ih (by simpa [diag.Diagnostics.HasError] using h.2)
    simp only [diag.Diagnostics.Contains, List.any_cons, Bool.or_eq_false_iff,
      decide_eq_false_iff_not]
    refine ⟨?_, by simpa [diag.Diagnostics.Contains] using ih2⟩
    intro hd
    apply h.1
    rw [hd]
    rfl

theorem diag_AddError_of_no_error (diags : diag.Diagnostics) (summary detail : String)
    (h : diag.Diagnostics.HasError diags = false) :
    diag.Diagnostics.AddError diags summary detail
      = diags ++ [diag.NewErrorDiagnostic summary detail] := by
  simp [diag.Diagnostics.AddError, diag.Diagnostics.Append,
    diag_Contains_error_of_no_error diags summary detail h]

theorem diag_HasError_append_error (diags : diag.Diagnostics) (summary detail : String) :
    diag.Diagnostics.HasError (diags ++ [diag.NewErrorDiagnostic summary detail]) = true := by
  simp [diag.Diagnostics.HasError, diag.NewErrorDiagnostic]

theorem diag_HasError_of_Contains_error (diags : diag.Diagnostics) (summary detail : String)
    (h : diag.Diagnostics.Contains diags (diag.NewErrorDiagnostic summary detail) = true) :
    diag.Diagnostics.HasError diags = true := by
  simp only [diag.Diagnostics.Contains, List.any_eq_true, decide_eq_true_eq] at h
  obtain ⟨d, hmem, hd⟩ := h
  simp only [diag.Diagnostics.HasError, List.any_eq_true, decide_eq_true_eq]
  exact ⟨d, hmem, by rw [hd]; rfl⟩

theorem diag_HasError_AddError (diags : diag.Diagnostics) (summary detail : String) :
    diag.Diagnostics.HasError (diag.Diagnostics.AddError diags summary detail) = true := by
  unfold diag.Diagnostics.AddError diag.Diagnostics.Append
  simp only [List.foldl_cons, List.foldl_nil]
  split_ifs with hc
  · exact diag_HasError_of_Contains_error diags summary detail hc
  · exact diag_HasError_append_error diags summary detail

/-! ## Conversion lemmas: which structs the framework can decode into

The three structs whose fields are all strings decode under the schema of their resource;
`projectResourceModel` does not: its `retention` field is a `types.Int32` and the schema
declares an int64 attribute. -/

@[simp] theorem conversion_organizationResourceModel :
    tfsdk.conversion internal.provider.organizationResourceModel = [] := by decide

@[simp] theorem conversion_organizationApiKeyResourceModel :
    tfsdk.conversion internal.provider.organizationApiKeyResourceModel = [] := by decide

@[simp] theorem conversion_projectApiKeyResourceModel :
    tfsdk.conversion provider.projectApiKeyResourceModel = [] := by decide

@[simp] theorem conversion_projectResourceModel :
    tfsdk.conversion provider.projectResourceModel
      = [tfsdk.wrongTypeDiagnostic .Int32Value .Int64Value] := by rfl

/-! ## Phase lemmas: what each reconciler phase leaves behind, branch by branch

In every lemma the request carries a present record. For the organization and the two
credential reconcilers the response starts without an error diagnostic, so the phase reaches
its client call; the phases of the project reconciler stop at the decode. -/

section PhaseLemmas

open internal.provider provider

theorem organizationResource_Create_err (r : organizationResource)
    (cfg : organizationResourceModel) (resp : resource.CreateResponse organizationResourceModel)
    (e : error) (hne : resp.Diagnostics.HasError = false)
    (h : r.AdminClient.CreateOrganization { Name := cfg.Name.ValueString, Metadata := [] }
      = .error e) :
    r.Create ⟨⟨some cfg⟩⟩ resp
      = { resp := { State := resp.State
                    Diagnostics := resp.Diagnostics
                      ++ [diag.NewErrorDiagnostic "Error creating organization" e] }
          calls := [.CreateOrganization { Name := cfg.Name.ValueString, Metadata := [] }] } := by
  simp [organizationResource.Create, tfsdk.Config.Get, diag_Append_nil, hne, h,
    diag_AddError_of_no_error]

theorem organizationResource_Update_err (r : organizationResource)
    (cfg : organizationResourceModel) (prior : tfsdk.State organizationResourceModel)
    (resp : resource.UpdateResponse organizationResourceModel)
    (e : error) (hne : resp.Diagnostics.HasError = false)
    (h : r.AdminClient.UpdateOrganization cfg.ID.ValueString
      { Name := cfg.Name.ValueString, Metadata := [] } = .error e) :
    r.Update ⟨⟨some cfg⟩, prior⟩ resp
      = { resp := { State := resp.State
                    Diagnostics := resp.Diagnostics
                      ++ [diag.NewErrorDiagnostic "Error updating organization" e] }
          calls := [.UpdateOrganization cfg.ID.ValueString
            { Name := cfg.Name.ValueString, Metadata := [] }] } := by
  simp [organizationResource.Update, tfsdk.Config.Get, diag_Append_nil, hne, h,
    diag_AddError_of_no_error]

theorem organizationResource_Delete_err (r : organizationResource)
    (s : organizationResourceModel) (resp : resource.DeleteResponse organizationResourceModel)
    (e : error) (hne : resp.Diagnostics.HasError = false)
    (h : r.AdminClient.DeleteOrganization s.ID.ValueString = some e) :
    r.Delete ⟨⟨some s⟩⟩ resp
      = { resp := { State := resp.State
                    Diagnostics := resp.Diagnostics
                      ++ [diag.NewErrorDiagnostic "Error deleting organization" e] }
          calls := [.DeleteOrganization s.ID.ValueString] } := by
  simp [organizationResource.Delete, tfsdk.State.Get, diag_Append_nil, hne, h,
    diag_AddError_of_no_error]

theorem organizationApiKeyResource_Create_err (r : organizationApiKeyResource)
    (cfg : organizationApiKeyResourceModel)
    (resp : resource.CreateResponse organizationApiKeyResourceModel)
    (e : error) (hne : resp.Diagnostics.HasError = false)
    (h : r.AdminClient.CreateOrganizationApiKey cfg.OrganizationID.ValueString = .error e) :
    r.Create ⟨⟨some cfg⟩⟩ resp
      = { resp := { State := resp.State
                    Diagnostics := resp.Diagnostics
                      ++ [diag.NewErrorDiagnostic "Error creating organization API key" e] }
          calls := [.CreateOrganizationApiKey cfg.OrganizationID.ValueString] } := by
  simp [organizationApiKeyResource.Create, tfsdk.Config.Get, diag_Append_nil, hne, h,
    diag_AddError_of_no_error]

theorem organizationApiKeyResource_Create_ok (r : organizationApiKeyResource)
    (cfg : organizationApiKeyResourceModel)
    (resp : resource.CreateResponse organizationApiKeyResourceModel)
    (k : internal.langfuse.OrganizationApiKey) (hne : resp.Diagnostics.HasError = false)
    (h : r.AdminClient.CreateOrganizationApiKey cfg.OrganizationID.ValueString = .ok k) :
    r.Create ⟨⟨some cfg⟩⟩ resp
      = { resp := { State := ⟨some { ID := .known k.ID
                                     OrganizationID := .known cfg.OrganizationID.ValueString
                                     PublicKey := .known k.PublicKey
                                     SecretKey := .known k.SecretKey }⟩
                    Diagnostics := resp.Diagnostics }
          calls := [.CreateOrganizationApiKey cfg.OrganizationID.ValueString] } := by
  simp [organizationApiKeyResource.Create, tfsdk.Config.Get, tfsdk.State.Set,
    diag_Append_nil, hne, h, types.StringValue]

theorem organizationApiKeyResource_Read_ok (r : organizationApiKeyResource)
    (s : organizationApiKeyResourceModel)
    (resp : resource.ReadResponse organizationApiKeyResourceModel)
    (k : internal.langfuse.OrganizationApiKey) (hne : resp.Diagnostics.HasError = false)
    (h : r.AdminClient.GetOrganizationApiKey s.OrganizationID.ValueString s.ID.ValueString
      = .ok k) :
    r.Read ⟨⟨some s⟩⟩ resp
      = { resp := { State := ⟨some s⟩, Diagnostics := resp.Diagnostics }
          calls := [.GetOrganizationApiKey s.OrganizationID.ValueString s.ID.ValueString] } := by
  simp [organizationApiKeyResource.Read, tfsdk.State.Get, tfsdk.State.Set,
    diag_Append_nil, hne, h]

theorem organizationApiKeyResource_Read_err (r : organizationApiKeyResource)
    (s : organizationApiKeyResourceModel)
    (resp : resource.ReadResponse organizationApiKeyResourceModel)
    (e : error) (hne : resp.Diagnostics.HasError = false)
    (h : r.AdminClient.GetOrganizationApiKey s.OrganizationID.ValueString s.ID.ValueString
      = .error e) :
    r.Read ⟨⟨some s⟩⟩ resp
      = { resp := { State := ⟨none⟩, Diagnostics := resp.Diagnostics }
          calls := [.GetOrganizationApiKey s.OrganizationID.ValueString s.ID.ValueString] } := by
  simp [organizationApiKeyResource.Read, tfsdk.State.Get, tfsdk.State.RemoveResource,
    diag_Append_nil, hne, h]

theorem organizationApiKeyResource_Delete_err (r : organizationApiKeyResource)
    (s : organizationApiKeyResourceModel)
    (resp : resource.DeleteResponse organizationApiKeyResourceModel)
    (e : error) (hne : resp.Diagnostics.HasError = false)
    (h : r.AdminClient.DeleteOrganizationApiKey s.OrganizationID.ValueString s.ID.ValueString
      = some e) :
    r.Delete ⟨⟨some s⟩⟩ resp
      = { resp := { State := resp.State
                    Diagnostics := resp.Diagnostics
                      ++ [diag.NewErrorDiagnostic "Error deleting organization API key" e] }
          calls := [.DeleteOrganizationApiKey s.OrganizationID.ValueString
            s.ID.ValueString] } := by
  simp [organizationApiKeyResource.Delete, tfsdk.State.Get, diag_Append_nil, hne, h,
    diag_AddError_of_no_error]

theorem diag_HasError_Append_wrongType (diags : diag.Diagnostics)
    (target value : schema.ValueType) :
    diag.Diagnostics.HasError
      (diag.Diagnostics.Append diags [tfsdk.wrongTypeDiagnostic target value]) = true :=
  diag_HasError_AddError diags _ _

/-- `Create` of the project reconciler returns at the check after `Config.Get`: the decode
into `projectResourceModel` fails, whatever the configuration holds. -/
theorem projectResource_Create_stops (r : projectResource) (cfg : projectResourceModel)
    (resp : resource.CreateResponse projectResourceModel) :
    r.Create ⟨⟨some cfg⟩⟩ resp
      = { resp := { State := resp.State
                    Diagnostics := resp.Diagnostics.Append
                      [tfsdk.wrongTypeDiagnostic .Int32Value .Int64Value] }
          calls := [] } := by
  simp [projectResource.Create, tfsdk.Config.Get, diag_HasError_Append_wrongType]

theorem projectResource_Read_stops (r : projectResource) (s : projectResourceModel)
    (resp : resource.ReadResponse projectResourceModel) :
    r.Read ⟨⟨some s⟩⟩ resp
      = { resp := { State := resp.State
                    Diagnostics := resp.Diagnostics.Append
                      [tfsdk.wrongTypeDiagnostic .Int32Value .Int64Value] }
          calls := [] } := by
  simp [projectResource.Read, tfsdk.State.Get, diag_HasError_Append_wrongType]

theorem projectResource_Update_stops (r : projectResource) (cfg : projectResourceModel)
    (prior : tfsdk.State projectResourceModel)
    (resp : resource.UpdateResponse projectResourceModel) :
    r.Update ⟨⟨some cfg⟩, prior⟩ resp
      = { resp := { State := resp.State
                    Diagnostics := resp.Diagnostics.Append
                      [tfsdk.wrongTypeDiagnostic .Int32Value .Int64Value] }
          calls := [] } := by
  simp [projectResource.Update, tfsdk.Config.Get, diag_HasError_Append_wrongType]

theorem projectResource_Delete_stops (r : projectResource) (s : projectResourceModel)
    (resp : resource.DeleteResponse projectResourceModel) :
    r.Delete ⟨⟨some s⟩⟩ resp
      = { resp := { State := resp.State
                    Diagnostics := resp.Diagnostics.Append
                      [tfsdk.wrongTypeDiagnostic .Int32Value .Int64Value] }
          calls := [] } := by
  simp [projectResource.Delete, tfsdk.State.Get, diag_HasError_Append_wrongType]

theorem projectApiKeyResource_Create_err (r : projectApiKeyResource)
    (cfg : projectApiKeyResourceModel)
    (resp : resource.CreateResponse projectApiKeyResourceModel)
    (e : error) (hne : resp.Diagnostics.HasError = false)
    (h : (r.ClientFactory.NewOrganizationClient cfg.OrganizationPublicKey.ValueString
        cfg.OrganizationPrivateKey.ValueString).CreateProjectApiKey cfg.ProjectID.ValueString
      = .error e) :
    r.Create ⟨⟨some cfg⟩⟩ resp
      = { resp := { State := resp.State
                    Diagnostics := resp.Diagnostics
                      ++ [diag.NewErrorDiagnostic "Error creating project API key" e] }
          calls := [⟨cfg.OrganizationPublicKey.ValueString,
            cfg.OrganizationPrivateKey.ValueString,
            .CreateProjectApiKey cfg.ProjectID.ValueString⟩] } := by
  simp [projectApiKeyResource.Create, tfsdk.Config.Get, diag_Append_nil, hne, h,
    diag_AddError_of_no_error]

theorem projectApiKeyResource_Create_ok (r : projectApiKeyResource)
    (cfg : projectApiKeyResourceModel)
    (resp : resource.CreateResponse projectApiKeyResourceModel)
    (k : langfuse.ProjectApiKey) (hne : resp.Diagnostics.HasError = false)
    (h : (r.ClientFactory.NewOrganizationClient cfg.OrganizationPublicKey.ValueString
        cfg.OrganizationPrivateKey.ValueString).CreateProjectApiKey cfg.ProjectID.ValueString
      = .ok k) :
    r.Create ⟨⟨some cfg⟩⟩ resp
      = { resp := { State := ⟨some { ID := .known k.ID
                                     OrganizationPublicKey :=
                                       .known cfg.OrganizationPublicKey.ValueString
                                     OrganizationPrivateKey :=
                                       .known cfg.OrganizationPrivateKey.ValueString
                                     ProjectID := .known cfg.ProjectID.ValueString
                                     PublicKey := .known k.PublicKey
                                     SecretKey := .known k.SecretKey }⟩
                    Diagnostics := resp.Diagnostics }
          calls := [⟨cfg.OrganizationPublicKey.ValueString,
            cfg.OrganizationPrivateKey.ValueString,
            .CreateProjectApiKey cfg.ProjectID.ValueString⟩] } := by
  simp [projectApiKeyResource.Create, tfsdk.Config.Get, tfsdk.State.Set, diag_Append_nil,
    hne, h, types.StringValue]

theorem projectApiKeyResource_Read_ok (r : projectApiKeyResource)
    (s : projectApiKeyResourceModel)
    (resp : resource.ReadResponse projectApiKeyResourceModel)
    (p : langfuse.Project) (hne : resp.Diagnostics.HasError = false)
    (h : (r.ClientFactory.NewOrganizationClient s.OrganizationPublicKey.ValueString
        s.OrganizationPrivateKey.ValueString).GetProject s.ProjectID.ValueString = .ok p) :
    r.Read ⟨⟨some s⟩⟩ resp
      = { resp := { State := ⟨some s⟩, Diagnostics := resp.Diagnostics }
          calls := [⟨s.OrganizationPublicKey.ValueString,
            s.OrganizationPrivateKey.ValueString, .GetProject s.ProjectID.ValueString⟩] } := by
  simp [projectApiKeyResource.Read, tfsdk.State.Get, tfsdk.State.Set, diag_Append_nil,
    hne, h]

theorem projectApiKeyResource_Delete_err (r : projectApiKeyResource)
    (s : projectApiKeyResourceModel)
    (resp : resource.DeleteResponse projectApiKeyResourceModel)
    (e : error) (hne : resp.Diagnostics.HasError = false)
    (h : (r.ClientFactory.NewOrganizationClient s.OrganizationPublicKey.ValueString
        s.OrganizationPrivateKey.ValueString).DeleteProjectApiKey s.ProjectID.ValueString
      = some e) :
    r.Delete ⟨⟨some s⟩⟩ resp
      = { resp := { State := resp.State
                    Diagnostics := resp.Diagnostics
                      ++ [diag.NewErrorDiagnostic "Error deleting project API key" e] }
          calls := [⟨s.OrganizationPublicKey.ValueString,
            s.OrganizationPrivateKey.ValueString,
            .DeleteProjectApiKey s.ProjectID.ValueString⟩] } := by
  simp [projectApiKeyResource.Delete, tfsdk.State.Get, diag_Append_nil, hne, h,
    diag_AddError_of_no_error]

end PhaseLemmas

/-! ## Transport lemmas -/

theorem occursIn_of_eq (pre t post s : String) (h : s = pre ++ t ++ post) : occursIn t s := by
  subst h
  exact ⟨pre.data, post.data, by simp [String.data_append]⟩

theorem decodeResponse_ok {T : Type} (unmarshal : json.Unmarshal T) (resp : http.Response)
    (target : T) (hlo : 200 ≤ resp.StatusCode) (hhi : resp.StatusCode < 300)
    (hread : resp.Body.err = none) (hjson : unmarshal resp.Body.data = .ok target) :
    internal.langfuse.decodeResponse unmarshal resp = .ok target := by
  have hst : ¬ (resp.StatusCode < 200 ∨ resp.StatusCode ≥ 300) := by omega
  simp [internal.langfuse.decodeResponse, hst, hread, hjson]


theorem adminClientImpl_GetOrganizationApiKey_absent
    (env : internal.langfuse.Env) (c : internal.langfuse.adminClientImpl)
    (orgID apiKeyID : String) (httpResp : http.Response)
    (listing : internal.langfuse.listOrganizationApiKeysResponse)
    (hreq : c.makeRequest env http.MethodGet
      ("api/admin/organizations/" ++ orgID ++ "/apiKeys") none = .ok httpResp)
    (hlo : 200 ≤ httpResp.StatusCode) (hhi : httpResp.StatusCode < 300)
    (hread : httpResp.Body.err = none)
    (hjson : env.unmarshalListOrganizationApiKeys httpResp.Body.data = .ok listing)
    (habsent : ∀ key ∈ listing.ApiKeys, key.ID ≠ apiKeyID) :
    c.GetOrganizationApiKey env orgID apiKeyID
      = .error ("cannot find API key with ID " ++ apiKeyID ++ " in organization " ++ orgID) := by
  have hfind : listing.ApiKeys.find? (fun key => decide (key.ID = apiKeyID)) = none := by
    rw [List.find?_eq_none]
    intro key hkey
    simpa using habsent key hkey
  simp [internal.langfuse.adminClientImpl.GetOrganizationApiKey, hreq,
    decodeResponse_ok _ httpResp listing hlo hhi hread hjson, hfind]

theorem scanProjects_absent (projectID : String)
    (projects : List (Option internal.langfuse.Project))
    (habsent : ∀ entry ∈ projects, ∃ proj, entry = some proj ∧ proj.ID ≠ projectID) :
    internal.langfuse.scanProjects projectID projects
      = .err ("cannot find project with ID " ++ projectID) := by
  induction projects with
  | nil => rfl
  | cons entry rest ih =>
    obtain ⟨proj, hentry, hid⟩ := habsent entry (List.mem_cons_self _ _)
    subst hentry
    simp only [internal.langfuse.scanProjects, hid, if_false]
    exact ih (fun e he => habsent e (List.mem_cons_of_mem _ he))

/-! ## C1: project Read and the retention period -/

/-- C1 (the code at the failing input): `projectResource.Read` never reaches the lookup. The
decode of the persisted record into `projectResourceModel` fails for every record, because
the struct holds the retention in a `types.Int32` and the schema declares an int64
attribute; Read returns with that error diagnostic, calls no client and writes no record.
At the record of the unit test (retention 30, over a client whose lookup reports retention
0) the response carries an error diagnostic and no lookup is made. -/
theorem C1_project_read_stops_at_decode :
    (∀ (r : provider.projectResource) (s : provider.projectResourceModel)
        (resp : resource.ReadResponse provider.projectResourceModel),
        (r.Read ⟨⟨some s⟩⟩ resp).calls = [] ∧
        (r.Read ⟨⟨some s⟩⟩ resp).resp.State = resp.State ∧
        (r.Read ⟨⟨some s⟩⟩ resp).resp.Diagnostics.HasError = true) ∧
    sample.projectState.Retention = .known 30 ∧
    (sample.projectFactory.NewOrganizationClient "pub-key" "priv-key").GetProject "proj-123"
      = .ok { ID := "proj-123", Name := "test-project", Retention := 0 } ∧
    (provider.projectResource.Read ⟨sample.projectFactory⟩ ⟨⟨some sample.projectState⟩⟩
        ⟨⟨some sample.projectState⟩, []⟩).calls = [] ∧
    (provider.projectResource.Read ⟨sample.projectFactory⟩ ⟨⟨some sample.projectState⟩⟩
        ⟨⟨some sample.projectState⟩, []⟩).resp
      = { State := ⟨some sample.projectState⟩
          Diagnostics := [tfsdk.wrongTypeDiagnostic .Int32Value .Int64Value] } := by
  refine ⟨?_, rfl, rfl, ?_, ?_⟩
  · intro r s resp
    rw [projectResource_Read_stops r s resp]
    exact ⟨rfl, rfl, diag_HasError_Append_wrongType _ _ _⟩
  · rw [projectResource_Read_stops]
  · rw [projectResource_Read_stops]
    rfl

/-! ## C2: credential Read writes back the persisted record -/

/-- C2: for both credential reconcilers, a Read whose lookup succeeds writes exactly the
persisted record (every field, keys included) and adds no diagnostic, whatever value the
lookup returned. -/
theorem C2_credential_read_keeps_record :
    (∀ (r : internal.provider.organizationApiKeyResource)
        (s : internal.provider.organizationApiKeyResourceModel)
        (resp : resource.ReadResponse internal.provider.organizationApiKeyResourceModel)
        (k : internal.langfuse.OrganizationApiKey),
        resp.Diagnostics.HasError = false →
        r.AdminClient.GetOrganizationApiKey s.OrganizationID.ValueString s.ID.ValueString
          = .ok k →
        (r.Read ⟨⟨some s⟩⟩ resp).resp
          = { State := ⟨some s⟩, Diagnostics := resp.Diagnostics }) ∧
    (∀ (r : provider.projectApiKeyResource) (s : provider.projectApiKeyResourceModel)
        (resp : resource.ReadResponse provider.projectApiKeyResourceModel)
        (p : langfuse.Project),
        resp.Diagnostics.HasError = false →
        (r.ClientFactory.NewOrganizationClient s.OrganizationPublicKey.ValueString
            s.OrganizationPrivateKey.ValueString).GetProject s.ProjectID.ValueString
          = .ok p →
        (r.Read ⟨⟨some s⟩⟩ resp).resp
          = { State := ⟨some s⟩, Diagnostics := resp.Diagnostics }) := by
  constructor
  · intro r s resp k hne hk
    rw [organizationApiKeyResource_Read_ok r s resp k hne hk]
  · intro r s resp p hne hp
    rw [projectApiKeyResource_Read_ok r s resp p hne hp]

/-- C2 (witness): both credential Reads on the sample records, with lookups that return other key values. -/
theorem C2_credential_read_keeps_record_witness :
    (internal.provider.organizationApiKeyResource.Read ⟨sample.adminClient⟩
        ⟨⟨some sample.organizationApiKeyState⟩⟩
        ⟨⟨some sample.organizationApiKeyState⟩, []⟩).resp
      = { State := ⟨some sample.organizationApiKeyState⟩, Diagnostics := [] } ∧
    (provider.projectApiKeyResource.Read ⟨sample.projectFactory⟩
        ⟨⟨some sample.projectApiKeyState⟩⟩ ⟨⟨some sample.projectApiKeyState⟩, []⟩).resp
      = { State := ⟨some sample.projectApiKeyState⟩, Diagnostics := [] } :=
  ⟨C2_credential_read_keeps_record.1 ⟨sample.adminClient⟩ sample.organizationApiKeyState
      ⟨⟨some sample.organizationApiKeyState⟩, []⟩
      { ID := "oak-123", PublicKey := "pk-other", SecretKey := "" } rfl rfl,
   C2_credential_read_keeps_record.2 ⟨sample.projectFactory⟩ sample.projectApiKeyState
      ⟨⟨some sample.projectApiKeyState⟩, []⟩
      { ID := "proj-123", Name := "test-project", Retention := 0 } rfl rfl⟩

/-! ## C3: credential Create followed by Read -/

/-- C3: `Create` of either credential reconciler persists the id and keys the client
returned together with the parent id (and, for the project credential, the organization
key pair) of the configuration, and a following `Read` whose lookup succeeds yields exactly
that record, whatever the lookup returned. -/
theorem C3_credential_create_then_read :
    (∀ (r : internal.provider.organizationApiKeyResource)
        (cfg : internal.provider.organizationApiKeyResourceModel)
        (resp : resource.CreateResponse internal.provider.organizationApiKeyResourceModel)
        (k : internal.langfuse.OrganizationApiKey),
        resp.Diagnostics.HasError = false →
        r.AdminClient.CreateOrganizationApiKey cfg.OrganizationID.ValueString = .ok k →
        (r.Create ⟨⟨some cfg⟩⟩ resp).resp.State
            = ⟨some { ID := .known k.ID
                      OrganizationID := .known cfg.OrganizationID.ValueString
                      PublicKey := .known k.PublicKey
                      SecretKey := .known k.SecretKey }⟩ ∧
        (r.Create ⟨⟨some cfg⟩⟩ resp).resp.Diagnostics = resp.Diagnostics ∧
        ∀ (r2 : internal.provider.organizationApiKeyResource)
          (resp2 : resource.ReadResponse internal.provider.organizationApiKeyResourceModel)
          (k2 : internal.langfuse.OrganizationApiKey),
          resp2.Diagnostics.HasError = false →
          r2.AdminClient.GetOrganizationApiKey cfg.OrganizationID.ValueString k.ID = .ok k2 →
          (r2.Read ⟨(r.Create ⟨⟨some cfg⟩⟩ resp).resp.State⟩ resp2).resp.State
            = ⟨some { ID := .known k.ID
                      OrganizationID := .known cfg.OrganizationID.ValueString
                      PublicKey := .known k.PublicKey
                      SecretKey := .known k.SecretKey }⟩) ∧
    (∀ (r : provider.projectApiKeyResource) (cfg : provider.projectApiKeyResourceModel)
        (resp : resource.CreateResponse provider.projectApiKeyResourceModel)
        (k : langfuse.ProjectApiKey),
        resp.Diagnostics.HasError = false →
        (r.ClientFactory.NewOrganizationClient cfg.OrganizationPublicKey.ValueString
            cfg.OrganizationPrivateKey.ValueString).CreateProjectApiKey
              cfg.ProjectID.ValueString = .ok k →
        (r.Create ⟨⟨some cfg⟩⟩ resp).resp.State
            = ⟨some { ID := .known k.ID
                      OrganizationPublicKey := .known cfg.OrganizationPublicKey.ValueString
                      OrganizationPrivateKey := .known cfg.OrganizationPrivateKey.ValueString
                      ProjectID := .known cfg.ProjectID.ValueString
                      PublicKey := .known k.PublicKey
                      SecretKey := .known k.SecretKey }⟩ ∧
        (r.Create ⟨⟨some cfg⟩⟩ resp).resp.Diagnostics = resp.Diagnostics ∧
        ∀ (r2 : provider.projectApiKeyResource)
          (resp2 : resource.ReadResponse provider.projectApiKeyResourceModel)
          (p : langfuse.Project),
          resp2.Diagnostics.HasError = false →
          (r2.ClientFactory.NewOrganizationClient cfg.OrganizationPublicKey.ValueString
              cfg.OrganizationPrivateKey.ValueString).GetProject cfg.ProjectID.ValueString
            = .ok p →
          (r2.Read ⟨(r.Create ⟨⟨some cfg⟩⟩ resp).resp.State⟩ resp2).resp.State
            = ⟨some { ID := .known k.ID
                      OrganizationPublicKey := .known cfg.OrganizationPublicKey.ValueString
                      OrganizationPrivateKey := .known cfg.OrganizationPrivateKey.ValueString
                      ProjectID := .known cfg.ProjectID.ValueString
                      PublicKey := .known k.PublicKey
                      SecretKey := .known k.SecretKey }⟩) := by
  constructor
  · intro r cfg resp k hne hk
    rw [organizationApiKeyResource_Create_ok r cfg resp k hne hk]
    refine ⟨rfl, rfl, ?_⟩
    intro r2 resp2 k2 hne2 hk2
    exact congrArg (fun ran => ran.resp.State)
      (organizationApiKeyResource_Read_ok r2
        { ID := .known k.ID, OrganizationID := .known cfg.OrganizationID.ValueString
          PublicKey := .known k.PublicKey, SecretKey := .known k.SecretKey }
        resp2 k2 hne2 hk2)
  · intro r cfg resp k hne hk
    rw [projectApiKeyResource_Create_ok r cfg resp k hne hk]
    refine ⟨rfl, rfl, ?_⟩
    intro r2 resp2 p hne2 hp
    exact congrArg (fun ran => ran.resp.State)
      (projectApiKeyResource_Read_ok r2
        { ID := .known k.ID
          OrganizationPublicKey := .known cfg.OrganizationPublicKey.ValueString
          OrganizationPrivateKey := .known cfg.OrganizationPrivateKey.ValueString
          ProjectID := .known cfg.ProjectID.ValueString
          PublicKey := .known k.PublicKey, SecretKey := .known k.SecretKey }
        resp2 p hne2 hp)

/-- C3 (witness): Create then Read of both credentials on the sample configurations. -/
theorem C3_credential_create_then_read_witness :
    (internal.provider.organizationApiKeyResource.Read ⟨sample.adminClient⟩
        ⟨(internal.provider.organizationApiKeyResource.Create ⟨sample.adminClient⟩
          ⟨⟨some sample.organizationApiKeyConfig⟩⟩ ⟨⟨none⟩, []⟩).resp.State⟩
        ⟨⟨none⟩, []⟩).resp.State
      = ⟨some { ID := .known "oak-123", OrganizationID := .known "org-123"
                PublicKey := .known "pk-1234", SecretKey := .known "sk-1234" }⟩ ∧
    (provider.projectApiKeyResource.Read ⟨sample.projectFactory⟩
        ⟨(provider.projectApiKeyResource.Create ⟨sample.projectFactory⟩
          ⟨⟨some sample.projectApiKeyConfig⟩⟩ ⟨⟨none⟩, []⟩).resp.State⟩
        ⟨⟨none⟩, []⟩).resp.State
      = ⟨some { ID := .known "pak-123", OrganizationPublicKey := .known "pk_test_123"
                OrganizationPrivateKey := .known "sk_test_456"
                ProjectID := .known "proj-123"
                PublicKey := .known "pub", SecretKey := .known "sec" }⟩ :=
  ⟨(C3_credential_create_then_read.1 ⟨sample.adminClient⟩ sample.organizationApiKeyConfig
      ⟨⟨none⟩, []⟩ { ID := "oak-123", PublicKey := "pk-1234", SecretKey := "sk-1234" }
      rfl rfl).2.2 ⟨sample.adminClient⟩ ⟨⟨none⟩, []⟩
      { ID := "oak-123", PublicKey := "pk-other", SecretKey := "" } rfl rfl,
   (C3_credential_create_then_read.2 ⟨sample.projectFactory⟩ sample.projectApiKeyConfig
      ⟨⟨none⟩, []⟩
      { ID := "pak-123", ProjectID := "proj-123", PublicKey := "pub", SecretKey := "sec" }
      rfl rfl).2.2 ⟨sample.projectFactory⟩ ⟨⟨none⟩, []⟩
      { ID := "proj-123", Name := "test-project", Retention := 0 } rfl rfl⟩

/-! ## C4: a delete is decided by the success flag of the body -/

/-- C4: for each of the four delete operations, when the request is answered with a status
in [200,300) and a body that decodes to a delete response whose success flag is false, the
operation returns an error whose text contains the id(s) it was called with; for
`DeleteProject` the text also contains the message of the body. -/
theorem C4_delete_fails_on_false_success_flag :
    (∀ (env : internal.langfuse.Env) (c : internal.langfuse.adminClientImpl) (orgID : String)
        (resp : http.Response) (d : internal.langfuse.deleteOrganizationResponse),
        c.makeRequest env http.MethodDelete ("api/admin/organizations/" ++ orgID) none
          = .ok resp →
        200 ≤ resp.StatusCode → resp.StatusCode < 300 → resp.Body.err = none →
        env.unmarshalDeleteOrganization resp.Body.data = .ok d → d.Success = false →
        ∃ e, c.DeleteOrganization env orgID = some e ∧
          e = "failed to delete organization with ID " ++ orgID ∧ occursIn orgID e) ∧
    (∀ (env : internal.langfuse.Env) (c : internal.langfuse.adminClientImpl)
        (orgID apiKeyID : String) (resp : http.Response)
        (d : internal.langfuse.deleteOrganizationApiKeyResponse),
        c.makeRequest env http.MethodDelete
          ("api/admin/organizations/" ++ orgID ++ "/apiKeys/" ++ apiKeyID) none = .ok resp →
        200 ≤ resp.StatusCode → resp.StatusCode < 300 → resp.Body.err = none →
        env.unmarshalDeleteOrganizationApiKey resp.Body.data = .ok d → d.Success = false →
        ∃ e, c.DeleteOrganizationApiKey env orgID apiKeyID = some e ∧
          e = "failed to delete API key with ID " ++ apiKeyID ++ " in organization " ++ orgID ∧
          occursIn apiKeyID e ∧ occursIn orgID e) ∧
    (∀ (env : internal.langfuse.Env) (c : internal.langfuse.organizationClientImpl)
        (projectID : String) (resp : http.Response)
        (d : internal.langfuse.deleteProjectResponse),
        c.makeRequest env http.MethodDelete ("api/public/projects/" ++ projectID) none
          = .ok resp →
        200 ≤ resp.StatusCode → resp.StatusCode < 300 → resp.Body.err = none →
        env.unmarshalDeleteProject resp.Body.data = .ok d → d.Success = false →
        ∃ e, c.DeleteProject env projectID = some e ∧
          e = "failed to delete project with ID " ++ projectID ++ ": " ++ d.Message ∧
          occursIn projectID e ∧ occursIn d.Message e) ∧
    (∀ (env : internal.langfuse.Env) (c : internal.langfuse.organizationClientImpl)
        (projectID apiKeyID : String) (resp : http.Response)
        (d : internal.langfuse.deleteProjectApiKeyResponse),
        c.makeRequest env http.MethodDelete
          ("api/public/projects/" ++ projectID ++ "/apiKeys/" ++ apiKeyID) none = .ok resp →
        200 ≤ resp.StatusCode → resp.StatusCode < 300 → resp.Body.err = none →
        env.unmarshalDeleteProjectApiKey resp.Body.data = .ok d → d.Success = false →
        ∃ e, c.DeleteProjectApiKey env projectID apiKeyID = some e ∧
          e = "failed to delete API key with ID " ++ apiKeyID ++ " in project " ++ projectID ∧
          occursIn apiKeyID e ∧ occursIn projectID e) := by
  refine ⟨?_, ?_, ?_, ?_⟩
  · intro env c orgID resp d hreq hlo hhi hread hjson hflag
    refine ⟨_, ?_, rfl, occursIn_of_eq "failed to delete organization with ID " orgID "" _
      (by simp)⟩
    simp [internal.langfuse.adminClientImpl.DeleteOrganization, hreq,
      decodeResponse_ok _ resp d hlo hhi hread hjson, hflag]
  · intro env c orgID apiKeyID resp d hreq hlo hhi hread hjson hflag
    refine ⟨_, ?_, rfl,
      occursIn_of_eq "failed to delete API key with ID " apiKeyID
        (" in organization " ++ orgID) _ (by simp [String.append_assoc]),
      occursIn_of_eq ("failed to delete API key with ID " ++ apiKeyID ++ " in organization ")
        orgID "" _ (by simp)⟩
    simp [internal.langfuse.adminClientImpl.DeleteOrganizationApiKey, hreq,
      decodeResponse_ok _ resp d hlo hhi hread hjson, hflag]
  · intro env c projectID resp d hreq hlo hhi hread hjson hflag
    refine ⟨_, ?_, rfl,
      occursIn_of_eq "failed to delete project with ID " projectID (": " ++ d.Message) _
        (by simp [String.append_assoc]),
      occursIn_of_eq ("failed to delete project with ID " ++ projectID ++ ": ") d.Message "" _
        (by simp)⟩
    simp [internal.langfuse.organizationClientImpl.DeleteProject, hreq,
      decodeResponse_ok _ resp d hlo hhi hread hjson, hflag]
  · intro env c projectID apiKeyID resp d hreq hlo hhi hread hjson hflag
    refine ⟨_, ?_, rfl,
      occursIn_of_eq "failed to delete API key with ID " apiKeyID
        (" in project " ++ projectID) _ (by simp [String.append_assoc]),
      occursIn_of_eq ("failed to delete API key with ID " ++ apiKeyID ++ " in project ")
        projectID "" _ (by simp)⟩
    simp [internal.langfuse.organizationClientImpl.DeleteProjectApiKey, hreq,
      decodeResponse_ok _ resp d hlo hhi hread hjson, hflag]

/-- C4 (witness): the four delete operations answered with status 200 and a false success flag. -/
theorem C4_delete_fails_on_false_success_flag_witness :
    (∃ e, (sample.adminImpl (sample.answering sample.deleteRefused)).DeleteOrganization
        sample.env "org-123" = some e ∧
      e = "failed to delete organization with ID " ++ "org-123" ∧ occursIn "org-123" e) ∧
    (∃ e, (sample.adminImpl (sample.answering sample.deleteRefused)).DeleteOrganizationApiKey
        sample.env "org-123" "oak-123" = some e ∧
      e = "failed to delete API key with ID " ++ "oak-123" ++ " in organization " ++ "org-123" ∧
      occursIn "oak-123" e ∧ occursIn "org-123" e) ∧
    (∃ e, (sample.organizationImpl (sample.answering sample.deleteProjectRefused)).DeleteProject
        sample.env "proj-123" = some e ∧
      e = "failed to delete project with ID " ++ "proj-123" ++ ": " ++ "in use" ∧
      occursIn "proj-123" e ∧ occursIn "in use" e) ∧
    (∃ e, (sample.organizationImpl (sample.answering sample.deleteRefused)).DeleteProjectApiKey
        sample.env "proj-123" "pak-123" = some e ∧
      e = "failed to delete API key with ID " ++ "pak-123" ++ " in project " ++ "proj-123" ∧
      occursIn "pak-123" e ∧ occursIn "proj-123" e) :=
  ⟨C4_delete_fails_on_false_success_flag.1 sample.env
      (sample.adminImpl (sample.answering sample.deleteRefused)) "org-123"
      { StatusCode := 200, Body := { data := sample.deleteRefused, err := none } }
      { Success := false } rfl (by decide) (by decide) rfl rfl rfl,
   C4_delete_fails_on_false_success_flag.2.1 sample.env
      (sample.adminImpl (sample.answering sample.deleteRefused)) "org-123" "oak-123"
      { StatusCode := 200, Body := { data := sample.deleteRefused, err := none } }
      { Success := false } rfl (by decide) (by decide) rfl rfl rfl,
   C4_delete_fails_on_false_success_flag.2.2.1 sample.env
      (sample.organizationImpl (sample.answering sample.deleteProjectRefused)) "proj-123"
      { StatusCode := 200, Body := { data := sample.deleteProjectRefused, err := none } }
      { Success := false, Message := "in use" } rfl (by decide) (by decide) rfl rfl rfl,
   C4_delete_fails_on_false_success_flag.2.2.2 sample.env
      (sample.organizationImpl (sample.answering sample.deleteRefused)) "proj-123" "pak-123"
      { StatusCode := 200, Body := { data := sample.deleteRefused, err := none } }
      { Success := false } rfl (by decide) (by decide) rfl rfl rfl⟩

/-! ## C5: a failed delete leaves the record in place -/

/-- C5 (the code, with the failing input): for the organization, organization-credential and
project-credential reconcilers and every persisted record, when the client's delete
operation returns an error, `Delete` appends exactly one error diagnostic whose detail is
the client error's text and leaves the response state as it was. `projectResource.Delete`
does not get that far: for every record the decode into `projectResourceModel` fails, so it
returns with the conversion diagnostic, the state as it was, and no client call; over a
client whose delete fails with `boom` the diagnostic it leaves is not the one carrying
`boom`. -/
theorem C5_failed_delete_project_never_deletes :
    (∀ (r : internal.provider.organizationResource)
        (s : internal.provider.organizationResourceModel)
        (resp : resource.DeleteResponse internal.provider.organizationResourceModel)
        (e : error),
        resp.Diagnostics.HasError = false →
        r.AdminClient.DeleteOrganization s.ID.ValueString = some e →
        (r.Delete ⟨⟨some s⟩⟩ resp).resp
          = { State := resp.State
              Diagnostics := resp.Diagnostics
                ++ [diag.NewErrorDiagnostic "Error deleting organization" e] }) ∧
    (∀ (r : internal.provider.organizationApiKeyResource)
        (s : internal.provider.organizationApiKeyResourceModel)
        (resp : resource.DeleteResponse internal.provider.organizationApiKeyResourceModel)
        (e : error),
        resp.Diagnostics.HasError = false →
        r.AdminClient.DeleteOrganizationApiKey s.OrganizationID.ValueString s.ID.ValueString
          = some e →
        (r.Delete ⟨⟨some s⟩⟩ resp).resp
          = { State := resp.State
              Diagnostics := resp.Diagnostics
                ++ [diag.NewErrorDiagnostic "Error deleting organization API key" e] }) ∧
    (∀ (r : provider.projectApiKeyResource) (s : provider.projectApiKeyResourceModel)
        (resp : resource.DeleteResponse provider.projectApiKeyResourceModel) (e : error),
        resp.Diagnostics.HasError = false →
        (r.ClientFactory.NewOrganizationClient s.OrganizationPublicKey.ValueString
            s.OrganizationPrivateKey.ValueString).DeleteProjectApiKey s.ProjectID.ValueString
          = some e →
        (r.Delete ⟨⟨some s⟩⟩ resp).resp
          = { State := resp.State
              Diagnostics := resp.Diagnostics
                ++ [diag.NewErrorDiagnostic "Error deleting project API key" e] }) ∧
    (∀ (r : provider.projectResource) (s : provider.projectResourceModel)
        (resp : resource.DeleteResponse provider.projectResourceModel),
        (r.Delete ⟨⟨some s⟩⟩ resp).calls = [] ∧
        (r.Delete ⟨⟨some s⟩⟩ resp).resp
          = { State := resp.State
              Diagnostics := resp.Diagnostics.Append
                [tfsdk.wrongTypeDiagnostic .Int32Value .Int64Value] }) ∧
    ((sample.failingProjectFactory "boom").NewOrganizationClient "pub-key"
        "priv-key").DeleteProject "proj-123" = some "boom" ∧
    (provider.projectResource.Delete ⟨sample.failingProjectFactory "boom"⟩
        ⟨⟨some sample.projectState⟩⟩ ⟨⟨some sample.projectState⟩, []⟩).resp.Diagnostics
      = [tfsdk.wrongTypeDiagnostic .Int32Value .Int64Value] ∧
    tfsdk.wrongTypeDiagnostic .Int32Value .Int64Value
      ≠ diag.NewErrorDiagnostic "Error deleting project" "boom" := by
  refine ⟨?_, ?_, ?_, ?_, rfl, ?_, by decide⟩
  · intro r s resp e hne h
    rw [organizationResource_Delete_err r s resp e hne h]
  · intro r s resp e hne h
    rw [organizationApiKeyResource_Delete_err r s resp e hne h]
  · intro r s resp e hne h
    rw [projectApiKeyResource_Delete_err r s resp e hne h]
  · intro r s resp
    rw [projectResource_Delete_stops r s resp]
    exact ⟨rfl, rfl⟩
  · rw [projectResource_Delete_stops]
    rfl

/-- C5 (witness): the three Deletes that reach their client, over clients whose delete
fails. -/
theorem C5_failed_delete_project_never_deletes_witness :
    (internal.provider.organizationResource.Delete ⟨sample.failingAdminClient "boom"⟩
        ⟨⟨some sample.organizationState⟩⟩ ⟨⟨some sample.organizationState⟩, []⟩).resp
      = { State := ⟨some sample.organizationState⟩
          Diagnostics := [diag.NewErrorDiagnostic "Error deleting organization" "boom"] } ∧
    (internal.provider.organizationApiKeyResource.Delete ⟨sample.failingAdminClient "boom"⟩
        ⟨⟨some sample.organizationApiKeyState⟩⟩
        ⟨⟨some sample.organizationApiKeyState⟩, []⟩).resp
      = { State := ⟨some sample.organizationApiKeyState⟩
          Diagnostics :=
            [diag.NewErrorDiagnostic "Error deleting organization API key" "boom"] } ∧
    (provider.projectApiKeyResource.Delete ⟨sample.failingProjectFactory "boom"⟩
        ⟨⟨some sample.projectApiKeyState⟩⟩ ⟨⟨some sample.projectApiKeyState⟩, []⟩).resp
      = { State := ⟨some sample.projectApiKeyState⟩
          Diagnostics := [diag.NewErrorDiagnostic "Error deleting project API key" "boom"] } :=
  ⟨C5_failed_delete_project_never_deletes.1 ⟨sample.failingAdminClient "boom"⟩
      sample.organizationState ⟨⟨some sample.organizationState⟩, []⟩ "boom" rfl rfl,
   C5_failed_delete_project_never_deletes.2.1 ⟨sample.failingAdminClient "boom"⟩
      sample.organizationApiKeyState ⟨⟨some sample.organizationApiKeyState⟩, []⟩ "boom"
      rfl rfl,
   C5_failed_delete_project_never_deletes.2.2.1 ⟨sample.failingProjectFactory "boom"⟩
      sample.projectApiKeyState ⟨⟨some sample.projectApiKeyState⟩, []⟩ "boom" rfl rfl⟩

/-! ## C6: a failed credential lookup of any kind drops the record -/

/-- C6 (counterexample): the lookup fails in transport, which is not the not-found error
of the list scan; `organizationApiKeyResource.Read` adds no diagnostic and removes the
resource, so it is not the case that it adds an error diagnostic and keeps the record. -/
theorem C6_transport_failure_drops_record :
    (sample.adminImpl sample.unreachable).GetOrganizationApiKey sample.env "org-123" "oak-123"
      = .error "failed to make request: connection refused" ∧
    ¬ ((internal.provider.organizationApiKeyResource.Read
          ⟨(sample.adminImpl sample.unreachable).asAdminClient sample.env⟩
          ⟨⟨some sample.organizationApiKeyState⟩⟩
          ⟨⟨some sample.organizationApiKeyState⟩, []⟩).resp.Diagnostics.HasError = true ∧
       (internal.provider.organizationApiKeyResource.Read
          ⟨(sample.adminImpl sample.unreachable).asAdminClient sample.env⟩
          ⟨⟨some sample.organizationApiKeyState⟩⟩
          ⟨⟨some sample.organizationApiKeyState⟩, []⟩).resp.State
        = ⟨some sample.organizationApiKeyState⟩) := by
  refine ⟨rfl, ?_⟩
  rintro ⟨h, -⟩
  exact absurd h (by decide)

/-- C6 (amended): whenever `GetOrganizationApiKey` fails, with the not-found error or with
any other (transport failure, status outside [200,300), malformed body),
`organizationApiKeyResource.Read` removes the resource from state and adds no
diagnostic. -/
theorem C6_any_lookup_failure_drops_record
    (env : internal.langfuse.Env) (c : internal.langfuse.adminClientImpl)
    (s : internal.provider.organizationApiKeyResourceModel)
    (resp : resource.ReadResponse internal.provider.organizationApiKeyResourceModel)
    (e : error)
    (hne : resp.Diagnostics.HasError = false)
    (hfail : c.GetOrganizationApiKey env s.OrganizationID.ValueString s.ID.ValueString
      = .error e) :
    (internal.provider.organizationApiKeyResource.Read ⟨c.asAdminClient env⟩
        ⟨⟨some s⟩⟩ resp).resp
      = { State := ⟨none⟩, Diagnostics := resp.Diagnostics } := by
  rw [organizationApiKeyResource_Read_err ⟨c.asAdminClient env⟩ s resp e hne hfail]

/-- C6 (witness): the lookup is answered with status 500 and Read drops the record. -/
theorem C6_any_lookup_failure_drops_record_witness :
    (sample.adminImpl sample.refusing).GetOrganizationApiKey sample.env "org-123" "oak-123"
      = .error "request failed with status code 500, response body: Internal Server Error" ∧
    (internal.provider.organizationApiKeyResource.Read
        ⟨(sample.adminImpl sample.refusing).asAdminClient sample.env⟩
        ⟨⟨some sample.organizationApiKeyState⟩⟩
        ⟨⟨some sample.organizationApiKeyState⟩, []⟩).resp
      = { State := ⟨none⟩, Diagnostics := [] } :=
  ⟨rfl, C6_any_lookup_failure_drops_record sample.env (sample.adminImpl sample.refusing)
      sample.organizationApiKeyState ⟨⟨some sample.organizationApiKeyState⟩, []⟩
      "request failed with status code 500, response body: Internal Server Error" rfl rfl⟩

/-! ## C7: a credential missing from the listing is dropped from state -/

/-- C7: for every persisted record, when the credential listing of its organization is
fetched and decoded and holds no key with the record's id, `GetOrganizationApiKey` fails
with the not-found error and `organizationApiKeyResource.Read` over that client removes
the resource from state and adds no diagnostic. -/
theorem C7_missing_credential_is_dropped
    (env : internal.langfuse.Env) (c : internal.langfuse.adminClientImpl)
    (s : internal.provider.organizationApiKeyResourceModel)
    (resp : resource.ReadResponse internal.provider.organizationApiKeyResourceModel)
    (httpResp : http.Response) (listing : internal.langfuse.listOrganizationApiKeysResponse)
    (hne : resp.Diagnostics.HasError = false)
    (hreq : c.makeRequest env http.MethodGet
      ("api/admin/organizations/" ++ s.OrganizationID.ValueString ++ "/apiKeys") none
        = .ok httpResp)
    (hlo : 200 ≤ httpResp.StatusCode) (hhi : httpResp.StatusCode < 300)
    (hread : httpResp.Body.err = none)
    (hjson : env.unmarshalListOrganizationApiKeys httpResp.Body.data = .ok listing)
    (habsent : ∀ key ∈ listing.ApiKeys, key.ID ≠ s.ID.ValueString) :
    c.GetOrganizationApiKey env s.OrganizationID.ValueString s.ID.ValueString
      = .error ("cannot find API key with ID " ++ s.ID.ValueString ++ " in organization "
          ++ s.OrganizationID.ValueString) ∧
    (internal.provider.organizationApiKeyResource.Read ⟨c.asAdminClient env⟩
        ⟨⟨some s⟩⟩ resp).resp
      = { State := ⟨none⟩, Diagnostics := resp.Diagnostics } := by
  have hget := adminClientImpl_GetOrganizationApiKey_absent env c
    s.OrganizationID.ValueString s.ID.ValueString httpResp listing hreq hlo hhi hread hjson
    habsent
  refine ⟨hget, ?_⟩
  rw [organizationApiKeyResource_Read_err ⟨c.asAdminClient env⟩ s resp _ hne hget]

/-- C7 (witness): the listing holds only another key and Read drops the record. -/
theorem C7_missing_credential_is_dropped_witness :
    (sample.adminImpl (sample.answering sample.otherKeyListing)).GetOrganizationApiKey
        sample.env "org-123" "oak-123"
      = .error ("cannot find API key with ID " ++ "oak-123" ++ " in organization "
          ++ "org-123") ∧
    (internal.provider.organizationApiKeyResource.Read
        ⟨(sample.adminImpl (sample.answering sample.otherKeyListing)).asAdminClient sample.env⟩
        ⟨⟨some sample.organizationApiKeyState⟩⟩
        ⟨⟨some sample.organizationApiKeyState⟩, []⟩).resp
      = { State := ⟨none⟩, Diagnostics := [] } :=
  C7_missing_credential_is_dropped sample.env
    (sample.adminImpl (sample.answering sample.otherKeyListing))
    sample.organizationApiKeyState ⟨⟨some sample.organizationApiKeyState⟩, []⟩
    { StatusCode := 200, Body := { data := sample.otherKeyListing, err := none } }
    { ApiKeys := [{ ID := "oak-999", PublicKey := "pk-999", SecretKey := "" }] }
    rfl rfl (by decide) (by decide) rfl rfl (by decide)

/-! ## C8: a project missing from the listing is not dropped -/

/-- C8 (counterexample): the listing holds no project with the record's id, so `GetProject`
fails with the not-found error; `projectResource.Read` over a client failing so leaves an
error diagnostic and keeps the record, so it is not the case that it drops the record and
raises no error. -/
theorem C8_missing_project_is_not_dropped :
    (sample.organizationImpl (sample.answering sample.otherProjectListing)).GetProject
        sample.env "proj-123"
      = .err "cannot find project with ID proj-123" ∧
    (sample.missingProjectFactory.NewOrganizationClient "pub-key" "priv-key").GetProject
        "proj-123"
      = .error "cannot find project with ID proj-123" ∧
    ¬ ((provider.projectResource.Read ⟨sample.missingProjectFactory⟩
          ⟨⟨some sample.projectState⟩⟩ ⟨⟨some sample.projectState⟩, []⟩).resp.State
        = ⟨none⟩ ∧
       (provider.projectResource.Read ⟨sample.missingProjectFactory⟩
          ⟨⟨some sample.projectState⟩⟩
          ⟨⟨some sample.projectState⟩, []⟩).resp.Diagnostics.HasError = false) := by
  refine ⟨rfl, rfl, ?_⟩
  rintro ⟨-, h⟩
  rw [projectResource_Read_stops] at h
  exact absurd h (by decide)

/-- C8 (amended): a listing that is fetched and decoded and holds no project with the given
id makes `GetProject` fail with the not-found error; and for every persisted project
record, whenever the client's `GetProject` fails (with that error or any other),
`projectResource.Read` does not drop the record: it leaves the response state as it was and
the response carries an error diagnostic. -/
theorem C8_missing_project_keeps_record :
    (∀ (env : internal.langfuse.Env) (c : internal.langfuse.organizationClientImpl)
        (projectID : String) (httpResp : http.Response)
        (listing : internal.langfuse.listProjectsResponse),
        c.makeRequest env http.MethodGet "api/public/organizations/projects" none
          = .ok httpResp →
        200 ≤ httpResp.StatusCode → httpResp.StatusCode < 300 →
        httpResp.Body.err = none →
        env.unmarshalListProjects httpResp.Body.data = .ok listing →
        (∀ entry ∈ listing.Projects, ∃ proj, entry = some proj ∧ proj.ID ≠ projectID) →
        c.GetProject env projectID = .err ("cannot find project with ID " ++ projectID)) ∧
    (∀ (r : provider.projectResource) (s : provider.projectResourceModel)
        (resp : resource.ReadResponse provider.projectResourceModel) (e : error),
        (r.ClientFactory.NewOrganizationClient s.OrganizationPublicKey.ValueString
            s.OrganizationPrivateKey.ValueString).GetProject s.ID.ValueString = .error e →
        (r.Read ⟨⟨some s⟩⟩ resp).resp.State = resp.State ∧
        (r.Read ⟨⟨some s⟩⟩ resp).resp.Diagnostics.HasError = true) := by
  constructor
  · intro env c projectID httpResp listing hreq hlo hhi hread hjson habsent
    simp [internal.langfuse.organizationClientImpl.GetProject, hreq,
      decodeResponse_ok _ httpResp listing hlo hhi hread hjson,
      scanProjects_absent projectID listing.Projects habsent]
  · intro r s resp e _
    rw [projectResource_Read_stops r s resp]
    exact ⟨rfl, diag_HasError_Append_wrongType _ _ _⟩

/-- C8 (witness): the listing holds only another project; Read keeps the record. -/
theorem C8_missing_project_keeps_record_witness :
    (sample.organizationImpl (sample.answering sample.otherProjectListing)).GetProject
        sample.env "proj-123"
      = .err ("cannot find project with ID " ++ "proj-123") ∧
    (provider.projectResource.Read ⟨sample.missingProjectFactory⟩
        ⟨⟨some sample.projectState⟩⟩ ⟨⟨some sample.projectState⟩, []⟩).resp.State
      = ⟨some sample.projectState⟩ ∧
    (provider.projectResource.Read ⟨sample.missingProjectFactory⟩
        ⟨⟨some sample.projectState⟩⟩
        ⟨⟨some sample.projectState⟩, []⟩).resp.Diagnostics.HasError = true :=
  ⟨C8_missing_project_keeps_record.1 sample.env
      (sample.organizationImpl (sample.answering sample.otherProjectListing)) "proj-123"
      { StatusCode := 200, Body := { data := sample.otherProjectListing, err := none } }
      { Projects := [some { ID := "proj-999", Name := "other", RetentionDays := 0
                            Metadata := [] }] }
      rfl (by decide) (by decide) rfl rfl (by decide),
   (C8_missing_project_keeps_record.2 ⟨sample.missingProjectFactory⟩
      sample.projectState ⟨⟨some sample.projectState⟩, []⟩
      "cannot find project with ID proj-123" rfl).1,
   (C8_missing_project_keeps_record.2 ⟨sample.missingProjectFactory⟩
      sample.projectState ⟨⟨some sample.projectState⟩, []⟩
      "cannot find project with ID proj-123" rfl).2⟩

/-! ## C9: Update of a credential does nothing -/

/-- C9: for both credential reconcilers, for every request (configuration and prior state)
and every response, `Update` makes no client call and returns the response as it was given:
same state, same diagnostics. -/
theorem C9_credential_update_is_noop :
    (∀ (r : internal.provider.organizationApiKeyResource)
        (req : resource.UpdateRequest internal.provider.organizationApiKeyResourceModel)
        (resp : resource.UpdateResponse internal.provider.organizationApiKeyResourceModel),
        (r.Update req resp).calls = [] ∧
        (r.Update req resp).resp.Diagnostics = resp.Diagnostics ∧
        (r.Update req resp).resp.State = resp.State) ∧
    (∀ (r : provider.projectApiKeyResource)
        (req : resource.UpdateRequest provider.projectApiKeyResourceModel)
        (resp : resource.UpdateResponse provider.projectApiKeyResourceModel),
        (r.Update req resp).calls = [] ∧
        (r.Update req resp).resp.Diagnostics = resp.Diagnostics ∧
        (r.Update req resp).resp.State = resp.State) := by
  constructor
  · intro r req resp
    exact ⟨rfl, rfl, rfl⟩
  · intro r req resp
    exact ⟨rfl, rfl, rfl⟩

/-! ## C10: a failed Create or Update writes nothing -/

/-- C10 (the code, with the failing input): for the organization, organization-credential
and project-credential reconcilers and every configuration, when the client operation
invoked by `Create` (or by `Update`, for the organization) returns an error, the phase
appends an error diagnostic carrying that error's text and leaves the response state as it
was; so a state that was absent before a failed `Create` is absent after it.
`projectResource.Create` and `Update` do not invoke their client operation: for every
configuration the decode into `projectResourceModel` fails, so they return with the
conversion diagnostic, the state as it was, and no client call; over a client that fails
with `boom` the diagnostic they leave is not the one carrying `boom`. -/
theorem C10_failed_create_project_never_calls :
    (∀ (r : internal.provider.organizationResource)
        (cfg : internal.provider.organizationResourceModel)
        (resp : resource.CreateResponse internal.provider.organizationResourceModel)
        (e : error),
        resp.Diagnostics.HasError = false →
        r.AdminClient.CreateOrganization { Name := cfg.Name.ValueString, Metadata := [] }
          = .error e →
        (r.Create ⟨⟨some cfg⟩⟩ resp).resp
          = { State := resp.State
              Diagnostics := resp.Diagnostics
                ++ [diag.NewErrorDiagnostic "Error creating organization" e] } ∧
        (resp.State.Raw = none → (r.Create ⟨⟨some cfg⟩⟩ resp).resp.State.Raw = none)) ∧
    (∀ (r : internal.provider.organizationResource)
        (cfg : internal.provider.organizationResourceModel)
        (prior : tfsdk.State internal.provider.organizationResourceModel)
        (resp : resource.UpdateResponse internal.provider.organizationResourceModel)
        (e : error),
        resp.Diagnostics.HasError = false →
        r.AdminClient.UpdateOrganization cfg.ID.ValueString
          { Name := cfg.Name.ValueString, Metadata := [] } = .error e →
        (r.Update ⟨⟨some cfg⟩, prior⟩ resp).resp
          = { State := resp.State
              Diagnostics := resp.Diagnostics
                ++ [diag.NewErrorDiagnostic "Error updating organization" e] }) ∧
    (∀ (r : internal.provider.organizationApiKeyResource)
        (cfg : internal.provider.organizationApiKeyResourceModel)
        (resp : resource.CreateResponse internal.provider.organizationApiKeyResourceModel)
        (e : error),
        resp.Diagnostics.HasError = false →
        r.AdminClient.CreateOrganizationApiKey cfg.OrganizationID.ValueString = .error e →
        (r.Create ⟨⟨some cfg⟩⟩ resp).resp
          = { State := resp.State
              Diagnostics := resp.Diagnostics
                ++ [diag.NewErrorDiagnostic "Error creating organization API key" e] } ∧
        (resp.State.Raw = none → (r.Create ⟨⟨some cfg⟩⟩ resp).resp.State.Raw = none)) ∧
    (∀ (r : provider.projectApiKeyResource) (cfg : provider.projectApiKeyResourceModel)
        (resp : resource.CreateResponse provider.projectApiKeyResourceModel) (e : error),
        resp.Diagnostics.HasError = false →
        (r.ClientFactory.NewOrganizationClient cfg.OrganizationPublicKey.ValueString
            cfg.OrganizationPrivateKey.ValueString).CreateProjectApiKey
              cfg.ProjectID.ValueString = .error e →
        (r.Create ⟨⟨some cfg⟩⟩ resp).resp
          = { State := resp.State
              Diagnostics := resp.Diagnostics
                ++ [diag.NewErrorDiagnostic "Error creating project API key" e] } ∧
        (resp.State.Raw = none → (r.Create ⟨⟨some cfg⟩⟩ resp).resp.State.Raw = none)) ∧
    (∀ (r : provider.projectResource) (cfg : provider.projectResourceModel)
        (resp : resource.CreateResponse provider.projectResourceModel),
        (r.Create ⟨⟨some cfg⟩⟩ resp).calls = [] ∧
        (r.Create ⟨⟨some cfg⟩⟩ resp).resp
          = { State := resp.State
              Diagnostics := resp.Diagnostics.Append
                [tfsdk.wrongTypeDiagnostic .Int32Value .Int64Value] }) ∧
    (∀ (r : provider.projectResource) (cfg : provider.projectResourceModel)
        (prior : tfsdk.State provider.projectResourceModel)
        (resp : resource.UpdateResponse provider.projectResourceModel),
        (r.Update ⟨⟨some cfg⟩, prior⟩ resp).calls = [] ∧
        (r.Update ⟨⟨some cfg⟩, prior⟩ resp).resp
          = { State := resp.State
              Diagnostics := resp.Diagnostics.Append
                [tfsdk.wrongTypeDiagnostic .Int32Value .Int64Value] }) ∧
    ((sample.failingProjectFactory "boom").NewOrganizationClient "pk_test_123"
        "sk_test_456").CreateProject { ID := "", Name := "ChatQA", Retention := 0 }
      = .error "boom" ∧
    (provider.projectResource.Create ⟨sample.failingProjectFactory "boom"⟩
        ⟨⟨some sample.projectConfig⟩⟩ ⟨⟨none⟩, []⟩).resp.Diagnostics
      = [tfsdk.wrongTypeDiagnostic .Int32Value .Int64Value] ∧
    tfsdk.wrongTypeDiagnostic .Int32Value .Int64Value
      ≠ diag.NewErrorDiagnostic "Error creating project" "boom" := by
  refine ⟨?_, ?_, ?_, ?_, ?_, ?_, rfl, ?_, by decide⟩
  · intro r cfg resp e hne h
    rw [organizationResource_Create_err r cfg resp e hne h]
    exact ⟨rfl, fun habsent => habsent⟩
  · intro r cfg prior resp e hne h
    rw [organizationResource_Update_err r cfg prior resp e hne h]
  · intro r cfg resp e hne h
    rw [organizationApiKeyResource_Create_err r cfg resp e hne h]
    exact ⟨rfl, fun habsent => habsent⟩
  · intro r cfg resp e hne h
    rw [projectApiKeyResource_Create_err r cfg resp e hne h]
    exact ⟨rfl, fun habsent => habsent⟩
  · intro r cfg resp
    rw [projectResource_Create_stops r cfg resp]
    exact ⟨rfl, rfl⟩
  · intro r cfg prior resp
    rw [projectResource_Update_stops r cfg prior resp]
    exact ⟨rfl, rfl⟩
  · rw [projectResource_Create_stops]
    rfl

/-- C10 (witness): the three Creates and the Update that reach their client, over clients
that fail. -/
theorem C10_failed_create_project_never_calls_witness :
    (internal.provider.organizationResource.Create ⟨sample.failingAdminClient "boom"⟩
        ⟨⟨some sample.organizationConfig⟩⟩ ⟨⟨none⟩, []⟩).resp
      = { State := ⟨none⟩
          Diagnostics := [diag.NewErrorDiagnostic "Error creating organization" "boom"] } ∧
    (internal.provider.organizationResource.Update ⟨sample.failingAdminClient "boom"⟩
        ⟨⟨some sample.organizationState⟩, ⟨some sample.organizationState⟩⟩
        ⟨⟨some sample.organizationState⟩, []⟩).resp
      = { State := ⟨some sample.organizationState⟩
          Diagnostics := [diag.NewErrorDiagnostic "Error updating organization" "boom"] } ∧
    (internal.provider.organizationApiKeyResource.Create ⟨sample.failingAdminClient "boom"⟩
        ⟨⟨some sample.organizationApiKeyConfig⟩⟩ ⟨⟨none⟩, []⟩).resp
      = { State := ⟨none⟩
          Diagnostics :=
            [diag.NewErrorDiagnostic "Error creating organization API key" "boom"] } ∧
    (provider.projectApiKeyResource.Create ⟨sample.failingProjectFactory "boom"⟩
        ⟨⟨some sample.projectApiKeyConfig⟩⟩ ⟨⟨none⟩, []⟩).resp
      = { State := ⟨none⟩
          Diagnostics := [diag.NewErrorDiagnostic "Error creating project API key" "boom"] } :=
  ⟨(C10_failed_create_project_never_calls.1 ⟨sample.failingAdminClient "boom"⟩
      sample.organizationConfig ⟨⟨none⟩, []⟩ "boom" rfl rfl).1,
   C10_failed_create_project_never_calls.2.1 ⟨sample.failingAdminClient "boom"⟩
      sample.organizationState ⟨some sample.organizationState⟩
      ⟨⟨some sample.organizationState⟩, []⟩ "boom" rfl rfl,
   (C10_failed_create_project_never_calls.2.2.1 ⟨sample.failingAdminClient "boom"⟩
      sample.organizationApiKeyConfig ⟨⟨none⟩, []⟩ "boom" rfl rfl).1,
   (C10_failed_create_project_never_calls.2.2.2.1 ⟨sample.failingProjectFactory "boom"⟩
      sample.projectApiKeyConfig ⟨⟨none⟩, []⟩ "boom" rfl rfl).1⟩

/-! ## Phase lemmas: successful deletes -/

section DeleteLemmas

open internal.provider provider

theorem organizationResource_Delete_ok (r : organizationResource)
    (s : organizationResourceModel) (resp : resource.DeleteResponse organizationResourceModel)
    (hne : resp.Diagnostics.HasError = false)
    (h : r.AdminClient.DeleteOrganization s.ID.ValueString = none) :
    r.Delete ⟨⟨some s⟩⟩ resp
      = { resp := { State := ⟨some { ID := .null, Name := .null }⟩
                    Diagnostics := resp.Diagnostics }
          calls := [.DeleteOrganization s.ID.ValueString] } := by
  simp [organizationResource.Delete, tfsdk.State.Get, tfsdk.State.Set, diag_Append_nil, hne, h,
    default]

theorem organizationApiKeyResource_Delete_ok (r : organizationApiKeyResource)
    (s : organizationApiKeyResourceModel)
    (resp : resource.DeleteResponse organizationApiKeyResourceModel)
    (hne : resp.Diagnostics.HasError = false)
    (h : r.AdminClient.DeleteOrganizationApiKey s.OrganizationID.ValueString s.ID.ValueString
      = none) :
    r.Delete ⟨⟨some s⟩⟩ resp
      = { resp := { State := ⟨some { ID := .null, OrganizationID := .null, PublicKey := .null
                                     SecretKey := .null }⟩
                    Diagnostics := resp.Diagnostics }
          calls := [.DeleteOrganizationApiKey s.OrganizationID.ValueString
            s.ID.ValueString] } := by
  simp [organizationApiKeyResource.Delete, tfsdk.State.Get, tfsdk.State.Set, diag_Append_nil,
    hne, h, default]

theorem projectApiKeyResource_Delete_ok (r : projectApiKeyResource)
    (s : projectApiKeyResourceModel)
    (resp : resource.DeleteResponse projectApiKeyResourceModel)
    (hne : resp.Diagnostics.HasError = false)
    (h : (r.ClientFactory.NewOrganizationClient s.OrganizationPublicKey.ValueString
        s.OrganizationPrivateKey.ValueString).DeleteProjectApiKey s.ProjectID.ValueString
      = none) :
    r.Delete ⟨⟨some s⟩⟩ resp
      = { resp := { State := ⟨some { ID := .null, OrganizationPublicKey := .null
                                     OrganizationPrivateKey := .null, ProjectID := .null
                                     PublicKey := .null, SecretKey := .null }⟩
                    Diagnostics := resp.Diagnostics }
          calls := [⟨s.OrganizationPublicKey.ValueString,
            s.OrganizationPrivateKey.ValueString,
            .DeleteProjectApiKey s.ProjectID.ValueString⟩] } := by
  simp [projectApiKeyResource.Delete, tfsdk.State.Get, tfsdk.State.Set, diag_Append_nil,
    hne, h, default]

end DeleteLemmas

/-! ## C11: a successful delete clears the record -/

/-- C11 (the code, with the failing input): for the organization, organization-credential
and project-credential reconcilers and every persisted record, when the client's delete
operation returns no error, `Delete` adds no diagnostic and the record it writes has every
attribute null: none of the previous values is left. `projectResource.Delete` clears
nothing: for every record the decode into `projectResourceModel` fails, so it returns with
the conversion diagnostic and no client call, and the state still holds the record; so it
is over a client whose delete succeeds. -/
theorem C11_successful_delete_project_keeps_record :
    (∀ (r : internal.provider.organizationResource)
        (s : internal.provider.organizationResourceModel)
        (resp : resource.DeleteResponse internal.provider.organizationResourceModel),
        resp.Diagnostics.HasError = false →
        r.AdminClient.DeleteOrganization s.ID.ValueString = none →
        (r.Delete ⟨⟨some s⟩⟩ resp).resp
          = { State := ⟨some { ID := .null, Name := .null }⟩
              Diagnostics := resp.Diagnostics }) ∧
    (∀ (r : internal.provider.organizationApiKeyResource)
        (s : internal.provider.organizationApiKeyResourceModel)
        (resp : resource.DeleteResponse internal.provider.organizationApiKeyResourceModel),
        resp.Diagnostics.HasError = false →
        r.AdminClient.DeleteOrganizationApiKey s.OrganizationID.ValueString s.ID.ValueString
          = none →
        (r.Delete ⟨⟨some s⟩⟩ resp).resp
          = { State := ⟨some { ID := .null, OrganizationID := .null, PublicKey := .null
                               SecretKey := .null }⟩
              Diagnostics := resp.Diagnostics }) ∧
    (∀ (r : provider.projectApiKeyResource) (s : provider.projectApiKeyResourceModel)
        (resp : resource.DeleteResponse provider.projectApiKeyResourceModel),
        resp.Diagnostics.HasError = false →
        (r.ClientFactory.NewOrganizationClient s.OrganizationPublicKey.ValueString
            s.OrganizationPrivateKey.ValueString).DeleteProjectApiKey s.ProjectID.ValueString
          = none →
        (r.Delete ⟨⟨some s⟩⟩ resp).resp
          = { State := ⟨some { ID := .null, OrganizationPublicKey := .null
                               OrganizationPrivateKey := .null, ProjectID := .null
                               PublicKey := .null, SecretKey := .null }⟩
              Diagnostics := resp.Diagnostics }) ∧
    (∀ (r : provider.projectResource) (s : provider.projectResourceModel)
        (resp : resource.DeleteResponse provider.projectResourceModel),
        (r.Delete ⟨⟨some s⟩⟩ resp).calls = [] ∧
        (r.Delete ⟨⟨some s⟩⟩ resp).resp.State = resp.State ∧
        (r.Delete ⟨⟨some s⟩⟩ resp).resp.Diagnostics.HasError = true) ∧
    (sample.projectFactory.NewOrganizationClient "pub-key" "priv-key").DeleteProject
        "proj-123" = none ∧
    (provider.projectResource.Delete ⟨sample.projectFactory⟩
        ⟨⟨some sample.projectState⟩⟩ ⟨⟨some sample.projectState⟩, []⟩).resp
      = { State := ⟨some sample.projectState⟩
          Diagnostics := [tfsdk.wrongTypeDiagnostic .Int32Value .Int64Value] } := by
  refine ⟨?_, ?_, ?_, ?_, rfl, ?_⟩
  · intro r s resp hne h
    rw [organizationResource_Delete_ok r s resp hne h]
  · intro r s resp hne h
    rw [organizationApiKeyResource_Delete_ok r s resp hne h]
  · intro r s resp hne h
    rw [projectApiKeyResource_Delete_ok r s resp hne h]
  · intro r s resp
    rw [projectResource_Delete_stops r s resp]
    exact ⟨rfl, rfl, diag_HasError_Append_wrongType _ _ _⟩
  · rw [projectResource_Delete_stops]
    rfl

/-- C11 (witness): the three Deletes that reach their client, over clients whose delete
succeeds. -/
theorem C11_successful_delete_project_keeps_record_witness :
    (internal.provider.organizationResource.Delete ⟨sample.adminClient⟩
        ⟨⟨some sample.organizationState⟩⟩ ⟨⟨some sample.organizationState⟩, []⟩).resp
      = { State := ⟨some { ID := .null, Name := .null }⟩, Diagnostics := [] } ∧
    (internal.provider.organizationApiKeyResource.Delete ⟨sample.adminClient⟩
        ⟨⟨some sample.organizationApiKeyState⟩⟩
        ⟨⟨some sample.organizationApiKeyState⟩, []⟩).resp
      = { State := ⟨some { ID := .null, OrganizationID := .null, PublicKey := .null
                           SecretKey := .null }⟩
          Diagnostics := [] } ∧
    (provider.projectApiKeyResource.Delete ⟨sample.projectFactory⟩
        ⟨⟨some sample.projectApiKeyState⟩⟩ ⟨⟨some sample.projectApiKeyState⟩, []⟩).resp
      = { State := ⟨some { ID := .null, OrganizationPublicKey := .null
                           OrganizationPrivateKey := .null, ProjectID := .null
                           PublicKey := .null, SecretKey := .null }⟩
          Diagnostics := [] } :=
  ⟨C11_successful_delete_project_keeps_record.1 ⟨sample.adminClient⟩
      sample.organizationState ⟨⟨some sample.organizationState⟩, []⟩ rfl rfl,
   C11_successful_delete_project_keeps_record.2.1 ⟨sample.adminClient⟩
      sample.organizationApiKeyState ⟨⟨some sample.organizationApiKeyState⟩, []⟩ rfl rfl,
   C11_successful_delete_project_keeps_record.2.2.1 ⟨sample.projectFactory⟩
      sample.projectApiKeyState ⟨⟨some sample.projectApiKeyState⟩, []⟩ rfl rfl⟩

/-! ## Request lemmas: what the clients hand to the round tripper -/

theorem buildBaseRequest_built (env : internal.langfuse.Env) (method url : String)
    (body : Option internal.langfuse.RequestBody) (req : http.Request)
    (h : internal.langfuse.buildBaseRequest env method url body = .ok req) :
    req.Method = method ∧ req.URL = env.parseURL url ∧
      req.Header = [("Content-Type", "application/json")] := by
  unfold internal.langfuse.buildBaseRequest at h
  cases body with
  | none =>
    cases hv : env.requestError method url with
    | some e => simp [http.NewRequestWithContext, hv] at h
    | none =>
      simp [http.NewRequestWithContext, hv, http.Header.Set] at h
      subst h
      exact ⟨rfl, rfl, rfl⟩
  | some b =>
    cases hm : env.Marshal b with
    | error e => simp [hm] at h
    | ok j =>
      cases hv : env.requestError method url with
      | some e => simp [http.NewRequestWithContext, hm, hv] at h
      | none =>
        simp [http.NewRequestWithContext, hm, hv, http.Header.Set] at h
        subst h
        exact ⟨rfl, rfl, rfl⟩

theorem buildBaseRequest_no_body (env : internal.langfuse.Env) (method url : String)
    (hvalid : env.requestError method url = none) :
    internal.langfuse.buildBaseRequest env method url none
      = .ok { Method := method, URL := env.parseURL url
              Header := [("Content-Type", "application/json")], Body := none } := by
  simp [internal.langfuse.buildBaseRequest, http.NewRequestWithContext, hvalid,
    http.Header.Set]

theorem organizationClientImpl_makeRequest_no_body (env : internal.langfuse.Env)
    (c : internal.langfuse.organizationClientImpl) (method apiPath : String)
    (hvalid : env.requestError method (internal.langfuse.buildURL c.host apiPath) = none) :
    c.makeRequest env method apiPath none
      = match c.httpClient.Do
          { Method := method, URL := env.parseURL (internal.langfuse.buildURL c.host apiPath)
            Header := [("Content-Type", "application/json"),
              ("Authorization", "Basic " ++ env.base64 (c.publicKey ++ ":" ++ c.privateKey))]
            Body := none } with
        | .error err => .error ("failed to make request: " ++ err)
        | .ok resp => .ok resp := by
  simp [internal.langfuse.organizationClientImpl.makeRequest,
    buildBaseRequest_no_body env method _ hvalid, internal.langfuse.SetBasicAuth,
    http.Header.Set]

/-! ## C12: project credential Read looks up the project, not the credential -/

/-- C12 (the code at the failing input): the project is still listed and the credential is
gone from the project's credential list; `projectApiKeyResource.Read` makes the one call
`GetProject(proj-123)`, never `GetProjectApiKey`, and keeps the record. -/
theorem C12_credential_read_looks_up_project :
    (sample.credentialGoneFactory.NewOrganizationClient "pk_test_123"
        "sk_test_456").GetProjectApiKey "proj-123" "pak-123"
      = .error "cannot find API key with ID pak-123 in project proj-123" ∧
    (provider.projectApiKeyResource.Read ⟨sample.credentialGoneFactory⟩
        ⟨⟨some sample.projectApiKeyState⟩⟩ ⟨⟨some sample.projectApiKeyState⟩, []⟩).calls
      = [⟨"pk_test_123", "sk_test_456", .GetProject "proj-123"⟩] ∧
    (provider.projectApiKeyResource.Read ⟨sample.credentialGoneFactory⟩
        ⟨⟨some sample.projectApiKeyState⟩⟩ ⟨⟨some sample.projectApiKeyState⟩, []⟩).resp
      = { State := ⟨some sample.projectApiKeyState⟩, Diagnostics := [] } := by
  refine ⟨rfl, rfl, rfl⟩

/-! ## C13: project credential deletion -/

/-- C13 (the code, with the failing input): for every persisted record with project id p,
the one call made by `projectApiKeyResource.Delete` is `DeleteProjectApiKey(p)` on the
client built from the record's organization key pair: it carries the project id and not the
credential id, so two records of the project `proj-123` with the credential ids `pak-123`
and `pak-999` give the same call. The sibling `organizationApiKeyResource.Delete` passes
both the parent id and the credential id, and the organization-scoped client's
`DeleteProjectApiKey(p, c)` takes both: when its request can be built it hands the round
tripper exactly one request, with method DELETE and the URL parsed from
`buildURL host "api/public/projects/p/apiKeys/c"`, and decides its result from the answer
to it. -/
theorem C13_delete_call_omits_credential_id :
    (∀ (r : provider.projectApiKeyResource) (s : provider.projectApiKeyResourceModel)
        (resp : resource.DeleteResponse provider.projectApiKeyResourceModel),
        resp.Diagnostics.HasError = false →
        (r.Delete ⟨⟨some s⟩⟩ resp).calls
          = [⟨s.OrganizationPublicKey.ValueString, s.OrganizationPrivateKey.ValueString,
              .DeleteProjectApiKey s.ProjectID.ValueString⟩]) ∧
    (sample.projectApiKeyState.ID = .known "pak-123" ∧
      (provider.projectApiKeyResource.Delete ⟨sample.projectFactory⟩
          ⟨⟨some sample.projectApiKeyState⟩⟩ ⟨⟨some sample.projectApiKeyState⟩, []⟩).calls
        = [⟨"pk_test_123", "sk_test_456", .DeleteProjectApiKey "proj-123"⟩] ∧
      (provider.projectApiKeyResource.Delete ⟨sample.projectFactory⟩
          ⟨⟨some { sample.projectApiKeyState with ID := .known "pak-999" }⟩⟩
          ⟨⟨some { sample.projectApiKeyState with ID := .known "pak-999" }⟩, []⟩).calls
        = [⟨"pk_test_123", "sk_test_456", .DeleteProjectApiKey "proj-123"⟩]) ∧
    (∀ (r : internal.provider.organizationApiKeyResource)
        (s : internal.provider.organizationApiKeyResourceModel)
        (resp : resource.DeleteResponse internal.provider.organizationApiKeyResourceModel),
        resp.Diagnostics.HasError = false →
        (r.Delete ⟨⟨some s⟩⟩ resp).calls
          = [.DeleteOrganizationApiKey s.OrganizationID.ValueString s.ID.ValueString]) ∧
    (∀ (env : internal.langfuse.Env) (host publicKey privateKey projectID apiKeyID : String),
        env.requestError http.MethodDelete (internal.langfuse.buildURL host
          ("api/public/projects/" ++ projectID ++ "/apiKeys/" ++ apiKeyID)) = none →
        ∃ req : http.Request,
          req.Method = "DELETE" ∧
          req.URL = env.parseURL (internal.langfuse.buildURL host
            ("api/public/projects/" ++ projectID ++ "/apiKeys/" ++ apiKeyID)) ∧
          ∀ httpClient : http.Client,
            internal.langfuse.organizationClientImpl.DeleteProjectApiKey env
                (internal.langfuse.NewOrganizationClient httpClient host publicKey privateKey)
                projectID apiKeyID
              = match httpClient.Do req with
                | .error err => some ("failed to make request: " ++ err)
                | .ok resp =>
                  match internal.langfuse.decodeResponse env.unmarshalDeleteProjectApiKey
                      resp with
                  | .error err => some err
                  | .ok d =>
                    if !d.Success then
                      some ("failed to delete API key with ID " ++ apiKeyID ++ " in project "
                        ++ projectID)
                    else none) := by
  refine ⟨?_, ⟨rfl, rfl, rfl⟩, ?_, ?_⟩
  · intro r s resp hne
    cases h : (r.ClientFactory.NewOrganizationClient s.OrganizationPublicKey.ValueString
        s.OrganizationPrivateKey.ValueString).DeleteProjectApiKey s.ProjectID.ValueString with
    | none => rw [projectApiKeyResource_Delete_ok r s resp hne h]
    | some e => rw [projectApiKeyResource_Delete_err r s resp e hne h]
  · intro r s resp hne
    cases h : r.AdminClient.DeleteOrganizationApiKey s.OrganizationID.ValueString
        s.ID.ValueString with
    | none => rw [organizationApiKeyResource_Delete_ok r s resp hne h]
    | some e => rw [organizationApiKeyResource_Delete_err r s resp e hne h]
  · intro env host publicKey privateKey projectID apiKeyID hvalid
    refine ⟨{ Method := http.MethodDelete
              URL := env.parseURL (internal.langfuse.buildURL host
                ("api/public/projects/" ++ projectID ++ "/apiKeys/" ++ apiKeyID))
              Header := [("Content-Type", "application/json"),
                ("Authorization", "Basic " ++ env.base64 (publicKey ++ ":" ++ privateKey))]
              Body := none }, rfl, rfl, ?_⟩
    intro httpClient
    have hreq := organizationClientImpl_makeRequest_no_body env
      (internal.langfuse.NewOrganizationClient httpClient host publicKey privateKey)
      http.MethodDelete ("api/public/projects/" ++ projectID ++ "/apiKeys/" ++ apiKeyID) hvalid
    simp only [internal.langfuse.NewOrganizationClient] at hreq ⊢
    simp only [internal.langfuse.organizationClientImpl.DeleteProjectApiKey, hreq]
    cases httpClient.Do _ <;> rfl

/-- C13 (witness): Delete of both credential reconcilers on the sample records, and the
request of the sample client. -/
theorem C13_delete_call_omits_credential_id_witness :
    (provider.projectApiKeyResource.Delete ⟨sample.projectFactory⟩
        ⟨⟨some sample.projectApiKeyState⟩⟩ ⟨⟨some sample.projectApiKeyState⟩, []⟩).calls
      = [⟨"pk_test_123", "sk_test_456", .DeleteProjectApiKey "proj-123"⟩] ∧
    (internal.provider.organizationApiKeyResource.Delete ⟨sample.adminClient⟩
        ⟨⟨some sample.organizationApiKeyState⟩⟩
        ⟨⟨some sample.organizationApiKeyState⟩, []⟩).calls
      = [.DeleteOrganizationApiKey "org-123" "oak-123"] ∧
    ∃ req : http.Request,
      req.Method = "DELETE" ∧
      req.URL = sample.env.parseURL
        "https://cloud.langfuse.com/api/public/projects/proj-123/apiKeys/pak-123" ∧
      ∀ httpClient : http.Client,
        internal.langfuse.organizationClientImpl.DeleteProjectApiKey sample.env
            (internal.langfuse.NewOrganizationClient httpClient "https://cloud.langfuse.com"
              "pk-1234" "sk-1234") "proj-123" "pak-123"
          = match httpClient.Do req with
            | .error err => some ("failed to make request: " ++ err)
            | .ok resp =>
              match internal.langfuse.decodeResponse
                  sample.env.unmarshalDeleteProjectApiKey resp with
              | .error err => some err
              | .ok d =>
                if !d.Success then
                  some ("failed to delete API key with ID " ++ "pak-123" ++ " in project "
                    ++ "proj-123")
                else none :=
  ⟨C13_delete_call_omits_credential_id.1 ⟨sample.projectFactory⟩ sample.projectApiKeyState
      ⟨⟨some sample.projectApiKeyState⟩, []⟩ rfl,
   C13_delete_call_omits_credential_id.2.2.1 ⟨sample.adminClient⟩
      sample.organizationApiKeyState ⟨⟨some sample.organizationApiKeyState⟩, []⟩ rfl,
   C13_delete_call_omits_credential_id.2.2.2 sample.env "https://cloud.langfuse.com"
      "pk-1234" "sk-1234" "proj-123" "pak-123" rfl⟩

/-! ## Lookup lemmas: the scan of a decoded listing -/

theorem find_by_id_first {α : Type} (ID : α → String) (keys : List α) (id : String) (k : α)
    (h : keys.find? (fun key => decide (ID key = id)) = some k) :
    ID k = id ∧ ∃ before after, keys = before ++ k :: after ∧ ∀ x ∈ before, ID x ≠ id := by
  rw [List.find?_eq_some] at h
  obtain ⟨hk, before, after, hsplit, hbefore⟩ := h
  refine ⟨by simpa using hk, before, after, hsplit, ?_⟩
  intro x hx
  simpa using hbefore x hx

theorem scanProjects_some (projectID : String) (projects : List internal.langfuse.Project) :
    internal.langfuse.scanProjects projectID (projects.map some)
      = match projects.find? (fun proj => decide (proj.ID = projectID)) with
        | some proj => .ok proj
        | none => .err ("cannot find project with ID " ++ projectID) := by
  induction projects with
  | nil => rfl
  | cons proj rest ih =>
    by_cases hid : proj.ID = projectID
    · simp [internal.langfuse.scanProjects, hid]
    · simp [internal.langfuse.scanProjects, hid, ih]

/-! ## C14: credential lookup is find-by-id over the listing -/

/-- C14: when the credential listing is fetched and decoded to the key list `L`,
`GetOrganizationApiKey(org, c)` and `GetProjectApiKey(project, c)` succeed exactly when some
key of `L` has id `c`; the key returned is the first such key of `L`, as listed; and a
failure is the not-found error, whose text contains both `c` and the parent id. -/
theorem C14_credential_lookup_is_find_by_id :
    (∀ (env : internal.langfuse.Env) (c : internal.langfuse.adminClientImpl)
        (orgID apiKeyID : String) (httpResp : http.Response)
        (L : internal.langfuse.listOrganizationApiKeysResponse),
        c.makeRequest env http.MethodGet ("api/admin/organizations/" ++ orgID ++ "/apiKeys")
          none = .ok httpResp →
        200 ≤ httpResp.StatusCode → httpResp.StatusCode < 300 →
        httpResp.Body.err = none →
        env.unmarshalListOrganizationApiKeys httpResp.Body.data = .ok L →
        ((∃ k, c.GetOrganizationApiKey env orgID apiKeyID = .ok k)
          ↔ ∃ key ∈ L.ApiKeys, key.ID = apiKeyID) ∧
        (∀ k, c.GetOrganizationApiKey env orgID apiKeyID = .ok k →
          k.ID = apiKeyID ∧
          ∃ before after, L.ApiKeys = before ++ k :: after ∧
            ∀ x ∈ before, x.ID ≠ apiKeyID) ∧
        (∀ e, c.GetOrganizationApiKey env orgID apiKeyID = .error e →
          e = "cannot find API key with ID " ++ apiKeyID ++ " in organization " ++ orgID ∧
          occursIn apiKeyID e ∧ occursIn orgID e)) ∧
    (∀ (env : internal.langfuse.Env) (c : internal.langfuse.organizationClientImpl)
        (projectID apiKeyID : String) (httpResp : http.Response)
        (L : internal.langfuse.listProjectApiKeysResponse),
        c.makeRequest env http.MethodGet ("api/public/projects/" ++ projectID ++ "/apiKeys")
          none = .ok httpResp →
        200 ≤ httpResp.StatusCode → httpResp.StatusCode < 300 →
        httpResp.Body.err = none →
        env.unmarshalListProjectApiKeys httpResp.Body.data = .ok L →
        ((∃ k, c.GetProjectApiKey env projectID apiKeyID = .ok k)
          ↔ ∃ key ∈ L.ApiKeys, key.ID = apiKeyID) ∧
        (∀ k, c.GetProjectApiKey env projectID apiKeyID = .ok k →
          k.ID = apiKeyID ∧
          ∃ before after, L.ApiKeys = before ++ k :: after ∧
            ∀ x ∈ before, x.ID ≠ apiKeyID) ∧
        (∀ e, c.GetProjectApiKey env projectID apiKeyID = .error e →
          e = "cannot find API key with ID " ++ apiKeyID ++ " in project " ++ projectID ∧
          occursIn apiKeyID e ∧ occursIn projectID e)) := by
  constructor
  · intro env c orgID apiKeyID httpResp L hreq hlo hhi hread hjson
    have hget : c.GetOrganizationApiKey env orgID apiKeyID
        = match L.ApiKeys.find? (fun key => decide (key.ID = apiKeyID)) with
          | some key => .ok key
          | none => .error ("cannot find API key with ID " ++ apiKeyID ++ " in organization "
              ++ orgID) := by
      simp [internal.langfuse.adminClientImpl.GetOrganizationApiKey, hreq,
        decodeResponse_ok _ httpResp L hlo hhi hread hjson]
    rw [hget]
    cases hfind : L.ApiKeys.find? (fun key => decide (key.ID = apiKeyID)) with
    | none =>
      refine ⟨⟨fun ⟨k, hk⟩ => by simp at hk, fun ⟨key, hmem, hid⟩ => ?_⟩,
        fun k hk => by simp at hk, fun e he => ?_⟩
      · rw [List.find?_eq_none] at hfind
        exact absurd (by simpa using hid) (hfind key hmem)
      · simp only [Except.error.injEq] at he
        subst he
        exact ⟨rfl,
          occursIn_of_eq "cannot find API key with ID " apiKeyID
            (" in organization " ++ orgID) _ (by simp [String.append_assoc]),
          occursIn_of_eq ("cannot find API key with ID " ++ apiKeyID ++ " in organization ")
            orgID "" _ (by simp)⟩
    | some k0 =>
      obtain ⟨hid, before, after, hsplit, hbefore⟩ :=
        find_by_id_first (fun key : internal.langfuse.OrganizationApiKey => key.ID)
          L.ApiKeys apiKeyID k0 hfind
      refine ⟨⟨fun _ => ⟨k0, ?_, hid⟩, fun _ => ⟨k0, rfl⟩⟩, fun k hk => ?_,
        fun e he => by simp at he⟩
      · rw [hsplit]; simp
      · simp only [Except.ok.injEq] at hk
        subst hk
        exact ⟨hid, before, after, hsplit, hbefore⟩
  · intro env c projectID apiKeyID httpResp L hreq hlo hhi hread hjson
    have hget : c.GetProjectApiKey env projectID apiKeyID
        = match L.ApiKeys.find? (fun key => decide (key.ID = apiKeyID)) with
          | some key => .ok key
          | none => .error ("cannot find API key with ID " ++ apiKeyID ++ " in project "
              ++ projectID) := by
      simp [internal.langfuse.organizationClientImpl.GetProjectApiKey, hreq,
        decodeResponse_ok _ httpResp L hlo hhi hread hjson]
    rw [hget]
    cases hfind : L.ApiKeys.find? (fun key => decide (key.ID = apiKeyID)) with
    | none =>
      refine ⟨⟨fun ⟨k, hk⟩ => by simp at hk, fun ⟨key, hmem, hid⟩ => ?_⟩,
        fun k hk => by simp at hk, fun e he => ?_⟩
      · rw [List.find?_eq_none] at hfind
        exact absurd (by simpa using hid) (hfind key hmem)
      · simp only [Except.error.injEq] at he
        subst he
        exact ⟨rfl,
          occursIn_of_eq "cannot find API key with ID " apiKeyID
            (" in project " ++ projectID) _ (by simp [String.append_assoc]),
          occursIn_of_eq ("cannot find API key with ID " ++ apiKeyID ++ " in project ")
            projectID "" _ (by simp)⟩
    | some k0 =>
      obtain ⟨hid, before, after, hsplit, hbefore⟩ :=
        find_by_id_first (fun key : internal.langfuse.ProjectApiKey => key.ID)
          L.ApiKeys apiKeyID k0 hfind
      refine ⟨⟨fun _ => ⟨k0, ?_, hid⟩, fun _ => ⟨k0, rfl⟩⟩, fun k hk => ?_,
        fun e he => by simp at he⟩
      · rw [hsplit]; simp
      · simp only [Except.ok.injEq] at hk
        subst hk
        exact ⟨hid, before, after, hsplit, hbefore⟩

/-- C14 (witness): a listing that holds the id twice; the lookup of either client returns
the first of the two keys. -/
theorem C14_credential_lookup_is_find_by_id_witness :
    ((sample.adminImpl (sample.answering sample.twoKeyListing)).GetOrganizationApiKey
        sample.listingEnv "org-123" "oak-123"
      = .ok { ID := "oak-123", PublicKey := "pk-first", SecretKey := "" } ∧
      ∃ before after,
        [({ ID := "oak-999", PublicKey := "", SecretKey := "" } :
            internal.langfuse.OrganizationApiKey),
          { ID := "oak-123", PublicKey := "pk-first", SecretKey := "" },
          { ID := "oak-123", PublicKey := "pk-second", SecretKey := "" }]
          = before ++ { ID := "oak-123", PublicKey := "pk-first", SecretKey := "" } :: after ∧
        ∀ x ∈ before, x.ID ≠ "oak-123") ∧
    ((sample.organizationImpl (sample.answering sample.twoKeyListing)).GetProjectApiKey
        sample.listingEnv "proj-123" "oak-123"
      = .ok { ID := "oak-123", PublicKey := "pk-first", SecretKey := "" } ∧
      ∃ before after,
        [({ ID := "oak-999", PublicKey := "", SecretKey := "" } :
            internal.langfuse.ProjectApiKey),
          { ID := "oak-123", PublicKey := "pk-first", SecretKey := "" },
          { ID := "oak-123", PublicKey := "pk-second", SecretKey := "" }]
          = before ++ { ID := "oak-123", PublicKey := "pk-first", SecretKey := "" } :: after ∧
        ∀ x ∈ before, x.ID ≠ "oak-123") :=
  ⟨⟨rfl, ((C14_credential_lookup_is_find_by_id.1 sample.listingEnv
      (sample.adminImpl (sample.answering sample.twoKeyListing)) "org-123" "oak-123"
      { StatusCode := 200, Body := { data := sample.twoKeyListing, err := none } }
      { ApiKeys := [{ ID := "oak-999", PublicKey := "", SecretKey := "" },
                    { ID := "oak-123", PublicKey := "pk-first", SecretKey := "" },
                    { ID := "oak-123", PublicKey := "pk-second", SecretKey := "" }] }
      rfl (by decide) (by decide) rfl rfl).2.1 _ rfl).2⟩,
   ⟨rfl, ((C14_credential_lookup_is_find_by_id.2 sample.listingEnv
      (sample.organizationImpl (sample.answering sample.twoKeyListing)) "proj-123" "oak-123"
      { StatusCode := 200, Body := { data := sample.twoKeyListing, err := none } }
      { ApiKeys := [{ ID := "oak-999", PublicKey := "", SecretKey := "" },
                    { ID := "oak-123", PublicKey := "pk-first", SecretKey := "" },
                    { ID := "oak-123", PublicKey := "pk-second", SecretKey := "" }] }
      rfl (by decide) (by decide) rfl rfl).2.1 _ rfl).2⟩⟩

/-! ## C15: project lookup is find-by-id over the listing -/

/-- C15: when the project listing is fetched and decoded and every entry of it is a project
(the list `L`, no null entry), `GetProject(p)` succeeds exactly when some project of `L` has
id `p`; the project returned has id `p` and is the first such project of `L`; and a failure
is the not-found error, whose text contains `p`. -/
theorem C15_project_lookup_is_find_by_id
    (env : internal.langfuse.Env) (c : internal.langfuse.organizationClientImpl)
    (projectID : String) (httpResp : http.Response)
    (listing : internal.langfuse.listProjectsResponse) (L : List internal.langfuse.Project)
    (hreq : c.makeRequest env http.MethodGet "api/public/organizations/projects" none
      = .ok httpResp)
    (hlo : 200 ≤ httpResp.StatusCode) (hhi : httpResp.StatusCode < 300)
    (hread : httpResp.Body.err = none)
    (hjson : env.unmarshalListProjects httpResp.Body.data = .ok listing)
    (hnonnull : listing.Projects = L.map some) :
    ((∃ proj, c.GetProject env projectID = .ok proj) ↔ ∃ q ∈ L, q.ID = projectID) ∧
    (∀ proj, c.GetProject env projectID = .ok proj →
      proj.ID = projectID ∧
      ∃ before after, L = before ++ proj :: after ∧ ∀ x ∈ before, x.ID ≠ projectID) ∧
    (∀ e, c.GetProject env projectID = .err e →
      e = "cannot find project with ID " ++ projectID ∧ occursIn projectID e) ∧
    c.GetProject env projectID ≠ .panic := by
  have hget : c.GetProject env projectID
      = match L.find? (fun proj => decide (proj.ID = projectID)) with
        | some proj => .ok proj
        | none => .err ("cannot find project with ID " ++ projectID) := by
    simp [internal.langfuse.organizationClientImpl.GetProject, hreq,
      decodeResponse_ok _ httpResp listing hlo hhi hread hjson, hnonnull,
      scanProjects_some]
  rw [hget]
  cases hfind : L.find? (fun proj => decide (proj.ID = projectID)) with
  | none =>
    refine ⟨⟨fun ⟨k, hk⟩ => by simp at hk, fun ⟨q, hmem, hid⟩ => ?_⟩,
      fun k hk => by simp at hk, fun e he => ?_, by simp⟩
    · rw [List.find?_eq_none] at hfind
      exact absurd (by simpa using hid) (hfind q hmem)
    · simp only [internal.langfuse.Outcome.err.injEq] at he
      subst he
      exact ⟨rfl, occursIn_of_eq "cannot find project with ID " projectID "" _ (by simp)⟩
  | some p0 =>
    obtain ⟨hid, before, after, hsplit, hbefore⟩ :=
      find_by_id_first (fun proj : internal.langfuse.Project => proj.ID) L projectID p0 hfind
    refine ⟨⟨fun _ => ⟨p0, ?_, hid⟩, fun _ => ⟨p0, rfl⟩⟩, fun k hk => ?_,
      fun e he => by simp at he, by simp⟩
    · rw [hsplit]; simp
    · simp only [internal.langfuse.Outcome.ok.injEq] at hk
      subst hk
      exact ⟨hid, before, after, hsplit, hbefore⟩

/-- C15 (witness): a listing that holds the id twice; the lookup returns the first of the
two projects. -/
theorem C15_project_lookup_is_find_by_id_witness :
    (sample.organizationImpl (sample.answering sample.twoProjectListing)).GetProject
        sample.listingEnv "proj-123"
      = .ok { ID := "proj-123", Name := "first", RetentionDays := 0, Metadata := [] } ∧
    ∃ before after,
      [({ ID := "proj-999", Name := "", RetentionDays := 0, Metadata := [] } :
          internal.langfuse.Project),
        { ID := "proj-123", Name := "first", RetentionDays := 0, Metadata := [] },
        { ID := "proj-123", Name := "second", RetentionDays := 0, Metadata := [] }]
        = before ++ { ID := "proj-123", Name := "first", RetentionDays := 0
                      Metadata := [] } :: after ∧
      ∀ x ∈ before, x.ID ≠ "proj-123" :=
  ⟨rfl, ((C15_project_lookup_is_find_by_id sample.listingEnv
      (sample.organizationImpl (sample.answering sample.twoProjectListing)) "proj-123"
      { StatusCode := 200, Body := { data := sample.twoProjectListing, err := none } }
      { Projects := [some { ID := "proj-999", Name := "", RetentionDays := 0, Metadata := [] },
                     some { ID := "proj-123", Name := "first", RetentionDays := 0
                            Metadata := [] },
                     some { ID := "proj-123", Name := "second", RetentionDays := 0
                            Metadata := [] }] }
      [{ ID := "proj-999", Name := "", RetentionDays := 0, Metadata := [] },
       { ID := "proj-123", Name := "first", RetentionDays := 0, Metadata := [] },
       { ID := "proj-123", Name := "second", RetentionDays := 0, Metadata := [] }]
      rfl (by decide) (by decide) rfl rfl rfl).2.1 _ rfl).2⟩

/-! ## Text lemmas -/

theorem append_ne_of_head_ne (a b x y : String) (ca cb : Char) (ta tb : List Char)
    (ha : a.data = ca :: ta) (hb : b.data = cb :: tb) (hne : ca ≠ cb) :
    a ++ x ≠ b ++ y := by
  intro h
  have hd := congrArg String.data h
  simp only [String.data_append, ha, hb, List.cons_append, List.cons.injEq] at hd
  exact hne hd.1

theorem String_ext_data (a b : String) (h : a.data = b.data) : a = b := by
  cases a; cases b; simp_all

theorem data_ends_with_slash (h0 : String) : (h0 ++ "/").data.getLast? = some '/' := by
  have : (h0 ++ "/").data = h0.data ++ ['/'] := by simp [String.data_append]
  rw [this, List.getLast?_concat]

theorem append_slash_ne_empty (h0 : String) : h0 ++ "/" ≠ "" := by
  intro h
  have hd := congrArg String.data h
  simp [String.data_append] at hd

/-! ## C16: decodeResponse looks at the status before it decodes -/

/-- C16: for every response with status `s` and body `b`, `decodeResponse` fails with the
HTTP error text `request failed with status code s, response body: b` if and only if
`s < 200` or `s ≥ 300`, whatever `b` is; and when `200 ≤ s < 300` and the body was read in
full, it succeeds with `v` exactly when `b` decodes to `v`, and fails with the decode error
when `b` does not decode. -/
theorem C16_decodeResponse_classifies_by_status {T : Type} (unmarshal : json.Unmarshal T)
    (resp : http.Response) :
    (internal.langfuse.decodeResponse unmarshal resp
        = .error ("request failed with status code " ++ toString resp.StatusCode
            ++ ", response body: " ++ resp.Body.data)
      ↔ (resp.StatusCode < 200 ∨ resp.StatusCode ≥ 300)) ∧
    (200 ≤ resp.StatusCode → resp.StatusCode < 300 → resp.Body.err = none →
      (∀ v, internal.langfuse.decodeResponse unmarshal resp = .ok v
        ↔ unmarshal resp.Body.data = .ok v) ∧
      (∀ e, unmarshal resp.Body.data = .error e →
        internal.langfuse.decodeResponse unmarshal resp
          = .error ("failed to unmarshal response body: " ++ e))) := by
  constructor
  · constructor
    · intro h
      by_contra hst
      unfold internal.langfuse.decodeResponse at h
      rw [if_neg hst] at h
      cases hread : resp.Body.err with
      | some err =>
        simp only [hread, Except.error.injEq] at h
        have hne := append_ne_of_head_ne "failed to read response body: "
          "request failed with status code " err
          (toString resp.StatusCode ++ ", response body: " ++ resp.Body.data)
          'f' 'r' _ _ rfl rfl (by decide)
        apply hne
        rw [h]
        simp [String.append_assoc]
      | none =>
        cases hjson : unmarshal resp.Body.data with
        | error err =>
          simp only [hread, hjson, Except.error.injEq] at h
          have hne := append_ne_of_head_ne "failed to unmarshal response body: "
            "request failed with status code " err
            (toString resp.StatusCode ++ ", response body: " ++ resp.Body.data)
            'f' 'r' _ _ rfl rfl (by decide)
          apply hne
          rw [h]
          simp [String.append_assoc]
        | ok v => simp [hread, hjson] at h
    · intro hst
      simp [internal.langfuse.decodeResponse, hst]
  · intro hlo hhi hread
    have hst : ¬ (resp.StatusCode < 200 ∨ resp.StatusCode ≥ 300) := by omega
    constructor
    · intro v
      cases hjson : unmarshal resp.Body.data with
      | error err => simp [internal.langfuse.decodeResponse, hst, hread, hjson]
      | ok w => simp [internal.langfuse.decodeResponse, hst, hread, hjson]
    · intro e hjson
      simp [internal.langfuse.decodeResponse, hst, hread, hjson]

/-- C16 (witness): status 200 with the sample refusal body decodes; the same body under
status 404 is the HTTP error, although it is well-formed. -/
theorem C16_decodeResponse_classifies_by_status_witness :
    internal.langfuse.decodeResponse sample.env.unmarshalDeleteOrganization
        { StatusCode := 200, Body := { data := sample.deleteRefused, err := none } }
      = .ok { Success := false } ∧
    internal.langfuse.decodeResponse sample.env.unmarshalDeleteOrganization
        { StatusCode := 404, Body := { data := sample.deleteRefused, err := none } }
      = .error ("request failed with status code " ++ toString (404 : Int)
          ++ ", response body: " ++ sample.deleteRefused) :=
  ⟨(((C16_decodeResponse_classifies_by_status sample.env.unmarshalDeleteOrganization
      { StatusCode := 200, Body := { data := sample.deleteRefused, err := none } }).2
      (by decide) (by decide) rfl).1 { Success := false }).2 rfl,
   (C16_decodeResponse_classifies_by_status sample.env.unmarshalDeleteOrganization
      { StatusCode := 404, Body := { data := sample.deleteRefused, err := none } }).1.2
      (Or.inr (by decide))⟩

/-! ## C17: buildURL and the trailing slash of the host -/

/-- C17: for every non-empty host `h` that does not end in `/` and every path `p`,
`buildURL h p = buildURL (h ++ "/") p = h ++ "/" ++ p`; and for every host that ends in
`/`, `buildURL h p = h ++ p`. -/
theorem C17_buildURL_tolerates_trailing_slash :
    (∀ h p : String, h ≠ "" → (¬ ∃ h0 : String, h = h0 ++ "/") →
      internal.langfuse.buildURL h p = h ++ "/" ++ p ∧
      internal.langfuse.buildURL (h ++ "/") p = h ++ "/" ++ p) ∧
    (∀ h p : String, (∃ h0 : String, h = h0 ++ "/") →
      internal.langfuse.buildURL h p = h ++ p) := by
  have hslash : ∀ h0 p : String, internal.langfuse.buildURL (h0 ++ "/") p = h0 ++ "/" ++ p := by
    intro h0 p
    simp [internal.langfuse.buildURL, append_slash_ne_empty, data_ends_with_slash]
  constructor
  · intro h p hne hno
    refine ⟨?_, hslash h p⟩
    have hlast : h.data.getLast? ≠ some '/' := by
      intro hl
      rw [List.getLast?_eq_some_iff] at hl
      obtain ⟨ys, hys⟩ := hl
      exact hno ⟨⟨ys⟩, String_ext_data _ _ (by simp [String.data_append, hys])⟩
    simp [internal.langfuse.buildURL, hne, hlast]
  · rintro h p ⟨h0, rfl⟩
    exact hslash h0 p

/-- C17 (witness): the sample host with and without the trailing slash. -/
theorem C17_buildURL_tolerates_trailing_slash_witness :
    (internal.langfuse.buildURL "https://cloud.langfuse.com" "api/public/projects"
        = "https://cloud.langfuse.com" ++ "/" ++ "api/public/projects" ∧
      internal.langfuse.buildURL ("https://cloud.langfuse.com" ++ "/") "api/public/projects"
        = "https://cloud.langfuse.com" ++ "/" ++ "api/public/projects") ∧
    internal.langfuse.buildURL "https://cloud.langfuse.com/" "api/public/projects"
      = "https://cloud.langfuse.com/" ++ "api/public/projects" :=
  ⟨C17_buildURL_tolerates_trailing_slash.1 "https://cloud.langfuse.com" "api/public/projects"
      (by decide)
      (by
        rintro ⟨h0, hh⟩
        have hd := congrArg (fun s : String => s.data.getLast?) hh
        simp only [data_ends_with_slash] at hd
        exact absurd hd (by decide)),
   C17_buildURL_tolerates_trailing_slash.2 "https://cloud.langfuse.com/" "api/public/projects"
      ⟨"https://cloud.langfuse.com", rfl⟩⟩

/-! ## Phase lemmas: a failed lookup of the project credential Read -/

section ProjectLemmas

open provider

theorem projectApiKeyResource_Read_err (r : projectApiKeyResource)
    (s : projectApiKeyResourceModel)
    (resp : resource.ReadResponse projectApiKeyResourceModel)
    (e : error) (hne : resp.Diagnostics.HasError = false)
    (h : (r.ClientFactory.NewOrganizationClient s.OrganizationPublicKey.ValueString
        s.OrganizationPrivateKey.ValueString).GetProject s.ProjectID.ValueString = .error e) :
    r.Read ⟨⟨some s⟩⟩ resp
      = { resp := { State := ⟨none⟩, Diagnostics := resp.Diagnostics }
          calls := [⟨s.OrganizationPublicKey.ValueString,
            s.OrganizationPrivateKey.ValueString, .GetProject s.ProjectID.ValueString⟩] } := by
  simp [projectApiKeyResource.Read, tfsdk.State.Get, tfsdk.State.RemoveResource,
    diag_Append_nil, hne, h]

end ProjectLemmas

/-! ## C18: the organization key pair of the project-level reconcilers -/

/-- C18 (the code, with the failing input): in `projectApiKeyResource`, `Create` makes its
client call on the client constructed from exactly the key pair of the configuration, `Read`
and `Delete` on the client constructed from exactly the pair of the persisted record, and
the record written by a successful `Create` or `Read` carries that same pair. In
`projectResource` no phase constructs a client: for every configuration and every record
the decode into `projectResourceModel` fails, so `Create`, `Update`, `Read` and `Delete`
return with the conversion diagnostic, no client call, and the state as it was; so `Create`
over the sample configuration writes no record. -/
theorem C18_key_pair_project_never_builds_client :
    (∀ (r : provider.projectApiKeyResource) (cfg : provider.projectApiKeyResourceModel)
        (resp : resource.CreateResponse provider.projectApiKeyResourceModel),
        resp.Diagnostics.HasError = false →
        (r.Create ⟨⟨some cfg⟩⟩ resp).calls.map (fun call => (call.publicKey, call.privateKey))
          = [(cfg.OrganizationPublicKey.ValueString, cfg.OrganizationPrivateKey.ValueString)] ∧
        ∀ k, (r.ClientFactory.NewOrganizationClient cfg.OrganizationPublicKey.ValueString
            cfg.OrganizationPrivateKey.ValueString).CreateProjectApiKey
              cfg.ProjectID.ValueString = .ok k →
          ∃ m, (r.Create ⟨⟨some cfg⟩⟩ resp).resp.State.Raw = some m ∧
            m.OrganizationPublicKey = .known cfg.OrganizationPublicKey.ValueString ∧
            m.OrganizationPrivateKey = .known cfg.OrganizationPrivateKey.ValueString) ∧
    (∀ (r : provider.projectApiKeyResource) (s : provider.projectApiKeyResourceModel)
        (resp : resource.ReadResponse provider.projectApiKeyResourceModel),
        resp.Diagnostics.HasError = false →
        (r.Read ⟨⟨some s⟩⟩ resp).calls.map (fun call => (call.publicKey, call.privateKey))
          = [(s.OrganizationPublicKey.ValueString, s.OrganizationPrivateKey.ValueString)] ∧
        ∀ p, (r.ClientFactory.NewOrganizationClient s.OrganizationPublicKey.ValueString
            s.OrganizationPrivateKey.ValueString).GetProject s.ProjectID.ValueString = .ok p →
          ∃ m, (r.Read ⟨⟨some s⟩⟩ resp).resp.State.Raw = some m ∧
            m.OrganizationPublicKey.ValueString = s.OrganizationPublicKey.ValueString ∧
            m.OrganizationPrivateKey.ValueString = s.OrganizationPrivateKey.ValueString) ∧
    (∀ (r : provider.projectApiKeyResource) (s : provider.projectApiKeyResourceModel)
        (resp : resource.DeleteResponse provider.projectApiKeyResourceModel),
        resp.Diagnostics.HasError = false →
        (r.Delete ⟨⟨some s⟩⟩ resp).calls.map (fun call => (call.publicKey, call.privateKey))
          = [(s.OrganizationPublicKey.ValueString, s.OrganizationPrivateKey.ValueString)]) ∧
    (∀ (r : provider.projectResource) (cfg : provider.projectResourceModel)
        (resp : resource.CreateResponse provider.projectResourceModel),
        (r.Create ⟨⟨some cfg⟩⟩ resp).calls = [] ∧
        (r.Create ⟨⟨some cfg⟩⟩ resp).resp.State = resp.State ∧
        (r.Create ⟨⟨some cfg⟩⟩ resp).resp.Diagnostics.HasError = true) ∧
    (∀ (r : provider.projectResource) (cfg : provider.projectResourceModel)
        (prior : tfsdk.State provider.projectResourceModel)
        (resp : resource.UpdateResponse provider.projectResourceModel),
        (r.Update ⟨⟨some cfg⟩, prior⟩ resp).calls = [] ∧
        (r.Update ⟨⟨some cfg⟩, prior⟩ resp).resp.State = resp.State ∧
        (r.Update ⟨⟨some cfg⟩, prior⟩ resp).resp.Diagnostics.HasError = true) ∧
    (∀ (r : provider.projectResource) (s : provider.projectResourceModel)
        (resp : resource.ReadResponse provider.projectResourceModel),
        (r.Read ⟨⟨some s⟩⟩ resp).calls = [] ∧
        (r.Read ⟨⟨some s⟩⟩ resp).resp.State = resp.State ∧
        (r.Read ⟨⟨some s⟩⟩ resp).resp.Diagnostics.HasError = true) ∧
    (∀ (r : provider.projectResource) (s : provider.projectResourceModel)
        (resp : resource.DeleteResponse provider.projectResourceModel),
        (r.Delete ⟨⟨some s⟩⟩ resp).calls = [] ∧
        (r.Delete ⟨⟨some s⟩⟩ resp).resp.State = resp.State ∧
        (r.Delete ⟨⟨some s⟩⟩ resp).resp.Diagnostics.HasError = true) ∧
    (sample.keyedFactory.NewOrganizationClient "pk_test_123" "sk_test_456").CreateProject
        { ID := "", Name := "ChatQA", Retention := 0 }
      = .ok { ID := "proj-123", Name := "ChatQA", Retention := 0 } ∧
    (provider.projectResource.Create ⟨sample.keyedFactory⟩ ⟨⟨some sample.projectConfig⟩⟩
        ⟨⟨none⟩, []⟩).calls = [] ∧
    (provider.projectResource.Create ⟨sample.keyedFactory⟩ ⟨⟨some sample.projectConfig⟩⟩
        ⟨⟨none⟩, []⟩).resp
      = { State := ⟨none⟩
          Diagnostics := [tfsdk.wrongTypeDiagnostic .Int32Value .Int64Value] } := by
  refine ⟨?_, ?_, ?_, ?_, ?_, ?_, ?_, rfl, ?_, ?_⟩
  · intro r cfg resp hne
    constructor
    · cases h : (r.ClientFactory.NewOrganizationClient cfg.OrganizationPublicKey.ValueString
          cfg.OrganizationPrivateKey.ValueString).CreateProjectApiKey
            cfg.ProjectID.ValueString with
      | error e => rw [projectApiKeyResource_Create_err r cfg resp e hne h]; rfl
      | ok k => rw [projectApiKeyResource_Create_ok r cfg resp k hne h]; rfl
    · intro k h
      rw [projectApiKeyResource_Create_ok r cfg resp k hne h]
      exact ⟨_, rfl, rfl, rfl⟩
  · intro r s resp hne
    constructor
    · cases h : (r.ClientFactory.NewOrganizationClient s.OrganizationPublicKey.ValueString
          s.OrganizationPrivateKey.ValueString).GetProject s.ProjectID.ValueString with
      | error e => rw [projectApiKeyResource_Read_err r s resp e hne h]; rfl
      | ok p => rw [projectApiKeyResource_Read_ok r s resp p hne h]; rfl
    · intro p h
      rw [projectApiKeyResource_Read_ok r s resp p hne h]
      exact ⟨_, rfl, rfl, rfl⟩
  · intro r s resp hne
    cases h : (r.ClientFactory.NewOrganizationClient s.OrganizationPublicKey.ValueString
        s.OrganizationPrivateKey.ValueString).DeleteProjectApiKey s.ProjectID.ValueString with
    | none => rw [projectApiKeyResource_Delete_ok r s resp hne h]; rfl
    | some e => rw [projectApiKeyResource_Delete_err r s resp e hne h]; rfl
  · intro r cfg resp
    rw [projectResource_Create_stops r cfg resp]
    exact ⟨rfl, rfl, diag_HasError_Append_wrongType _ _ _⟩
  · intro r cfg prior resp
    rw [projectResource_Update_stops r cfg prior resp]
    exact ⟨rfl, rfl, diag_HasError_Append_wrongType _ _ _⟩
  · intro r s resp
    rw [projectResource_Read_stops r s resp]
    exact ⟨rfl, rfl, diag_HasError_Append_wrongType _ _ _⟩
  · intro r s resp
    rw [projectResource_Delete_stops r s resp]
    exact ⟨rfl, rfl, diag_HasError_Append_wrongType _ _ _⟩
  · rw [projectResource_Create_stops]
  · rw [projectResource_Create_stops]
    rfl

/-- C18 (witness): the phases of the project credential over a factory whose clients work
only for the key pair of the sample configuration and record. -/
theorem C18_key_pair_project_never_builds_client_witness :
    (provider.projectApiKeyResource.Create ⟨sample.keyedFactory⟩
        ⟨⟨some sample.projectApiKeyConfig⟩⟩ ⟨⟨none⟩, []⟩).calls.map
          (fun call => (call.publicKey, call.privateKey))
      = [("pk_test_123", "sk_test_456")] ∧
    ((provider.projectApiKeyResource.Read ⟨sample.keyedFactory⟩
        ⟨⟨some sample.projectApiKeyState⟩⟩
        ⟨⟨some sample.projectApiKeyState⟩, []⟩).calls.map
          (fun call => (call.publicKey, call.privateKey))
      = [("pk_test_123", "sk_test_456")] ∧
      ∃ m, (provider.projectApiKeyResource.Read ⟨sample.keyedFactory⟩
          ⟨⟨some sample.projectApiKeyState⟩⟩
          ⟨⟨some sample.projectApiKeyState⟩, []⟩).resp.State.Raw = some m ∧
        m.OrganizationPublicKey.ValueString = "pk_test_123" ∧
        m.OrganizationPrivateKey.ValueString = "sk_test_456") ∧
    (provider.projectApiKeyResource.Delete ⟨sample.keyedFactory⟩
        ⟨⟨some sample.projectApiKeyState⟩⟩
        ⟨⟨some sample.projectApiKeyState⟩, []⟩).calls.map
          (fun call => (call.publicKey, call.privateKey))
      = [("pk_test_123", "sk_test_456")] :=
  ⟨(C18_key_pair_project_never_builds_client.1 ⟨sample.keyedFactory⟩
      sample.projectApiKeyConfig ⟨⟨none⟩, []⟩ rfl).1,
   ⟨(C18_key_pair_project_never_builds_client.2.1 ⟨sample.keyedFactory⟩
        sample.projectApiKeyState ⟨⟨some sample.projectApiKeyState⟩, []⟩ rfl).1,
    (C18_key_pair_project_never_builds_client.2.1 ⟨sample.keyedFactory⟩
        sample.projectApiKeyState ⟨⟨some sample.projectApiKeyState⟩, []⟩ rfl).2
        { ID := "proj-123", Name := "test-project", Retention := 0 } rfl⟩,
   C18_key_pair_project_never_builds_client.2.2.1 ⟨sample.keyedFactory⟩
      sample.projectApiKeyState ⟨⟨some sample.projectApiKeyState⟩, []⟩ rfl⟩

/-! ## C19: one scope and at most one client call per phase -/

/-- C19: whatever the request and the response it starts from, every phase of the
organization and organization-credential reconcilers makes at most one client call, an
operation of the admin client (the one of its phase); every phase of the project and
project-credential reconcilers makes at most one client call, an operation of the
organization-scoped client built by the factory (the one of its phase), so all calls of a
phase go to one client. -/
theorem C19_one_scope_at_most_one_call :
    (∀ (r : internal.provider.organizationResource) req resp,
      (r.Create req resp).calls.length ≤ 1 ∧
      ∀ call ∈ (r.Create req resp).calls, ∃ request, call = .CreateOrganization request) ∧
    (∀ (r : internal.provider.organizationResource) req resp,
      (r.Read req resp).calls.length ≤ 1 ∧
      ∀ call ∈ (r.Read req resp).calls, ∃ orgID, call = .GetOrganization orgID) ∧
    (∀ (r : internal.provider.organizationResource) req resp,
      (r.Update req resp).calls.length ≤ 1 ∧
      ∀ call ∈ (r.Update req resp).calls,
        ∃ orgID request, call = .UpdateOrganization orgID request) ∧
    (∀ (r : internal.provider.organizationResource) req resp,
      (r.Delete req resp).calls.length ≤ 1 ∧
      ∀ call ∈ (r.Delete req resp).calls, ∃ orgID, call = .DeleteOrganization orgID) ∧
    (∀ (r : internal.provider.organizationApiKeyResource) req resp,
      (r.Create req resp).calls.length ≤ 1 ∧
      ∀ call ∈ (r.Create req resp).calls, ∃ orgID, call = .CreateOrganizationApiKey orgID) ∧
    (∀ (r : internal.provider.organizationApiKeyResource) req resp,
      (r.Read req resp).calls.length ≤ 1 ∧
      ∀ call ∈ (r.Read req resp).calls,
        ∃ orgID apiKeyID, call = .GetOrganizationApiKey orgID apiKeyID) ∧
    (∀ (r : internal.provider.organizationApiKeyResource) req resp,
      (r.Update req resp).calls = []) ∧
    (∀ (r : internal.provider.organizationApiKeyResource) req resp,
      (r.Delete req resp).calls.length ≤ 1 ∧
      ∀ call ∈ (r.Delete req resp).calls,
        ∃ orgID apiKeyID, call = .DeleteOrganizationApiKey orgID apiKeyID) ∧
    (∀ (r : provider.projectResource) req resp,
      (r.Create req resp).calls.length ≤ 1 ∧
      ∀ call ∈ (r.Create req resp).calls, ∃ project, call.call = .CreateProject project) ∧
    (∀ (r : provider.projectResource) req resp,
      (r.Read req resp).calls.length ≤ 1 ∧
      ∀ call ∈ (r.Read req resp).calls, ∃ projectID, call.call = .GetProject projectID) ∧
    (∀ (r : provider.projectResource) req resp,
      (r.Update req resp).calls.length ≤ 1 ∧
      ∀ call ∈ (r.Update req resp).calls,
        ∃ projectID request, call.call = .UpdateProject projectID request) ∧
    (∀ (r : provider.projectResource) req resp,
      (r.Delete req resp).calls.length ≤ 1 ∧
      ∀ call ∈ (r.Delete req resp).calls, ∃ projectID, call.call = .DeleteProject projectID) ∧
    (∀ (r : provider.projectApiKeyResource) req resp,
      (r.Create req resp).calls.length ≤ 1 ∧
      ∀ call ∈ (r.Create req resp).calls,
        ∃ projectID, call.call = .CreateProjectApiKey projectID) ∧
    (∀ (r : provider.projectApiKeyResource) req resp,
      (r.Read req resp).calls.length ≤ 1 ∧
      ∀ call ∈ (r.Read req resp).calls, ∃ projectID, call.call = .GetProject projectID) ∧
    (∀ (r : provider.projectApiKeyResource) req resp,
      (r.Update req resp).calls = []) ∧
    (∀ (r : provider.projectApiKeyResource) req resp,
      (r.Delete req resp).calls.length ≤ 1 ∧
      ∀ call ∈ (r.Delete req resp).calls,
        ∃ projectID, call.call = .DeleteProjectApiKey projectID) := by
  refine ⟨?_, ?_, ?_, ?_, ?_, ?_, ?_, ?_, ?_, ?_, ?_, ?_, ?_, ?_, ?_, ?_⟩
  · intro r req resp
    unfold internal.provider.organizationResource.Create
    dsimp only
    split_ifs
    · simp
    · split <;> simp
  · intro r req resp
    unfold internal.provider.organizationResource.Read
    dsimp only
    split_ifs
    · simp
    · split <;> simp
  · intro r req resp
    unfold internal.provider.organizationResource.Update
    dsimp only
    split_ifs
    · simp
    · split <;> simp
  · intro r req resp
    unfold internal.provider.organizationResource.Delete
    dsimp only
    split_ifs
    · simp
    · split <;> simp
  · intro r req resp
    unfold internal.provider.organizationApiKeyResource.Create
    dsimp only
    split_ifs
    · simp
    · split <;> simp
  · intro r req resp
    unfold internal.provider.organizationApiKeyResource.Read
    dsimp only
    split_ifs
    · simp
    · split <;> simp
  · intro r req resp
    rfl
  · intro r req resp
    unfold internal.provider.organizationApiKeyResource.Delete
    dsimp only
    split_ifs
    · simp
    · split <;> simp
  · intro r req resp
    unfold provider.projectResource.Create
    dsimp only
    split_ifs
    · simp
    · split <;> simp
  · intro r req resp
    unfold provider.projectResource.Read
    dsimp only
    split_ifs
    · simp
    · split <;> simp
  · intro r req resp
    unfold provider.projectResource.Update
    dsimp only
    split_ifs
    · simp
    · split <;> simp
  · intro r req resp
    unfold provider.projectResource.Delete
    dsimp only
    split_ifs
    · simp
    · split <;> simp
  · intro r req resp
    unfold provider.projectApiKeyResource.Create
    dsimp only
    split_ifs
    · simp
    · split <;> simp
  · intro r req resp
    unfold provider.projectApiKeyResource.Read
    dsimp only
    split_ifs
    · simp
    · split <;> simp
  · intro r req resp
    rfl
  · intro r req resp
    unfold provider.projectApiKeyResource.Delete
    dsimp only
    split_ifs
    · simp
    · split <;> simp

/-! ## Header lemmas -/

theorem Header_find_filter_ne (h : http.Header) (key : String) :
    (h.filter (fun kv => decide (kv.1 ≠ key))).find? (fun kv => decide (kv.1 = key))
      = none := by
  rw [List.find?_eq_none]
  intro kv hkv
  have := (List.mem_filter.mp hkv).2
  simpa using this

theorem Header_Get_Set (h : http.Header) (key value : String) :
    http.Header.Get (http.Header.Set h key value) key = value := by
  unfold http.Header.Get http.Header.Set
  rw [List.find?_append, Header_find_filter_ne]
  simp

theorem adminClientImpl_makeRequest_built (env : internal.langfuse.Env)
    (c : internal.langfuse.adminClientImpl) (method apiPath : String)
    (body : Option internal.langfuse.RequestBody) (req0 : http.Request)
    (h : internal.langfuse.buildBaseRequest env method
      (internal.langfuse.buildURL c.host apiPath) body = .ok req0) :
    c.makeRequest env method apiPath body
      = match c.httpClient.Do
          { req0 with
            Header := http.Header.Set req0.Header "Authorization" ("Bearer " ++ c.apiKey) } with
        | .error err => .error ("failed to make request: " ++ err)
        | .ok resp => .ok resp := by
  simp [internal.langfuse.adminClientImpl.makeRequest, h]

theorem adminClientImpl_makeRequest_not_built (env : internal.langfuse.Env)
    (c : internal.langfuse.adminClientImpl) (method apiPath : String)
    (body : Option internal.langfuse.RequestBody) (e : error)
    (h : internal.langfuse.buildBaseRequest env method
      (internal.langfuse.buildURL c.host apiPath) body = .error e) :
    c.makeRequest env method apiPath body = .error e := by
  simp [internal.langfuse.adminClientImpl.makeRequest, h]

/-! ## C20: admin requests carry the bearer token -/

/-- C20: for every admin client built with api key `k`, whatever the method, path and body:
when the request can be built, `makeRequest` hands the round tripper exactly one request,
whose `Authorization` header is `Bearer ` followed by `k` (and whose method is the one
asked for and whose URL is parsed from the URL text asked for), and its result is decided by
the answer to it; when the request cannot be built nothing is sent. Every operation of the
client goes through `makeRequest`: two round trippers that agree on the requests carrying
`Authorization: Bearer k` give the same admin client. -/
theorem C20_admin_requests_carry_bearer_token :
    (∀ (env : internal.langfuse.Env) (host k method apiPath : String)
        (body : Option internal.langfuse.RequestBody),
        (∃ req : http.Request,
          http.Header.Get req.Header "Authorization" = "Bearer " ++ k ∧
          req.Method = method ∧
          req.URL = env.parseURL (internal.langfuse.buildURL host apiPath) ∧
          ∀ httpClient : http.Client,
            internal.langfuse.adminClientImpl.makeRequest env
                { host := host, apiKey := k, httpClient := httpClient } method apiPath body
              = match httpClient.Do req with
                | .error err => .error ("failed to make request: " ++ err)
                | .ok resp => .ok resp) ∨
        (∃ e : error, ∀ httpClient : http.Client,
            internal.langfuse.adminClientImpl.makeRequest env
                { host := host, apiKey := k, httpClient := httpClient } method apiPath body
              = .error e)) ∧
    (∀ (env : internal.langfuse.Env) (host k : String) (first second : http.Client),
        (∀ req : http.Request,
          http.Header.Get req.Header "Authorization" = "Bearer " ++ k →
          first.Do req = second.Do req) →
        internal.langfuse.NewAdminClient env first host k
          = internal.langfuse.NewAdminClient env second host k) := by
  have hsend : ∀ (env : internal.langfuse.Env) (host k method apiPath : String)
      (body : Option internal.langfuse.RequestBody),
      (∃ req : http.Request,
        http.Header.Get req.Header "Authorization" = "Bearer " ++ k ∧
        req.Method = method ∧
          req.URL = env.parseURL (internal.langfuse.buildURL host apiPath) ∧
        ∀ httpClient : http.Client,
          internal.langfuse.adminClientImpl.makeRequest env
              { host := host, apiKey := k, httpClient := httpClient } method apiPath body
            = match httpClient.Do req with
              | .error err => .error ("failed to make request: " ++ err)
              | .ok resp => .ok resp) ∨
      (∃ e : error, ∀ httpClient : http.Client,
          internal.langfuse.adminClientImpl.makeRequest env
              { host := host, apiKey := k, httpClient := httpClient } method apiPath body
            = .error e) := by
    intro env host k method apiPath body
    cases hb : internal.langfuse.buildBaseRequest env method
        (internal.langfuse.buildURL host apiPath) body with
    | error e =>
      exact Or.inr ⟨e, fun httpClient =>
        adminClientImpl_makeRequest_not_built env
          { host := host, apiKey := k, httpClient := httpClient } method apiPath body e hb⟩
    | ok req0 =>
      obtain ⟨hm, hu, -⟩ := buildBaseRequest_built env method _ body req0 hb
      exact Or.inl ⟨{ req0 with
          Header := http.Header.Set req0.Header "Authorization" ("Bearer " ++ k) },
        Header_Get_Set _ _ _, hm, hu, fun httpClient =>
          adminClientImpl_makeRequest_built env
            { host := host, apiKey := k, httpClient := httpClient } method apiPath body req0 hb⟩
  refine ⟨hsend, ?_⟩
  intro env host k first second hagree
  have hmk : ∀ (method apiPath : String) (body : Option internal.langfuse.RequestBody),
      internal.langfuse.adminClientImpl.makeRequest env
          { host := host, apiKey := k, httpClient := first } method apiPath body
        = internal.langfuse.adminClientImpl.makeRequest env
          { host := host, apiKey := k, httpClient := second } method apiPath body := by
    intro method apiPath body
    rcases hsend env host k method apiPath body with ⟨req, hauth, -, -, hreq⟩ | ⟨e, he⟩
    · rw [hreq first, hreq second, hagree req hauth]
    · rw [he first, he second]
  simp only [internal.langfuse.NewAdminClient, internal.langfuse.adminClientImpl.asAdminClient,
    internal.langfuse.AdminClient.mk.injEq]
  refine ⟨?_, ?_, ?_, ?_, ?_, ?_, ?_, ?_⟩
  · simp only [internal.langfuse.adminClientImpl.ListOrganizations, hmk]
  · funext orgID
    simp only [internal.langfuse.adminClientImpl.GetOrganization, hmk]
  · funext request
    simp only [internal.langfuse.adminClientImpl.CreateOrganization, hmk]
  · funext orgID request
    simp only [internal.langfuse.adminClientImpl.UpdateOrganization, hmk]
  · funext orgID
    simp only [internal.langfuse.adminClientImpl.DeleteOrganization, hmk]
  · funext orgID apiKeyID
    simp only [internal.langfuse.adminClientImpl.GetOrganizationApiKey, hmk]
  · funext orgID
    simp only [internal.langfuse.adminClientImpl.CreateOrganizationApiKey, hmk]
  · funext orgID apiKeyID
    simp only [internal.langfuse.adminClientImpl.DeleteOrganizationApiKey, hmk]

/-- C20 (witness): a round tripper that serves only requests with the bearer token of the
sample admin client gives the same client as one that serves every request. -/
theorem C20_admin_requests_carry_bearer_token_witness :
    internal.langfuse.NewAdminClient sample.env (sample.answering sample.deleteRefused)
        "https://cloud.langfuse.com" "admin-key"
      = internal.langfuse.NewAdminClient sample.env
        (sample.bearerOnly "admin-key" sample.deleteRefused)
        "https://cloud.langfuse.com" "admin-key" :=
  C20_admin_requests_carry_bearer_token.2 sample.env "https://cloud.langfuse.com" "admin-key"
    (sample.answering sample.deleteRefused)
    (sample.bearerOnly "admin-key" sample.deleteRefused)
    (fun req hauth => by simp [sample.answering, sample.bearerOnly, hauth])

/-! ## Request lemmas: the one request of each client operation -/

theorem buildBaseRequest_with_body (env : internal.langfuse.Env) (method url : String)
    (b : internal.langfuse.RequestBody) (text : String)
    (hvalid : env.requestError method url = none) (hbody : env.Marshal b = .ok text) :
    internal.langfuse.buildBaseRequest env method url (some b)
      = .ok { Method := method, URL := env.parseURL url
              Header := [("Content-Type", "application/json")], Body := some text } := by
  simp [internal.langfuse.buildBaseRequest, http.NewRequestWithContext, hvalid, hbody,
    http.Header.Set]

theorem adminClientImpl_makeRequest_no_body (env : internal.langfuse.Env)
    (host k method apiPath : String) (httpClient : http.Client)
    (hvalid : env.requestError method (internal.langfuse.buildURL host apiPath) = none) :
    internal.langfuse.adminClientImpl.makeRequest env
        { host := host, apiKey := k, httpClient := httpClient } method apiPath none
      = match httpClient.Do
          { Method := method, URL := env.parseURL (internal.langfuse.buildURL host apiPath)
            Header := [("Content-Type", "application/json"), ("Authorization", "Bearer " ++ k)]
            Body := none } with
        | .error err => .error ("failed to make request: " ++ err)
        | .ok resp => .ok resp := by
  simp [internal.langfuse.adminClientImpl.makeRequest,
    buildBaseRequest_no_body env method _ hvalid, http.Header.Set]

theorem adminClientImpl_makeRequest_with_body (env : internal.langfuse.Env)
    (host k method apiPath : String) (httpClient : http.Client)
    (b : internal.langfuse.RequestBody) (text : String)
    (hvalid : env.requestError method (internal.langfuse.buildURL host apiPath) = none)
    (hbody : env.Marshal b = .ok text) :
    internal.langfuse.adminClientImpl.makeRequest env
        { host := host, apiKey := k, httpClient := httpClient } method apiPath (some b)
      = match httpClient.Do
          { Method := method, URL := env.parseURL (internal.langfuse.buildURL host apiPath)
            Header := [("Content-Type", "application/json"), ("Authorization", "Bearer " ++ k)]
            Body := some text } with
        | .error err => .error ("failed to make request: " ++ err)
        | .ok resp => .ok resp := by
  simp [internal.langfuse.adminClientImpl.makeRequest,
    buildBaseRequest_with_body env method _ b text hvalid hbody, http.Header.Set]

theorem organizationClientImpl_makeRequest_plain (env : internal.langfuse.Env)
    (host publicKey privateKey method apiPath : String) (httpClient : http.Client)
    (hvalid : env.requestError method (internal.langfuse.buildURL host apiPath) = none) :
    internal.langfuse.organizationClientImpl.makeRequest env
        { host := host, publicKey := publicKey, privateKey := privateKey
          httpClient := httpClient } method apiPath none
      = match httpClient.Do
          { Method := method, URL := env.parseURL (internal.langfuse.buildURL host apiPath)
            Header := [("Content-Type", "application/json"),
              ("Authorization", "Basic " ++ env.base64 (publicKey ++ ":" ++ privateKey))]
            Body := none } with
        | .error err => .error ("failed to make request: " ++ err)
        | .ok resp => .ok resp := by
  simp [internal.langfuse.organizationClientImpl.makeRequest,
    buildBaseRequest_no_body env method _ hvalid, internal.langfuse.SetBasicAuth,
    http.Header.Set]

theorem organizationClientImpl_makeRequest_with_body (env : internal.langfuse.Env)
    (host publicKey privateKey method apiPath : String) (httpClient : http.Client)
    (b : internal.langfuse.RequestBody) (text : String)
    (hvalid : env.requestError method (internal.langfuse.buildURL host apiPath) = none)
    (hbody : env.Marshal b = .ok text) :
    internal.langfuse.organizationClientImpl.makeRequest env
        { host := host, publicKey := publicKey, privateKey := privateKey
          httpClient := httpClient } method apiPath (some b)
      = match httpClient.Do
          { Method := method, URL := env.parseURL (internal.langfuse.buildURL host apiPath)
            Header := [("Content-Type", "application/json"),
              ("Authorization", "Basic " ++ env.base64 (publicKey ++ ":" ++ privateKey))]
            Body := some text } with
        | .error err => .error ("failed to make request: " ++ err)
        | .ok resp => .ok resp := by
  simp [internal.langfuse.organizationClientImpl.makeRequest,
    buildBaseRequest_with_body env method _ b text hvalid hbody,
    internal.langfuse.SetBasicAuth, http.Header.Set]

theorem adminClientImpl_ListOrganizations_sends (env : internal.langfuse.Env)
    (host k : String)
    (hvalid : env.requestError http.MethodGet
      (internal.langfuse.buildURL host "api/admin/organizations") = none) :
    http.SendsExactly Except.error
      (fun httpClient => internal.langfuse.adminClientImpl.ListOrganizations env
        { host := host, apiKey := k, httpClient := httpClient })
      { Method := http.MethodGet
        URL := env.parseURL (internal.langfuse.buildURL host "api/admin/organizations")
        Header := [("Content-Type", "application/json"),
          ("Authorization", "Bearer " ++ k)]
        Body := none } := by
  constructor
  · intro first second h
    simp only [internal.langfuse.adminClientImpl.ListOrganizations,
      adminClientImpl_makeRequest_no_body env host k _ _ _ hvalid, h]
  · intro httpClient err h
    simp only [internal.langfuse.adminClientImpl.ListOrganizations,
      adminClientImpl_makeRequest_no_body env host k _ _ _ hvalid, h]

theorem adminClientImpl_GetOrganization_sends (env : internal.langfuse.Env)
    (host k orgID : String)
    (hvalid : env.requestError http.MethodGet
      (internal.langfuse.buildURL host ("api/admin/organizations/" ++ orgID)) = none) :
    http.SendsExactly Except.error
      (fun httpClient => internal.langfuse.adminClientImpl.GetOrganization env
        { host := host, apiKey := k, httpClient := httpClient } orgID)
      { Method := http.MethodGet
        URL := env.parseURL (internal.langfuse.buildURL host ("api/admin/organizations/" ++ orgID))
        Header := [("Content-Type", "application/json"),
          ("Authorization", "Bearer " ++ k)]
        Body := none } := by
  constructor
  · intro first second h
    simp only [internal.langfuse.adminClientImpl.GetOrganization,
      adminClientImpl_makeRequest_no_body env host k _ _ _ hvalid, h]
  · intro httpClient err h
    simp only [internal.langfuse.adminClientImpl.GetOrganization,
      adminClientImpl_makeRequest_no_body env host k _ _ _ hvalid, h]

theorem adminClientImpl_CreateOrganization_sends (env : internal.langfuse.Env)
    (host k : String) (request : internal.langfuse.CreateOrganizationRequest) (text : String)
    (hvalid : env.requestError http.MethodPost
      (internal.langfuse.buildURL host "api/admin/organizations") = none)
    (hbody : env.Marshal (.CreateOrganization request) = .ok text) :
    http.SendsExactly Except.error
      (fun httpClient => internal.langfuse.adminClientImpl.CreateOrganization env
        { host := host, apiKey := k, httpClient := httpClient } request)
      { Method := http.MethodPost
        URL := env.parseURL (internal.langfuse.buildURL host "api/admin/organizations")
        Header := [("Content-Type", "application/json"),
          ("Authorization", "Bearer " ++ k)]
        Body := some text } := by
  constructor
  · intro first second h
    simp only [internal.langfuse.adminClientImpl.CreateOrganization,
      adminClientImpl_makeRequest_with_body env host k _ _ _ _ text hvalid hbody, h]
  · intro httpClient err h
    simp only [internal.langfuse.adminClientImpl.CreateOrganization,
      adminClientImpl_makeRequest_with_body env host k _ _ _ _ text hvalid hbody, h]

theorem adminClientImpl_UpdateOrganization_sends (env : internal.langfuse.Env)
    (host k orgID : String) (request : internal.langfuse.UpdateOrganizationRequest) (text : String)
    (hvalid : env.requestError http.MethodPut
      (internal.langfuse.buildURL host ("api/admin/organizations/" ++ orgID)) = none)
    (hbody : env.Marshal (.UpdateOrganization request) = .ok text) :
    http.SendsExactly Except.error
      (fun httpClient => internal.langfuse.adminClientImpl.UpdateOrganization env
        { host := host, apiKey := k, httpClient := httpClient } orgID request)
      { Method := http.MethodPut
        URL := env.parseURL (internal.langfuse.buildURL host ("api/admin/organizations/" ++ orgID))
        Header := [("Content-Type", "application/json"),
          ("Authorization", "Bearer " ++ k)]
        Body := some text } := by
  constructor
  · intro first second h
    simp only [internal.langfuse.adminClientImpl.UpdateOrganization,
      adminClientImpl_makeRequest_with_body env host k _ _ _ _ text hvalid hbody, h]
  · intro httpClient err h
    simp only [internal.langfuse.adminClientImpl.UpdateOrganization,
      adminClientImpl_makeRequest_with_body env host k _ _ _ _ text hvalid hbody, h]

theorem adminClientImpl_DeleteOrganization_sends (env : internal.langfuse.Env)
    (host k orgID : String)
    (hvalid : env.requestError http.MethodDelete
      (internal.langfuse.buildURL host ("api/admin/organizations/" ++ orgID)) = none) :
    http.SendsExactly some
      (fun httpClient => internal.langfuse.adminClientImpl.DeleteOrganization env
        { host := host, apiKey := k, httpClient := httpClient } orgID)
      { Method := http.MethodDelete
        URL := env.parseURL (internal.langfuse.buildURL host ("api/admin/organizations/" ++ orgID))
        Header := [("Content-Type", "application/json"),
          ("Authorization", "Bearer " ++ k)]
        Body := none } := by
  constructor
  · intro first second h
    simp only [internal.langfuse.adminClientImpl.DeleteOrganization,
      adminClientImpl_makeRequest_no_body env host k _ _ _ hvalid, h]
  · intro httpClient err h
    simp only [internal.langfuse.adminClientImpl.DeleteOrganization,
      adminClientImpl_makeRequest_no_body env host k _ _ _ hvalid, h]

theorem adminClientImpl_GetOrganizationApiKey_sends (env : internal.langfuse.Env)
    (host k orgID apiKeyID : String)
    (hvalid : env.requestError http.MethodGet
      (internal.langfuse.buildURL host ("api/admin/organizations/" ++ orgID ++ "/apiKeys")) = none) :
    http.SendsExactly Except.error
      (fun httpClient => internal.langfuse.adminClientImpl.GetOrganizationApiKey env
        { host := host, apiKey := k, httpClient := httpClient } orgID apiKeyID)
      { Method := http.MethodGet
        URL := env.parseURL (internal.langfuse.buildURL host ("api/admin/organizations/" ++ orgID ++ "/apiKeys"))
        Header := [("Content-Type", "application/json"),
          ("Authorization", "Bearer " ++ k)]
        Body := none } := by
  constructor
  · intro first second h
    simp only [internal.langfuse.adminClientImpl.GetOrganizationApiKey,
      adminClientImpl_makeRequest_no_body env host k _ _ _ hvalid, h]
  · intro httpClient err h
    simp only [internal.langfuse.adminClientImpl.GetOrganizationApiKey,
      adminClientImpl_makeRequest_no_body env host k _ _ _ hvalid, h]

theorem adminClientImpl_CreateOrganizationApiKey_sends (env : internal.langfuse.Env)
    (host k orgID : String)
    (hvalid : env.requestError http.MethodPost
      (internal.langfuse.buildURL host ("api/admin/organizations/" ++ orgID ++ "/apiKeys")) = none) :
    http.SendsExactly Except.error
      (fun httpClient => internal.langfuse.adminClientImpl.CreateOrganizationApiKey env
        { host := host, apiKey := k, httpClient := httpClient } orgID)
      { Method := http.MethodPost
        URL := env.parseURL (internal.langfuse.buildURL host ("api/admin/organizations/" ++ orgID ++ "/apiKeys"))
        Header := [("Content-Type", "application/json"),
          ("Authorization", "Bearer " ++ k)]
        Body := none } := by
  constructor
  · intro first second h
    simp only [internal.langfuse.adminClientImpl.CreateOrganizationApiKey,
      adminClientImpl_makeRequest_no_body env host k _ _ _ hvalid, h]
  · intro httpClient err h
    simp only [internal.langfuse.adminClientImpl.CreateOrganizationApiKey,
      adminClientImpl_makeRequest_no_body env host k _ _ _ hvalid, h]

theorem adminClientImpl_DeleteOrganizationApiKey_sends (env : internal.langfuse.Env)
    (host k orgID apiKeyID : String)
    (hvalid : env.requestError http.MethodDelete
      (internal.langfuse.buildURL host ("api/admin/organizations/" ++ orgID ++ "/apiKeys/" ++ apiKeyID)) = none) :
    http.SendsExactly some
      (fun httpClient => internal.langfuse.adminClientImpl.DeleteOrganizationApiKey env
        { host := host, apiKey := k, httpClient := httpClient } orgID apiKeyID)
      { Method := http.MethodDelete
        URL := env.parseURL (internal.langfuse.buildURL host ("api/admin/organizations/" ++ orgID ++ "/apiKeys/" ++ apiKeyID))
        Header := [("Content-Type", "application/json"),
          ("Authorization", "Bearer " ++ k)]
        Body := none } := by
  constructor
  · intro first second h
    simp only [internal.langfuse.adminClientImpl.DeleteOrganizationApiKey,
      adminClientImpl_makeRequest_no_body env host k _ _ _ hvalid, h]
  · intro httpClient err h
    simp only [internal.langfuse.adminClientImpl.DeleteOrganizationApiKey,
      adminClientImpl_makeRequest_no_body env host k _ _ _ hvalid, h]

theorem organizationClientImpl_ListProjects_sends (env : internal.langfuse.Env)
    (host publicKey privateKey : String)
    (hvalid : env.requestError http.MethodGet
      (internal.langfuse.buildURL host "api/public/organizations/projects") = none) :
    http.SendsExactly Except.error
      (fun httpClient => internal.langfuse.organizationClientImpl.ListProjects env
        { host := host, publicKey := publicKey, privateKey := privateKey
          httpClient := httpClient })
      { Method := http.MethodGet
        URL := env.parseURL (internal.langfuse.buildURL host "api/public/organizations/projects")
        Header := [("Content-Type", "application/json"),
          ("Authorization", "Basic " ++ env.base64 (publicKey ++ ":" ++ privateKey))]
        Body := none } := by
  constructor
  · intro first second h
    simp only [internal.langfuse.organizationClientImpl.ListProjects,
      organizationClientImpl_makeRequest_plain env host publicKey privateKey _ _ _ hvalid, h]
  · intro httpClient err h
    simp only [internal.langfuse.organizationClientImpl.ListProjects,
      organizationClientImpl_makeRequest_plain env host publicKey privateKey _ _ _ hvalid, h]

theorem organizationClientImpl_GetProject_sends (env : internal.langfuse.Env)
    (host publicKey privateKey projectID : String)
    (hvalid : env.requestError http.MethodGet
      (internal.langfuse.buildURL host "api/public/organizations/projects") = none) :
    http.SendsExactly internal.langfuse.Outcome.err
      (fun httpClient => internal.langfuse.organizationClientImpl.GetProject env
        { host := host, publicKey := publicKey, privateKey := privateKey
          httpClient := httpClient } projectID)
      { Method := http.MethodGet
        URL := env.parseURL (internal.langfuse.buildURL host "api/public/organizations/projects")
        Header := [("Content-Type", "application/json"),
          ("Authorization", "Basic " ++ env.base64 (publicKey ++ ":" ++ privateKey))]
        Body := none } := by
  constructor
  · intro first second h
    simp only [internal.langfuse.organizationClientImpl.GetProject,
      organizationClientImpl_makeRequest_plain env host publicKey privateKey _ _ _ hvalid, h]
  · intro httpClient err h
    simp only [internal.langfuse.organizationClientImpl.GetProject,
      organizationClientImpl_makeRequest_plain env host publicKey privateKey _ _ _ hvalid, h]

theorem organizationClientImpl_CreateProject_sends (env : internal.langfuse.Env)
    (host publicKey privateKey : String) (request : internal.langfuse.CreateProjectRequest) (text : String)
    (hvalid : env.requestError http.MethodPost
      (internal.langfuse.buildURL host "api/public/projects") = none)
    (hbody : env.Marshal (.CreateProject request) = .ok text) :
    http.SendsExactly Except.error
      (fun httpClient => internal.langfuse.organizationClientImpl.CreateProject env
        { host := host, publicKey := publicKey, privateKey := privateKey
          httpClient := httpClient } request)
      { Method := http.MethodPost
        URL := env.parseURL (internal.langfuse.buildURL host "api/public/projects")
        Header := [("Content-Type", "application/json"),
          ("Authorization", "Basic " ++ env.base64 (publicKey ++ ":" ++ privateKey))]
        Body := some text } := by
  constructor
  · intro first second h
    simp only [internal.langfuse.organizationClientImpl.CreateProject,
      organizationClientImpl_makeRequest_with_body env host publicKey privateKey _ _ _ _ text hvalid hbody, h]
  · intro httpClient err h
    simp only [internal.langfuse.organizationClientImpl.CreateProject,
      organizationClientImpl_makeRequest_with_body env host publicKey privateKey _ _ _ _ text hvalid hbody, h]

theorem organizationClientImpl_UpdateProject_sends (env : internal.langfuse.Env)
    (host publicKey privateKey projectID : String) (request : internal.langfuse.UpdateProjectRequest) (text : String)
    (hvalid : env.requestError http.MethodPut
      (internal.langfuse.buildURL host ("api/public/projects/" ++ projectID)) = none)
    (hbody : env.Marshal (.UpdateProject request) = .ok text) :
    http.SendsExactly Except.error
      (fun httpClient => internal.langfuse.organizationClientImpl.UpdateProject env
        { host := host, publicKey := publicKey, privateKey := privateKey
          httpClient := httpClient } projectID request)
      { Method := http.MethodPut
        URL := env.parseURL (internal.langfuse.buildURL host ("api/public/projects/" ++ projectID))
        Header := [("Content-Type", "application/json"),
          ("Authorization", "Basic " ++ env.base64 (publicKey ++ ":" ++ privateKey))]
        Body := some text } := by
  constructor
  · intro first second h
    simp only [internal.langfuse.organizationClientImpl.UpdateProject,
      organizationClientImpl_makeRequest_with_body env host publicKey privateKey _ _ _ _ text hvalid hbody, h]
  · intro httpClient err h
    simp only [internal.langfuse.organizationClientImpl.UpdateProject,
      organizationClientImpl_makeRequest_with_body env host publicKey privateKey _ _ _ _ text hvalid hbody, h]

theorem organizationClientImpl_DeleteProject_sends (env : internal.langfuse.Env)
    (host publicKey privateKey projectID : String)
    (hvalid : env.requestError http.MethodDelete
      (internal.langfuse.buildURL host ("api/public/projects/" ++ projectID)) = none) :
    http.SendsExactly some
      (fun httpClient => internal.langfuse.organizationClientImpl.DeleteProject env
        { host := host, publicKey := publicKey, privateKey := privateKey
          httpClient := httpClient } projectID)
      { Method := http.MethodDelete
        URL := env.parseURL (internal.langfuse.buildURL host ("api/public/projects/" ++ projectID))
        Header := [("Content-Type", "application/json"),
          ("Authorization", "Basic " ++ env.base64 (publicKey ++ ":" ++ privateKey))]
        Body := none } := by
  constructor
  · intro first second h
    simp only [internal.langfuse.organizationClientImpl.DeleteProject,
      organizationClientImpl_makeRequest_plain env host publicKey privateKey _ _ _ hvalid, h]
  · intro httpClient err h
    simp only [internal.langfuse.organizationClientImpl.DeleteProject,
      organizationClientImpl_makeRequest_plain env host publicKey privateKey _ _ _ hvalid, h]

theorem organizationClientImpl_GetProjectApiKey_sends (env : internal.langfuse.Env)
    (host publicKey privateKey projectID apiKeyID : String)
    (hvalid : env.requestError http.MethodGet
      (internal.langfuse.buildURL host ("api/public/projects/" ++ projectID ++ "/apiKeys")) = none) :
    http.SendsExactly Except.error
      (fun httpClient => internal.langfuse.organizationClientImpl.GetProjectApiKey env
        { host := host, publicKey := publicKey, privateKey := privateKey
          httpClient := httpClient } projectID apiKeyID)
      { Method := http.MethodGet
        URL := env.parseURL (internal.langfuse.buildURL host ("api/public/projects/" ++ projectID ++ "/apiKeys"))
        Header := [("Content-Type", "application/json"),
          ("Authorization", "Basic " ++ env.base64 (publicKey ++ ":" ++ privateKey))]
        Body := none } := by
  constructor
  · intro first second h
    simp only [internal.langfuse.organizationClientImpl.GetProjectApiKey,
      organizationClientImpl_makeRequest_plain env host publicKey privateKey _ _ _ hvalid, h]
  · intro httpClient err h
    simp only [internal.langfuse.organizationClientImpl.GetProjectApiKey,
      organizationClientImpl_makeRequest_plain env host publicKey privateKey _ _ _ hvalid, h]

theorem organizationClientImpl_CreateProjectApiKey_sends (env : internal.langfuse.Env)
    (host publicKey privateKey projectID : String)
    (hvalid : env.requestError http.MethodPost
      (internal.langfuse.buildURL host ("api/public/projects/" ++ projectID ++ "/apiKeys")) = none) :
    http.SendsExactly Except.error
      (fun httpClient => internal.langfuse.organizationClientImpl.CreateProjectApiKey env
        { host := host, publicKey := publicKey, privateKey := privateKey
          httpClient := httpClient } projectID)
      { Method := http.MethodPost
        URL := env.parseURL (internal.langfuse.buildURL host ("api/public/projects/" ++ projectID ++ "/apiKeys"))
        Header := [("Content-Type", "application/json"),
          ("Authorization", "Basic " ++ env.base64 (publicKey ++ ":" ++ privateKey))]
        Body := none } := by
  constructor
  · intro first second h
    simp only [internal.langfuse.organizationClientImpl.CreateProjectApiKey,
      organizationClientImpl_makeRequest_plain env host publicKey privateKey _ _ _ hvalid, h]
  · intro httpClient err h
    simp only [internal.langfuse.organizationClientImpl.CreateProjectApiKey,
      organizationClientImpl_makeRequest_plain env host publicKey privateKey _ _ _ hvalid, h]

theorem organizationClientImpl_DeleteProjectApiKey_sends (env : internal.langfuse.Env)
    (host publicKey privateKey projectID apiKeyID : String)
    (hvalid : env.requestError http.MethodDelete
      (internal.langfuse.buildURL host ("api/public/projects/" ++ projectID ++ "/apiKeys/" ++ apiKeyID)) = none) :
    http.SendsExactly some
      (fun httpClient => internal.langfuse.organizationClientImpl.DeleteProjectApiKey env
        { host := host, publicKey := publicKey, privateKey := privateKey
          httpClient := httpClient } projectID apiKeyID)
      { Method := http.MethodDelete
        URL := env.parseURL (internal.langfuse.buildURL host ("api/public/projects/" ++ projectID ++ "/apiKeys/" ++ apiKeyID))
        Header := [("Content-Type", "application/json"),
          ("Authorization", "Basic " ++ env.base64 (publicKey ++ ":" ++ privateKey))]
        Body := none } := by
  constructor
  · intro first second h
    simp only [internal.langfuse.organizationClientImpl.DeleteProjectApiKey,
      organizationClientImpl_makeRequest_plain env host publicKey privateKey _ _ _ hvalid, h]
  · intro httpClient err h
    simp only [internal.langfuse.organizationClientImpl.DeleteProjectApiKey,
      organizationClientImpl_makeRequest_plain env host publicKey privateKey _ _ _ hvalid, h]

/-! ## Request lemmas: an operation sends its request when the request can be built -/

theorem buildBaseRequest_ok_none (env : internal.langfuse.Env) (method url : String)
    (req : http.Request)
    (h : internal.langfuse.buildBaseRequest env method url none = .ok req) :
    env.requestError method url = none := by
  cases hv : env.requestError method url with
  | none => rfl
  | some e =>
    simp [internal.langfuse.buildBaseRequest, http.NewRequestWithContext, hv] at h

theorem buildBaseRequest_ok_some (env : internal.langfuse.Env) (method url : String)
    (b : internal.langfuse.RequestBody) (req : http.Request)
    (h : internal.langfuse.buildBaseRequest env method url (some b) = .ok req) :
    env.requestError method url = none ∧ ∃ text, env.Marshal b = .ok text := by
  cases hm : env.Marshal b with
  | error e => simp [internal.langfuse.buildBaseRequest, hm] at h
  | ok text =>
    cases hv : env.requestError method url with
    | none => exact ⟨rfl, text, rfl⟩
    | some e =>
      simp [internal.langfuse.buildBaseRequest, http.NewRequestWithContext, hm, hv] at h

theorem buildBaseRequest_error_of_not_canBuild (env : internal.langfuse.Env)
    (method url : String) (body : Option internal.langfuse.RequestBody)
    (h : ¬ internal.langfuse.canBuild env method url body) :
    ∃ e, internal.langfuse.buildBaseRequest env method url body = .error e := by
  cases hb : internal.langfuse.buildBaseRequest env method url body with
  | error e => exact ⟨e, rfl⟩
  | ok req => exact absurd ⟨req, hb⟩ h

theorem organizationClientImpl_makeRequest_not_built (env : internal.langfuse.Env)
    (c : internal.langfuse.organizationClientImpl) (method apiPath : String)
    (body : Option internal.langfuse.RequestBody) (e : error)
    (h : internal.langfuse.buildBaseRequest env method
      (internal.langfuse.buildURL c.host apiPath) body = .error e) :
    c.makeRequest env method apiPath body = .error e := by
  simp [internal.langfuse.organizationClientImpl.makeRequest, h]

theorem sendsWhen_mono {R : Type} (built : Prop) (fail : error → R) (op : http.Client → R)
    (P Q : http.Request → Prop) (hPQ : ∀ req, P req → Q req)
    (h : http.SendsWhen built fail op P) : http.SendsWhen built fail op Q :=
  ⟨fun hb => by
      obtain ⟨req, hP, hsends⟩ := h.1 hb
      exact ⟨req, hPQ req hP, hsends⟩,
    h.2⟩

theorem adminClientImpl_ListOrganizations_sendsWhen (env : internal.langfuse.Env)
    (host k : String) :
    http.SendsWhen
      (internal.langfuse.canBuild env http.MethodGet
        (internal.langfuse.buildURL host "api/admin/organizations") none)
      Except.error
      (fun httpClient => internal.langfuse.adminClientImpl.ListOrganizations env
        { host := host, apiKey := k, httpClient := httpClient })
      (fun req => req.Method = http.MethodGet ∧
        req.URL = env.parseURL (internal.langfuse.buildURL host "api/admin/organizations") ∧
        req.Header = [("Content-Type", "application/json"),
          ("Authorization", "Bearer " ++ k)]) := by
  constructor
  · rintro ⟨req0, hb⟩
    have hvalid := buildBaseRequest_ok_none env _ _ req0 hb
    exact ⟨_, ⟨rfl, rfl, rfl⟩,
      adminClientImpl_ListOrganizations_sends env host k hvalid⟩
  · intro hnot
    obtain ⟨e, he⟩ := buildBaseRequest_error_of_not_canBuild env _ _ _ hnot
    exact ⟨e, fun httpClient => by
      simp only [internal.langfuse.adminClientImpl.ListOrganizations,
        adminClientImpl_makeRequest_not_built env
          { host := host, apiKey := k, httpClient := httpClient } _ _ _ e he]⟩

theorem adminClientImpl_GetOrganization_sendsWhen (env : internal.langfuse.Env)
    (host k : String) (orgID : String) :
    http.SendsWhen
      (internal.langfuse.canBuild env http.MethodGet
        (internal.langfuse.buildURL host ("api/admin/organizations/" ++ orgID)) none)
      Except.error
      (fun httpClient => internal.langfuse.adminClientImpl.GetOrganization env
        { host := host, apiKey := k, httpClient := httpClient } orgID)
      (fun req => req.Method = http.MethodGet ∧
        req.URL = env.parseURL (internal.langfuse.buildURL host ("api/admin/organizations/" ++ orgID)) ∧
        req.Header = [("Content-Type", "application/json"),
          ("Authorization", "Bearer " ++ k)]) := by
  constructor
  · rintro ⟨req0, hb⟩
    have hvalid := buildBaseRequest_ok_none env _ _ req0 hb
    exact ⟨_, ⟨rfl, rfl, rfl⟩,
      adminClientImpl_GetOrganization_sends env host k orgID hvalid⟩
  · intro hnot
    obtain ⟨e, he⟩ := buildBaseRequest_error_of_not_canBuild env _ _ _ hnot
    exact ⟨e, fun httpClient => by
      simp only [internal.langfuse.adminClientImpl.GetOrganization,
        adminClientImpl_makeRequest_not_built env
          { host := host, apiKey := k, httpClient := httpClient } _ _ _ e he]⟩

theorem adminClientImpl_CreateOrganization_sendsWhen (env : internal.langfuse.Env)
    (host k : String) (request : internal.langfuse.CreateOrganizationRequest) :
    http.SendsWhen
      (internal.langfuse.canBuild env http.MethodPost
        (internal.langfuse.buildURL host "api/admin/organizations") (some (.CreateOrganization request)))
      Except.error
      (fun httpClient => internal.langfuse.adminClientImpl.CreateOrganization env
        { host := host, apiKey := k, httpClient := httpClient } request)
      (fun req => req.Method = http.MethodPost ∧
        req.URL = env.parseURL (internal.langfuse.buildURL host "api/admin/organizations") ∧
        req.Header = [("Content-Type", "application/json"),
          ("Authorization", "Bearer " ++ k)]) := by
  constructor
  · rintro ⟨req0, hb⟩
    obtain ⟨hvalid, text, hbody⟩ := buildBaseRequest_ok_some env _ _ _ req0 hb
    exact ⟨_, ⟨rfl, rfl, rfl⟩,
      adminClientImpl_CreateOrganization_sends env host k request text hvalid hbody⟩
  · intro hnot
    obtain ⟨e, he⟩ := buildBaseRequest_error_of_not_canBuild env _ _ _ hnot
    exact ⟨e, fun httpClient => by
      simp only [internal.langfuse.adminClientImpl.CreateOrganization,
        adminClientImpl_makeRequest_not_built env
          { host := host, apiKey := k, httpClient := httpClient } _ _ _ e he]⟩

theorem adminClientImpl_UpdateOrganization_sendsWhen (env : internal.langfuse.Env)
    (host k : String) (orgID : String) (request : internal.langfuse.UpdateOrganizationRequest) :
    http.SendsWhen
      (internal.langfuse.canBuild env http.MethodPut
        (internal.langfuse.buildURL host ("api/admin/organizations/" ++ orgID)) (some (.UpdateOrganization request)))
      Except.error
      (fun httpClient => internal.langfuse.adminClientImpl.UpdateOrganization env
        { host := host, apiKey := k, httpClient := httpClient } orgID request)
      (fun req => req.Method = http.MethodPut ∧
        req.URL = env.parseURL (internal.langfuse.buildURL host ("api/admin/organizations/" ++ orgID)) ∧
        req.Header = [("Content-Type", "application/json"),
          ("Authorization", "Bearer " ++ k)]) := by
  constructor
  · rintro ⟨req0, hb⟩
    obtain ⟨hvalid, text, hbody⟩ := buildBaseRequest_ok_some env _ _ _ req0 hb
    exact ⟨_, ⟨rfl, rfl, rfl⟩,
      adminClientImpl_UpdateOrganization_sends env host k orgID request text hvalid hbody⟩
  · intro hnot
    obtain ⟨e, he⟩ := buildBaseRequest_error_of_not_canBuild env _ _ _ hnot
    exact ⟨e, fun httpClient => by
      simp only [internal.langfuse.adminClientImpl.UpdateOrganization,
        adminClientImpl_makeRequest_not_built env
          { host := host, apiKey := k, httpClient := httpClient } _ _ _ e he]⟩

theorem adminClientImpl_DeleteOrganization_sendsWhen (env : internal.langfuse.Env)
    (host k : String) (orgID : String) :
    http.SendsWhen
      (internal.langfuse.canBuild env http.MethodDelete
        (internal.langfuse.buildURL host ("api/admin/organizations/" ++ orgID)) none)
      some
      (fun httpClient => internal.langfuse.adminClientImpl.DeleteOrganization env
        { host := host, apiKey := k, httpClient := httpClient } orgID)
      (fun req => req.Method = http.MethodDelete ∧
        req.URL = env.parseURL (internal.langfuse.buildURL host ("api/admin/organizations/" ++ orgID)) ∧
        req.Header = [("Content-Type", "application/json"),
          ("Authorization", "Bearer " ++ k)]) := by
  constructor
  · rintro ⟨req0, hb⟩
    have hvalid := buildBaseRequest_ok_none env _ _ req0 hb
    exact ⟨_, ⟨rfl, rfl, rfl⟩,
      adminClientImpl_DeleteOrganization_sends env host k orgID hvalid⟩
  · intro hnot
    obtain ⟨e, he⟩ := buildBaseRequest_error_of_not_canBuild env _ _ _ hnot
    exact ⟨e, fun httpClient => by
      simp only [internal.langfuse.adminClientImpl.DeleteOrganization,
        adminClientImpl_makeRequest_not_built env
          { host := host, apiKey := k, httpClient := httpClient } _ _ _ e he]⟩

theorem adminClientImpl_GetOrganizationApiKey_sendsWhen (env : internal.langfuse.Env)
    (host k : String) (orgID : String) (apiKeyID : String) :
    http.SendsWhen
      (internal.langfuse.canBuild env http.MethodGet
        (internal.langfuse.buildURL host ("api/admin/organizations/" ++ orgID ++ "/apiKeys")) none)
      Except.error
      (fun httpClient => internal.langfuse.adminClientImpl.GetOrganizationApiKey env
        { host := host, apiKey := k, httpClient := httpClient } orgID apiKeyID)
      (fun req => req.Method = http.MethodGet ∧
        req.URL = env.parseURL (internal.langfuse.buildURL host ("api/admin/organizations/" ++ orgID ++ "/apiKeys")) ∧
        req.Header = [("Content-Type", "application/json"),
          ("Authorization", "Bearer " ++ k)]) := by
  constructor
  · rintro ⟨req0, hb⟩
    have hvalid := buildBaseRequest_ok_none env _ _ req0 hb
    exact ⟨_, ⟨rfl, rfl, rfl⟩,
      adminClientImpl_GetOrganizationApiKey_sends env host k orgID apiKeyID hvalid⟩
  · intro hnot
    obtain ⟨e, he⟩ := buildBaseRequest_error_of_not_canBuild env _ _ _ hnot
    exact ⟨e, fun httpClient => by
      simp only [internal.langfuse.adminClientImpl.GetOrganizationApiKey,
        adminClientImpl_makeRequest_not_built env
          { host := host, apiKey := k, httpClient := httpClient } _ _ _ e he]⟩

theorem adminClientImpl_CreateOrganizationApiKey_sendsWhen (env : internal.langfuse.Env)
    (host k : String) (orgID : String) :
    http.SendsWhen
      (internal.langfuse.canBuild env http.MethodPost
        (internal.langfuse.buildURL host ("api/admin/organizations/" ++ orgID ++ "/apiKeys")) none)
      Except.error
      (fun httpClient => internal.langfuse.adminClientImpl.CreateOrganizationApiKey env
        { host := host, apiKey := k, httpClient := httpClient } orgID)
      (fun req => req.Method = http.MethodPost ∧
        req.URL = env.parseURL (internal.langfuse.buildURL host ("api/admin/organizations/" ++ orgID ++ "/apiKeys")) ∧
        req.Header = [("Content-Type", "application/json"),
          ("Authorization", "Bearer " ++ k)]) := by
  constructor
  · rintro ⟨req0, hb⟩
    have hvalid := buildBaseRequest_ok_none env _ _ req0 hb
    exact ⟨_, ⟨rfl, rfl, rfl⟩,
      adminClientImpl_CreateOrganizationApiKey_sends env host k orgID hvalid⟩
  · intro hnot
    obtain ⟨e, he⟩ := buildBaseRequest_error_of_not_canBuild env _ _ _ hnot
    exact ⟨e, fun httpClient => by
      simp only [internal.langfuse.adminClientImpl.CreateOrganizationApiKey,
        adminClientImpl_makeRequest_not_built env
          { host := host, apiKey := k, httpClient := httpClient } _ _ _ e he]⟩

theorem adminClientImpl_DeleteOrganizationApiKey_sendsWhen (env : internal.langfuse.Env)
    (host k : String) (orgID : String) (apiKeyID : String) :
    http.SendsWhen
      (internal.langfuse.canBuild env http.MethodDelete
        (internal.langfuse.buildURL host ("api/admin/organizations/" ++ orgID ++ "/apiKeys/" ++ apiKeyID)) none)
      some
      (fun httpClient => internal.langfuse.adminClientImpl.DeleteOrganizationApiKey env
        { host := host, apiKey := k, httpClient := httpClient } orgID apiKeyID)
      (fun req => req.Method = http.MethodDelete ∧
        req.URL = env.parseURL (internal.langfuse.buildURL host ("api/admin/organizations/" ++ orgID ++ "/apiKeys/" ++ apiKeyID)) ∧
        req.Header = [("Content-Type", "application/json"),
          ("Authorization", "Bearer " ++ k)]) := by
  constructor
  · rintro ⟨req0, hb⟩
    have hvalid := buildBaseRequest_ok_none env _ _ req0 hb
    exact ⟨_, ⟨rfl, rfl, rfl⟩,
      adminClientImpl_DeleteOrganizationApiKey_sends env host k orgID apiKeyID hvalid⟩
  · intro hnot
    obtain ⟨e, he⟩ := buildBaseRequest_error_of_not_canBuild env _ _ _ hnot
    exact ⟨e, fun httpClient => by
      simp only [internal.langfuse.adminClientImpl.DeleteOrganizationApiKey,
        adminClientImpl_makeRequest_not_built env
          { host := host, apiKey := k, httpClient := httpClient } _ _ _ e he]⟩

theorem organizationClientImpl_ListProjects_sendsWhen (env : internal.langfuse.Env)
    (host publicKey privateKey : String) :
    http.SendsWhen
      (internal.langfuse.canBuild env http.MethodGet
        (internal.langfuse.buildURL host "api/public/organizations/projects") none)
      Except.error
      (fun httpClient => internal.langfuse.organizationClientImpl.ListProjects env
        { host := host, publicKey := publicKey, privateKey := privateKey
          httpClient := httpClient })
      (fun req => req.Method = http.MethodGet ∧
        req.URL = env.parseURL (internal.langfuse.buildURL host "api/public/organizations/projects") ∧
        req.Header = [("Content-Type", "application/json"),
          ("Authorization", "Basic " ++ env.base64 (publicKey ++ ":" ++ privateKey))]) := by
  constructor
  · rintro ⟨req0, hb⟩
    have hvalid := buildBaseRequest_ok_none env _ _ req0 hb
    exact ⟨_, ⟨rfl, rfl, rfl⟩,
      organizationClientImpl_ListProjects_sends env host publicKey privateKey hvalid⟩
  · intro hnot
    obtain ⟨e, he⟩ := buildBaseRequest_error_of_not_canBuild env _ _ _ hnot
    exact ⟨e, fun httpClient => by
      simp only [internal.langfuse.organizationClientImpl.ListProjects,
        organizationClientImpl_makeRequest_not_built env
          { host := host, publicKey := publicKey, privateKey := privateKey, httpClient := httpClient } _ _ _ e he]⟩

theorem organizationClientImpl_GetProject_sendsWhen (env : internal.langfuse.Env)
    (host publicKey privateKey : String) (projectID : String) :
    http.SendsWhen
      (internal.langfuse.canBuild env http.MethodGet
        (internal.langfuse.buildURL host "api/public/organizations/projects") none)
      internal.langfuse.Outcome.err
      (fun httpClient => internal.langfuse.organizationClientImpl.GetProject env
        { host := host, publicKey := publicKey, privateKey := privateKey
          httpClient := httpClient } projectID)
      (fun req => req.Method = http.MethodGet ∧
        req.URL = env.parseURL (internal.langfuse.buildURL host "api/public/organizations/projects") ∧
        req.Header = [("Content-Type", "application/json"),
          ("Authorization", "Basic " ++ env.base64 (publicKey ++ ":" ++ privateKey))]) := by
  constructor
  · rintro ⟨req0, hb⟩
    have hvalid := buildBaseRequest_ok_none env _ _ req0 hb
    exact ⟨_, ⟨rfl, rfl, rfl⟩,
      organizationClientImpl_GetProject_sends env host publicKey privateKey projectID hvalid⟩
  · intro hnot
    obtain ⟨e, he⟩ := buildBaseRequest_error_of_not_canBuild env _ _ _ hnot
    exact ⟨e, fun httpClient => by
      simp only [internal.langfuse.organizationClientImpl.GetProject,
        organizationClientImpl_makeRequest_not_built env
          { host := host, publicKey := publicKey, privateKey := privateKey, httpClient := httpClient } _ _ _ e he]⟩

theorem organizationClientImpl_CreateProject_sendsWhen (env : internal.langfuse.Env)
    (host publicKey privateKey : String) (request : internal.langfuse.CreateProjectRequest) :
    http.SendsWhen
      (internal.langfuse.canBuild env http.MethodPost
        (internal.langfuse.buildURL host "api/public/projects") (some (.CreateProject request)))
      Except.error
      (fun httpClient => internal.langfuse.organizationClientImpl.CreateProject env
        { host := host, publicKey := publicKey, privateKey := privateKey
          httpClient := httpClient } request)
      (fun req => req.Method = http.MethodPost ∧
        req.URL = env.parseURL (internal.langfuse.buildURL host "api/public/projects") ∧
        req.Header = [("Content-Type", "application/json"),
          ("Authorization", "Basic " ++ env.base64 (publicKey ++ ":" ++ privateKey))]) := by
  constructor
  · rintro ⟨req0, hb⟩
    obtain ⟨hvalid, text, hbody⟩ := buildBaseRequest_ok_some env _ _ _ req0 hb
    exact ⟨_, ⟨rfl, rfl, rfl⟩,
      organizationClientImpl_CreateProject_sends env host publicKey privateKey request text hvalid hbody⟩
  · intro hnot
    obtain ⟨e, he⟩ := buildBaseRequest_error_of_not_canBuild env _ _ _ hnot
    exact ⟨e, fun httpClient => by
      simp only [internal.langfuse.organizationClientImpl.CreateProject,
        organizationClientImpl_makeRequest_not_built env
          { host := host, publicKey := publicKey, privateKey := privateKey, httpClient := httpClient } _ _ _ e he]⟩

theorem organizationClientImpl_UpdateProject_sendsWhen (env : internal.langfuse.Env)
    (host publicKey privateKey : String) (projectID : String) (request : internal.langfuse.UpdateProjectRequest) :
    http.SendsWhen
      (internal.langfuse.canBuild env http.MethodPut
        (internal.langfuse.buildURL host ("api/public/projects/" ++ projectID)) (some (.UpdateProject request)))
      Except.error
      (fun httpClient => internal.langfuse.organizationClientImpl.UpdateProject env
        { host := host, publicKey := publicKey, privateKey := privateKey
          httpClient := httpClient } projectID request)
      (fun req => req.Method = http.MethodPut ∧
        req.URL = env.parseURL (internal.langfuse.buildURL host ("api/public/projects/" ++ projectID)) ∧
        req.Header = [("Content-Type", "application/json"),
          ("Authorization", "Basic " ++ env.base64 (publicKey ++ ":" ++ privateKey))]) := by
  constructor
  · rintro ⟨req0, hb⟩
    obtain ⟨hvalid, text, hbody⟩ := buildBaseRequest_ok_some env _ _ _ req0 hb
    exact ⟨_, ⟨rfl, rfl, rfl⟩,
      organizationClientImpl_UpdateProject_sends env host publicKey privateKey projectID request text hvalid hbody⟩
  · intro hnot
    obtain ⟨e, he⟩ := buildBaseRequest_error_of_not_canBuild env _ _ _ hnot
    exact ⟨e, fun httpClient => by
      simp only [internal.langfuse.organizationClientImpl.UpdateProject,
        organizationClientImpl_makeRequest_not_built env
          { host := host, publicKey := publicKey, privateKey := privateKey, httpClient := httpClient } _ _ _ e he]⟩

theorem organizationClientImpl_DeleteProject_sendsWhen (env : internal.langfuse.Env)
    (host publicKey privateKey : String) (projectID : String) :
    http.SendsWhen
      (internal.langfuse.canBuild env http.MethodDelete
        (internal.langfuse.buildURL host ("api/public/projects/" ++ projectID)) none)
      some
      (fun httpClient => internal.langfuse.organizationClientImpl.DeleteProject env
        { host := host, publicKey := publicKey, privateKey := privateKey
          httpClient := httpClient } projectID)
      (fun req => req.Method = http.MethodDelete ∧
        req.URL = env.parseURL (internal.langfuse.buildURL host ("api/public/projects/" ++ projectID)) ∧
        req.Header = [("Content-Type", "application/json"),
          ("Authorization", "Basic " ++ env.base64 (publicKey ++ ":" ++ privateKey))]) := by
  constructor
  · rintro ⟨req0, hb⟩
    have hvalid := buildBaseRequest_ok_none env _ _ req0 hb
    exact ⟨_, ⟨rfl, rfl, rfl⟩,
      organizationClientImpl_DeleteProject_sends env host publicKey privateKey projectID hvalid⟩
  · intro hnot
    obtain ⟨e, he⟩ := buildBaseRequest_error_of_not_canBuild env _ _ _ hnot
    exact ⟨e, fun httpClient => by
      simp only [internal.langfuse.organizationClientImpl.DeleteProject,
        organizationClientImpl_makeRequest_not_built env
          { host := host, publicKey := publicKey, privateKey := privateKey, httpClient := httpClient } _ _ _ e he]⟩

theorem organizationClientImpl_GetProjectApiKey_sendsWhen (env : internal.langfuse.Env)
    (host publicKey privateKey : String) (projectID : String) (apiKeyID : String) :
    http.SendsWhen
      (internal.langfuse.canBuild env http.MethodGet
        (internal.langfuse.buildURL host ("api/public/projects/" ++ projectID ++ "/apiKeys")) none)
      Except.error
      (fun httpClient => internal.langfuse.organizationClientImpl.GetProjectApiKey env
        { host := host, publicKey := publicKey, privateKey := privateKey
          httpClient := httpClient } projectID apiKeyID)
      (fun req => req.Method = http.MethodGet ∧
        req.URL = env.parseURL (internal.langfuse.buildURL host ("api/public/projects/" ++ projectID ++ "/apiKeys")) ∧
        req.Header = [("Content-Type", "application/json"),
          ("Authorization", "Basic " ++ env.base64 (publicKey ++ ":" ++ privateKey))]) := by
  constructor
  · rintro ⟨req0, hb⟩
    have hvalid := buildBaseRequest_ok_none env _ _ req0 hb
    exact ⟨_, ⟨rfl, rfl, rfl⟩,
      organizationClientImpl_GetProjectApiKey_sends env host publicKey privateKey projectID apiKeyID hvalid⟩
  · intro hnot
    obtain ⟨e, he⟩ := buildBaseRequest_error_of_not_canBuild env _ _ _ hnot
    exact ⟨e, fun httpClient => by
      simp only [internal.langfuse.organizationClientImpl.GetProjectApiKey,
        organizationClientImpl_makeRequest_not_built env
          { host := host, publicKey := publicKey, privateKey := privateKey, httpClient := httpClient } _ _ _ e he]⟩

theorem organizationClientImpl_CreateProjectApiKey_sendsWhen (env : internal.langfuse.Env)
    (host publicKey privateKey : String) (projectID : String) :
    http.SendsWhen
      (internal.langfuse.canBuild env http.MethodPost
        (internal.langfuse.buildURL host ("api/public/projects/" ++ projectID ++ "/apiKeys")) none)
      Except.error
      (fun httpClient => internal.langfuse.organizationClientImpl.CreateProjectApiKey env
        { host := host, publicKey := publicKey, privateKey := privateKey
          httpClient := httpClient } projectID)
      (fun req => req.Method = http.MethodPost ∧
        req.URL = env.parseURL (internal.langfuse.buildURL host ("api/public/projects/" ++ projectID ++ "/apiKeys")) ∧
        req.Header = [("Content-Type", "application/json"),
          ("Authorization", "Basic " ++ env.base64 (publicKey ++ ":" ++ privateKey))]) := by
  constructor
  · rintro ⟨req0, hb⟩
    have hvalid := buildBaseRequest_ok_none env _ _ req0 hb
    exact ⟨_, ⟨rfl, rfl, rfl⟩,
      organizationClientImpl_CreateProjectApiKey_sends env host publicKey privateKey projectID hvalid⟩
  · intro hnot
    obtain ⟨e, he⟩ := buildBaseRequest_error_of_not_canBuild env _ _ _ hnot
    exact ⟨e, fun httpClient => by
      simp only [internal.langfuse.organizationClientImpl.CreateProjectApiKey,
        organizationClientImpl_makeRequest_not_built env
          { host := host, publicKey := publicKey, privateKey := privateKey, httpClient := httpClient } _ _ _ e he]⟩

theorem organizationClientImpl_DeleteProjectApiKey_sendsWhen (env : internal.langfuse.Env)
    (host publicKey privateKey : String) (projectID : String) (apiKeyID : String) :
    http.SendsWhen
      (internal.langfuse.canBuild env http.MethodDelete
        (internal.langfuse.buildURL host ("api/public/projects/" ++ projectID ++ "/apiKeys/" ++ apiKeyID)) none)
      some
      (fun httpClient => internal.langfuse.organizationClientImpl.DeleteProjectApiKey env
        { host := host, publicKey := publicKey, privateKey := privateKey
          httpClient := httpClient } projectID apiKeyID)
      (fun req => req.Method = http.MethodDelete ∧
        req.URL = env.parseURL (internal.langfuse.buildURL host ("api/public/projects/" ++ projectID ++ "/apiKeys/" ++ apiKeyID)) ∧
        req.Header = [("Content-Type", "application/json"),
          ("Authorization", "Basic " ++ env.base64 (publicKey ++ ":" ++ privateKey))]) := by
  constructor
  · rintro ⟨req0, hb⟩
    have hvalid := buildBaseRequest_ok_none env _ _ req0 hb
    exact ⟨_, ⟨rfl, rfl, rfl⟩,
      organizationClientImpl_DeleteProjectApiKey_sends env host publicKey privateKey projectID apiKeyID hvalid⟩
  · intro hnot
    obtain ⟨e, he⟩ := buildBaseRequest_error_of_not_canBuild env _ _ _ hnot
    exact ⟨e, fun httpClient => by
      simp only [internal.langfuse.organizationClientImpl.DeleteProjectApiKey,
        organizationClientImpl_makeRequest_not_built env
          { host := host, publicKey := publicKey, privateKey := privateKey, httpClient := httpClient } _ _ _ e he]⟩

/-! ## C21: organization-scoped requests carry the caller's key pair -/

theorem carriesKeyPair_of_request (env : internal.langfuse.Env)
    (host publicKey privateKey method apiPath : String) (req : http.Request)
    (h : req.Method = method ∧
      req.URL = env.parseURL (internal.langfuse.buildURL host apiPath) ∧
      req.Header = [("Content-Type", "application/json"),
        ("Authorization", "Basic " ++ env.base64 (publicKey ++ ":" ++ privateKey))]) :
    internal.langfuse.carriesKeyPair env host publicKey privateKey req := by
  obtain ⟨-, hurl, hheader⟩ := h
  exact ⟨by simp [hheader, http.Header.Get], apiPath, hurl⟩

/-- C21: for every organization client built by the factory with `(publicKey, privateKey)`
and each of its eight operations: when the request of the operation can be built (the body,
if any, encodes and the standard library accepts the method and the URL text), the
operation sends exactly one request, which has the basic-auth `Authorization` header for
user name `publicKey` and password `privateKey` and whose URL is parsed from the
operation's path joined to the factory's host; when the request cannot be built, nothing is
sent. -/
theorem C21_organization_requests_carry_key_pair (env : internal.langfuse.Env)
    (cf : internal.langfuse.clientFactoryImpl) (publicKey privateKey : String) :
    (http.SendsWhen
        (internal.langfuse.canBuild env http.MethodGet
          (internal.langfuse.buildURL cf.host "api/public/organizations/projects") none)
        Except.error
        (fun httpClient =>
          (cf.NewOrganizationClient httpClient publicKey privateKey).ListProjects env)
        (internal.langfuse.carriesKeyPair env cf.host publicKey privateKey)) ∧
    (∀ (projectID : String),
      http.SendsWhen
        (internal.langfuse.canBuild env http.MethodGet
          (internal.langfuse.buildURL cf.host "api/public/organizations/projects") none)
        internal.langfuse.Outcome.err
        (fun httpClient =>
          (cf.NewOrganizationClient httpClient publicKey privateKey).GetProject env projectID)
        (internal.langfuse.carriesKeyPair env cf.host publicKey privateKey)) ∧
    (∀ (request : internal.langfuse.CreateProjectRequest),
      http.SendsWhen
        (internal.langfuse.canBuild env http.MethodPost
          (internal.langfuse.buildURL cf.host "api/public/projects") (some (.CreateProject request)))
        Except.error
        (fun httpClient =>
          (cf.NewOrganizationClient httpClient publicKey privateKey).CreateProject env request)
        (internal.langfuse.carriesKeyPair env cf.host publicKey privateKey)) ∧
    (∀ (projectID : String) (request : internal.langfuse.UpdateProjectRequest),
      http.SendsWhen
        (internal.langfuse.canBuild env http.MethodPut
          (internal.langfuse.buildURL cf.host ("api/public/projects/" ++ projectID)) (some (.UpdateProject request)))
        Except.error
        (fun httpClient =>
          (cf.NewOrganizationClient httpClient publicKey privateKey).UpdateProject env projectID request)
        (internal.langfuse.carriesKeyPair env cf.host publicKey privateKey)) ∧
    (∀ (projectID : String),
      http.SendsWhen
        (internal.langfuse.canBuild env http.MethodDelete
          (internal.langfuse.buildURL cf.host ("api/public/projects/" ++ projectID)) none)
        some
        (fun httpClient =>
          (cf.NewOrganizationClient httpClient publicKey privateKey).DeleteProject env projectID)
        (internal.langfuse.carriesKeyPair env cf.host publicKey privateKey)) ∧
    (∀ (projectID : String) (apiKeyID : String),
      http.SendsWhen
        (internal.langfuse.canBuild env http.MethodGet
          (internal.langfuse.buildURL cf.host ("api/public/projects/" ++ projectID ++ "/apiKeys")) none)
        Except.error
        (fun httpClient =>
          (cf.NewOrganizationClient httpClient publicKey privateKey).GetProjectApiKey env projectID apiKeyID)
        (internal.langfuse.carriesKeyPair env cf.host publicKey privateKey)) ∧
    (∀ (projectID : String),
      http.SendsWhen
        (internal.langfuse.canBuild env http.MethodPost
          (internal.langfuse.buildURL cf.host ("api/public/projects/" ++ projectID ++ "/apiKeys")) none)
        Except.error
        (fun httpClient =>
          (cf.NewOrganizationClient httpClient publicKey privateKey).CreateProjectApiKey env projectID)
        (internal.langfuse.carriesKeyPair env cf.host publicKey privateKey)) ∧
    (∀ (projectID : String) (apiKeyID : String),
      http.SendsWhen
        (internal.langfuse.canBuild env http.MethodDelete
          (internal.langfuse.buildURL cf.host ("api/public/projects/" ++ projectID ++ "/apiKeys/" ++ apiKeyID)) none)
        some
        (fun httpClient =>
          (cf.NewOrganizationClient httpClient publicKey privateKey).DeleteProjectApiKey env projectID apiKeyID)
        (internal.langfuse.carriesKeyPair env cf.host publicKey privateKey)) := by
  refine ⟨?_, ?_, ?_, ?_, ?_, ?_, ?_, ?_⟩
  · exact sendsWhen_mono _ _ _ _ _
      (carriesKeyPair_of_request env cf.host publicKey privateKey _ _)
      (organizationClientImpl_ListProjects_sendsWhen env cf.host publicKey privateKey)
  · intro projectID
    exact sendsWhen_mono _ _ _ _ _
      (carriesKeyPair_of_request env cf.host publicKey privateKey _ _)
      (organizationClientImpl_GetProject_sendsWhen env cf.host publicKey privateKey projectID)
  · intro request
    exact sendsWhen_mono _ _ _ _ _
      (carriesKeyPair_of_request env cf.host publicKey privateKey _ _)
      (organizationClientImpl_CreateProject_sendsWhen env cf.host publicKey privateKey request)
  · intro projectID request
    exact sendsWhen_mono _ _ _ _ _
      (carriesKeyPair_of_request env cf.host publicKey privateKey _ _)
      (organizationClientImpl_UpdateProject_sendsWhen env cf.host publicKey privateKey projectID request)
  · intro projectID
    exact sendsWhen_mono _ _ _ _ _
      (carriesKeyPair_of_request env cf.host publicKey privateKey _ _)
      (organizationClientImpl_DeleteProject_sendsWhen env cf.host publicKey privateKey projectID)
  · intro projectID apiKeyID
    exact sendsWhen_mono _ _ _ _ _
      (carriesKeyPair_of_request env cf.host publicKey privateKey _ _)
      (organizationClientImpl_GetProjectApiKey_sendsWhen env cf.host publicKey privateKey projectID apiKeyID)
  · intro projectID
    exact sendsWhen_mono _ _ _ _ _
      (carriesKeyPair_of_request env cf.host publicKey privateKey _ _)
      (organizationClientImpl_CreateProjectApiKey_sendsWhen env cf.host publicKey privateKey projectID)
  · intro projectID apiKeyID
    exact sendsWhen_mono _ _ _ _ _
      (carriesKeyPair_of_request env cf.host publicKey privateKey _ _)
      (organizationClientImpl_DeleteProjectApiKey_sendsWhen env cf.host publicKey privateKey projectID apiKeyID)

/-- C21 (witness): the project lookup and the credential deletion of a client built by the
sample factory, whose requests can be built. -/
theorem C21_organization_requests_carry_key_pair_witness :
    http.Sends internal.langfuse.Outcome.err
        (fun httpClient =>
          ((internal.langfuse.NewClientFactory "https://cloud.langfuse.com"
            "admin-key").NewOrganizationClient httpClient "pk-1234" "sk-1234").GetProject
              sample.env "proj-123")
        (internal.langfuse.carriesKeyPair sample.env "https://cloud.langfuse.com" "pk-1234"
          "sk-1234") ∧
    http.Sends some
        (fun httpClient =>
          ((internal.langfuse.NewClientFactory "https://cloud.langfuse.com"
            "admin-key").NewOrganizationClient httpClient "pk-1234"
              "sk-1234").DeleteProjectApiKey sample.env "proj-123" "pak-123")
        (internal.langfuse.carriesKeyPair sample.env "https://cloud.langfuse.com" "pk-1234"
          "sk-1234") :=
  ⟨((C21_organization_requests_carry_key_pair sample.env
      (internal.langfuse.NewClientFactory "https://cloud.langfuse.com" "admin-key")
      "pk-1234" "sk-1234").2.1 "proj-123").1 ⟨_, rfl⟩,
   ((C21_organization_requests_carry_key_pair sample.env
      (internal.langfuse.NewClientFactory "https://cloud.langfuse.com" "admin-key")
      "pk-1234" "sk-1234").2.2.2.2.2.2.2 "proj-123" "pak-123").1 ⟨_, rfl⟩⟩

/-! ## C22: the endpoint of every client operation -/

theorem buildURL_plain_host (h p : String) (hne : h ≠ "")
    (hslash : ¬ ∃ h0 : String, h = h0 ++ "/") :
    internal.langfuse.buildURL h p = h ++ "/" ++ p := by
  have hlast : h.data.getLast? ≠ some '/' := by
    intro hl
    rw [List.getLast?_eq_some_iff] at hl
    obtain ⟨ys, hys⟩ := hl
    exact hslash ⟨⟨ys⟩, String_ext_data _ _ (by simp [String.data_append, hys])⟩
  simp [internal.langfuse.buildURL, hne, hlast]

theorem sendsExactly_unique {R : Type} (fail : error → R) (op : http.Client → R)
    (first second : http.Request) (hfail : fail "failed to make request: a"
      ≠ fail "failed to make request: b")
    (h1 : http.SendsExactly fail op first) (h2 : http.SendsExactly fail op second) :
    first = second := by
  by_contra hne
  have ha := h1.2 { Do := fun req => if req = first then .error "a" else .error "b" } "a"
    (by simp)
  have hb := h2.2 { Do := fun req => if req = first then .error "a" else .error "b" } "b"
    (by simp [Ne.symm hne])
  rw [ha] at hb
  exact hfail hb

/-- C22 (counterexample): with the empty host, which has no trailing slash, the request of
`GetOrganization` can be built and is sent, and its URL is not the one parsed from
`/api/admin/organizations/org-123`: it is parsed from the path without the leading
slash. -/
theorem C22_empty_host_requests_bare_path :
    internal.langfuse.canBuild sample.env "GET"
        ("" ++ "/" ++ "api/admin/organizations/" ++ "org-123") none ∧
    internal.langfuse.canBuild sample.env "GET"
        (internal.langfuse.buildURL "" ("api/admin/organizations/" ++ "org-123")) none ∧
    ¬ http.Sends Except.error
        (fun httpClient => internal.langfuse.adminClientImpl.GetOrganization sample.env
          { host := "", apiKey := "admin-key", httpClient := httpClient } "org-123")
        (fun req => req.Method = "GET" ∧
          req.URL = sample.env.parseURL
            ("" ++ "/" ++ "api/admin/organizations/" ++ "org-123")) := by
  refine ⟨⟨_, rfl⟩, ⟨_, rfl⟩, ?_⟩
  rintro ⟨req, ⟨-, hurl⟩, hsends⟩
  have hreal := adminClientImpl_GetOrganization_sends sample.env "" "admin-key" "org-123" rfl
  have heq := sendsExactly_unique Except.error _ _ _ (by simp) hsends hreal
  rw [heq] at hurl
  exact absurd hurl (by decide)

/-- C22 (amended): for a non-empty host `h` without trailing slash and ids containing no
`/`, each admin and organization-scoped operation, when its request can be built (the body,
if any, encodes and the standard library accepts the method and the URL text), sends
exactly one request, with the method of the external-interface table and the URL parsed
from `h/path`, the ids substituted in the path; when the request cannot be built nothing is
sent; and `GetProject` sends the request of `ListProjects`. -/
theorem C22_operations_hit_documented_endpoints (env : internal.langfuse.Env)
    (h k publicKey privateKey : String) (hne : h ≠ "")
    (hslash : ¬ ∃ h0 : String, h = h0 ++ "/") :
    (http.SendsWhen
        (internal.langfuse.canBuild env "GET" (h ++ "/" ++ "api/admin/organizations")
          none)
        Except.error
        (fun httpClient => internal.langfuse.adminClientImpl.ListOrganizations env
          { host := h, apiKey := k, httpClient := httpClient })
        (fun req => req.Method = "GET" ∧
          req.URL = env.parseURL (h ++ "/" ++ "api/admin/organizations"))) ∧
    (∀ (orgID : String),
      (∀ c ∈ orgID.data, c ≠ '/') →
      http.SendsWhen
        (internal.langfuse.canBuild env "GET" (h ++ "/" ++ "api/admin/organizations/" ++ orgID)
          none)
        Except.error
        (fun httpClient => internal.langfuse.adminClientImpl.GetOrganization env
          { host := h, apiKey := k, httpClient := httpClient } orgID)
        (fun req => req.Method = "GET" ∧
          req.URL = env.parseURL (h ++ "/" ++ "api/admin/organizations/" ++ orgID))) ∧
    (∀ (request : internal.langfuse.CreateOrganizationRequest),
      http.SendsWhen
        (internal.langfuse.canBuild env "POST" (h ++ "/" ++ "api/admin/organizations")
          (some (.CreateOrganization request)))
        Except.error
        (fun httpClient => internal.langfuse.adminClientImpl.CreateOrganization env
          { host := h, apiKey := k, httpClient := httpClient } request)
        (fun req => req.Method = "POST" ∧
          req.URL = env.parseURL (h ++ "/" ++ "api/admin/organizations"))) ∧
    (∀ (orgID : String) (request : internal.langfuse.UpdateOrganizationRequest),
      (∀ c ∈ orgID.data, c ≠ '/') →
      http.SendsWhen
        (internal.langfuse.canBuild env "PUT" (h ++ "/" ++ "api/admin/organizations/" ++ orgID)
          (some (.UpdateOrganization request)))
        Except.error
        (fun httpClient => internal.langfuse.adminClientImpl.UpdateOrganization env
          { host := h, apiKey := k, httpClient := httpClient } orgID request)
        (fun req => req.Method = "PUT" ∧
          req.URL = env.parseURL (h ++ "/" ++ "api/admin/organizations/" ++ orgID))) ∧
    (∀ (orgID : String),
      (∀ c ∈ orgID.data, c ≠ '/') →
      http.SendsWhen
        (internal.langfuse.canBuild env "DELETE" (h ++ "/" ++ "api/admin/organizations/" ++ orgID)
          none)
        some
        (fun httpClient => internal.langfuse.adminClientImpl.DeleteOrganization env
          { host := h, apiKey := k, httpClient := httpClient } orgID)
        (fun req => req.Method = "DELETE" ∧
          req.URL = env.parseURL (h ++ "/" ++ "api/admin/organizations/" ++ orgID))) ∧
    (∀ (orgID : String) (apiKeyID : String),
      (∀ c ∈ orgID.data, c ≠ '/') →
      (∀ c ∈ apiKeyID.data, c ≠ '/') →
      http.SendsWhen
        (internal.langfuse.canBuild env "GET" (h ++ "/" ++ "api/admin/organizations/" ++ orgID ++ "/apiKeys")
          none)
        Except.error
        (fun httpClient => internal.langfuse.adminClientImpl.GetOrganizationApiKey env
          { host := h, apiKey := k, httpClient := httpClient } orgID apiKeyID)
        (fun req => req.Method = "GET" ∧
          req.URL = env.parseURL (h ++ "/" ++ "api/admin/organizations/" ++ orgID ++ "/apiKeys"))) ∧
    (∀ (orgID : String),
      (∀ c ∈ orgID.data, c ≠ '/') →
      http.SendsWhen
        (internal.langfuse.canBuild env "POST" (h ++ "/" ++ "api/admin/organizations/" ++ orgID ++ "/apiKeys")
          none)
        Except.error
        (fun httpClient => internal.langfuse.adminClientImpl.CreateOrganizationApiKey env
          { host := h, apiKey := k, httpClient := httpClient } orgID)
        (fun req => req.Method = "POST" ∧
          req.URL = env.parseURL (h ++ "/" ++ "api/admin/organizations/" ++ orgID ++ "/apiKeys"))) ∧
    (∀ (orgID : String) (apiKeyID : String),
      (∀ c ∈ orgID.data, c ≠ '/') →
      (∀ c ∈ apiKeyID.data, c ≠ '/') →
      http.SendsWhen
        (internal.langfuse.canBuild env "DELETE" (h ++ "/" ++ "api/admin/organizations/" ++ orgID ++ "/apiKeys/" ++ apiKeyID)
          none)
        some
        (fun httpClient => internal.langfuse.adminClientImpl.DeleteOrganizationApiKey env
          { host := h, apiKey := k, httpClient := httpClient } orgID apiKeyID)
        (fun req => req.Method = "DELETE" ∧
          req.URL = env.parseURL (h ++ "/" ++ "api/admin/organizations/" ++ orgID ++ "/apiKeys/" ++ apiKeyID))) ∧
    (http.SendsWhen
        (internal.langfuse.canBuild env "GET" (h ++ "/" ++ "api/public/organizations/projects")
          none)
        Except.error
        (fun httpClient => internal.langfuse.organizationClientImpl.ListProjects env
          { host := h, publicKey := publicKey, privateKey := privateKey
            httpClient := httpClient })
        (fun req => req.Method = "GET" ∧
          req.URL = env.parseURL (h ++ "/" ++ "api/public/organizations/projects"))) ∧
    (∀ (projectID : String),
      (∀ c ∈ projectID.data, c ≠ '/') →
      http.SendsWhen
        (internal.langfuse.canBuild env "GET" (h ++ "/" ++ "api/public/organizations/projects")
          none)
        internal.langfuse.Outcome.err
        (fun httpClient => internal.langfuse.organizationClientImpl.GetProject env
          { host := h, publicKey := publicKey, privateKey := privateKey
            httpClient := httpClient } projectID)
        (fun req => req.Method = "GET" ∧
          req.URL = env.parseURL (h ++ "/" ++ "api/public/organizations/projects"))) ∧
    (∀ (request : internal.langfuse.CreateProjectRequest),
      http.SendsWhen
        (internal.langfuse.canBuild env "POST" (h ++ "/" ++ "api/public/projects")
          (some (.CreateProject request)))
        Except.error
        (fun httpClient => internal.langfuse.organizationClientImpl.CreateProject env
          { host := h, publicKey := publicKey, privateKey := privateKey
            httpClient := httpClient } request)
        (fun req => req.Method = "POST" ∧
          req.URL = env.parseURL (h ++ "/" ++ "api/public/projects"))) ∧
    (∀ (projectID : String) (request : internal.langfuse.UpdateProjectRequest),
      (∀ c ∈ projectID.data, c ≠ '/') →
      http.SendsWhen
        (internal.langfuse.canBuild env "PUT" (h ++ "/" ++ "api/public/projects/" ++ projectID)
          (some (.UpdateProject request)))
        Except.error
        (fun httpClient => internal.langfuse.organizationClientImpl.UpdateProject env
          { host := h, publicKey := publicKey, privateKey := privateKey
            httpClient := httpClient } projectID request)
        (fun req => req.Method = "PUT" ∧
          req.URL = env.parseURL (h ++ "/" ++ "api/public/projects/" ++ projectID))) ∧
    (∀ (projectID : String),
      (∀ c ∈ projectID.data, c ≠ '/') →
      http.SendsWhen
        (internal.langfuse.canBuild env "DELETE" (h ++ "/" ++ "api/public/projects/" ++ projectID)
          none)
        some
        (fun httpClient => internal.langfuse.organizationClientImpl.DeleteProject env
          { host := h, publicKey := publicKey, privateKey := privateKey
            httpClient := httpClient } projectID)
        (fun req => req.Method = "DELETE" ∧
          req.URL = env.parseURL (h ++ "/" ++ "api/public/projects/" ++ projectID))) ∧
    (∀ (projectID : String) (apiKeyID : String),
      (∀ c ∈ projectID.data, c ≠ '/') →
      (∀ c ∈ apiKeyID.data, c ≠ '/') →
      http.SendsWhen
        (internal.langfuse.canBuild env "GET" (h ++ "/" ++ "api/public/projects/" ++ projectID ++ "/apiKeys")
          none)
        Except.error
        (fun httpClient => internal.langfuse.organizationClientImpl.GetProjectApiKey env
          { host := h, publicKey := publicKey, privateKey := privateKey
            httpClient := httpClient } projectID apiKeyID)
        (fun req => req.Method = "GET" ∧
          req.URL = env.parseURL (h ++ "/" ++ "api/public/projects/" ++ projectID ++ "/apiKeys"))) ∧
    (∀ (projectID : String),
      (∀ c ∈ projectID.data, c ≠ '/') →
      http.SendsWhen
        (internal.langfuse.canBuild env "POST" (h ++ "/" ++ "api/public/projects/" ++ projectID ++ "/apiKeys")
          none)
        Except.error
        (fun httpClient => internal.langfuse.organizationClientImpl.CreateProjectApiKey env
          { host := h, publicKey := publicKey, privateKey := privateKey
            httpClient := httpClient } projectID)
        (fun req => req.Method = "POST" ∧
          req.URL = env.parseURL (h ++ "/" ++ "api/public/projects/" ++ projectID ++ "/apiKeys"))) ∧
    (∀ (projectID : String) (apiKeyID : String),
      (∀ c ∈ projectID.data, c ≠ '/') →
      (∀ c ∈ apiKeyID.data, c ≠ '/') →
      http.SendsWhen
        (internal.langfuse.canBuild env "DELETE" (h ++ "/" ++ "api/public/projects/" ++ projectID ++ "/apiKeys/" ++ apiKeyID)
          none)
        some
        (fun httpClient => internal.langfuse.organizationClientImpl.DeleteProjectApiKey env
          { host := h, publicKey := publicKey, privateKey := privateKey
            httpClient := httpClient } projectID apiKeyID)
        (fun req => req.Method = "DELETE" ∧
          req.URL = env.parseURL (h ++ "/" ++ "api/public/projects/" ++ projectID ++ "/apiKeys/" ++ apiKeyID))) ∧
    (∀ (projectID : String),
      (∀ c ∈ projectID.data, c ≠ '/') →
      internal.langfuse.canBuild env "GET"
        (h ++ "/" ++ "api/public/organizations/projects") none →
      ∃ req : http.Request,
        http.SendsExactly Except.error
          (fun httpClient => internal.langfuse.organizationClientImpl.ListProjects env
            { host := h, publicKey := publicKey, privateKey := privateKey
              httpClient := httpClient }) req ∧
        http.SendsExactly internal.langfuse.Outcome.err
          (fun httpClient => internal.langfuse.organizationClientImpl.GetProject env
            { host := h, publicKey := publicKey, privateKey := privateKey
              httpClient := httpClient } projectID) req) := by
  have hurl : ∀ p, internal.langfuse.buildURL h p = h ++ "/" ++ p :=
    fun p => buildURL_plain_host h p hne hslash
  refine ⟨?_, ?_, ?_, ?_, ?_, ?_, ?_, ?_, ?_, ?_, ?_, ?_, ?_, ?_, ?_, ?_, ?_⟩
  · have hw := sendsWhen_mono _ _ _ _
      (fun req => req.Method = http.MethodGet ∧
        req.URL = env.parseURL (internal.langfuse.buildURL h "api/admin/organizations"))
      (fun req hreq => ⟨hreq.1, hreq.2.1⟩)
      (adminClientImpl_ListOrganizations_sendsWhen env h k)
    simp only [hurl, String.append_assoc] at hw ⊢
    exact hw
  · intro orgID _
    have hw := sendsWhen_mono _ _ _ _
      (fun req => req.Method = http.MethodGet ∧
        req.URL = env.parseURL (internal.langfuse.buildURL h ("api/admin/organizations/" ++ orgID)))
      (fun req hreq => ⟨hreq.1, hreq.2.1⟩)
      (adminClientImpl_GetOrganization_sendsWhen env h k orgID)
    simp only [hurl, String.append_assoc] at hw ⊢
    exact hw
  · intro request
    have hw := sendsWhen_mono _ _ _ _
      (fun req => req.Method = http.MethodPost ∧
        req.URL = env.parseURL (internal.langfuse.buildURL h "api/admin/organizations"))
      (fun req hreq => ⟨hreq.1, hreq.2.1⟩)
      (adminClientImpl_CreateOrganization_sendsWhen env h k request)
    simp only [hurl, String.append_assoc] at hw ⊢
    exact hw
  · intro orgID request _
    have hw := sendsWhen_mono _ _ _ _
      (fun req => req.Method = http.MethodPut ∧
        req.URL = env.parseURL (internal.langfuse.buildURL h ("api/admin/organizations/" ++ orgID)))
      (fun req hreq => ⟨hreq.1, hreq.2.1⟩)
      (adminClientImpl_UpdateOrganization_sendsWhen env h k orgID request)
    simp only [hurl, String.append_assoc] at hw ⊢
    exact hw
  · intro orgID _
    have hw := sendsWhen_mono _ _ _ _
      (fun req => req.Method = http.MethodDelete ∧
        req.URL = env.parseURL (internal.langfuse.buildURL h ("api/admin/organizations/" ++ orgID)))
      (fun req hreq => ⟨hreq.1, hreq.2.1⟩)
      (adminClientImpl_DeleteOrganization_sendsWhen env h k orgID)
    simp only [hurl, String.append_assoc] at hw ⊢
    exact hw
  · intro orgID apiKeyID _ _
    have hw := sendsWhen_mono _ _ _ _
      (fun req => req.Method = http.MethodGet ∧
        req.URL = env.parseURL (internal.langfuse.buildURL h ("api/admin/organizations/" ++ orgID ++ "/apiKeys")))
      (fun req hreq => ⟨hreq.1, hreq.2.1⟩)
      (adminClientImpl_GetOrganizationApiKey_sendsWhen env h k orgID apiKeyID)
    simp only [hurl, String.append_assoc] at hw ⊢
    exact hw
  · intro orgID _
    have hw := sendsWhen_mono _ _ _ _
      (fun req => req.Method = http.MethodPost ∧
        req.URL = env.parseURL (internal.langfuse.buildURL h ("api/admin/organizations/" ++ orgID ++ "/apiKeys")))
      (fun req hreq => ⟨hreq.1, hreq.2.1⟩)
      (adminClientImpl_CreateOrganizationApiKey_sendsWhen env h k orgID)
    simp only [hurl, String.append_assoc] at hw ⊢
    exact hw
  · intro orgID apiKeyID _ _
    have hw := sendsWhen_mono _ _ _ _
      (fun req => req.Method = http.MethodDelete ∧
        req.URL = env.parseURL (internal.langfuse.buildURL h ("api/admin/organizations/" ++ orgID ++ "/apiKeys/" ++ apiKeyID)))
      (fun req hreq => ⟨hreq.1, hreq.2.1⟩)
      (adminClientImpl_DeleteOrganizationApiKey_sendsWhen env h k orgID apiKeyID)
    simp only [hurl, String.append_assoc] at hw ⊢
    exact hw
  · have hw := sendsWhen_mono _ _ _ _
      (fun req => req.Method = http.MethodGet ∧
        req.URL = env.parseURL (internal.langfuse.buildURL h "api/public/organizations/projects"))
      (fun req hreq => ⟨hreq.1, hreq.2.1⟩)
      (organizationClientImpl_ListProjects_sendsWhen env h publicKey privateKey)
    simp only [hurl, String.append_assoc] at hw ⊢
    exact hw
  · intro projectID _
    have hw := sendsWhen_mono _ _ _ _
      (fun req => req.Method = http.MethodGet ∧
        req.URL = env.parseURL (internal.langfuse.buildURL h "api/public/organizations/projects"))
      (fun req hreq => ⟨hreq.1, hreq.2.1⟩)
      (organizationClientImpl_GetProject_sendsWhen env h publicKey privateKey projectID)
    simp only [hurl, String.append_assoc] at hw ⊢
    exact hw
  · intro request
    have hw := sendsWhen_mono _ _ _ _
      (fun req => req.Method = http.MethodPost ∧
        req.URL = env.parseURL (internal.langfuse.buildURL h "api/public/projects"))
      (fun req hreq => ⟨hreq.1, hreq.2.1⟩)
      (organizationClientImpl_CreateProject_sendsWhen env h publicKey privateKey request)
    simp only [hurl, String.append_assoc] at hw ⊢
    exact hw
  · intro projectID request _
    have hw := sendsWhen_mono _ _ _ _
      (fun req => req.Method = http.MethodPut ∧
        req.URL = env.parseURL (internal.langfuse.buildURL h ("api/public/projects/" ++ projectID)))
      (fun req hreq => ⟨hreq.1, hreq.2.1⟩)
      (organizationClientImpl_UpdateProject_sendsWhen env h publicKey privateKey projectID request)
    simp only [hurl, String.append_assoc] at hw ⊢
    exact hw
  · intro projectID _
    have hw := sendsWhen_mono _ _ _ _
      (fun req => req.Method = http.MethodDelete ∧
        req.URL = env.parseURL (internal.langfuse.buildURL h ("api/public/projects/" ++ projectID)))
      (fun req hreq => ⟨hreq.1, hreq.2.1⟩)
      (organizationClientImpl_DeleteProject_sendsWhen env h publicKey privateKey projectID)
    simp only [hurl, String.append_assoc] at hw ⊢
    exact hw
  · intro projectID apiKeyID _ _
    have hw := sendsWhen_mono _ _ _ _
      (fun req => req.Method = http.MethodGet ∧
        req.URL = env.parseURL (internal.langfuse.buildURL h ("api/public/projects/" ++ projectID ++ "/apiKeys")))
      (fun req hreq => ⟨hreq.1, hreq.2.1⟩)
      (organizationClientImpl_GetProjectApiKey_sendsWhen env h publicKey privateKey projectID apiKeyID)
    simp only [hurl, String.append_assoc] at hw ⊢
    exact hw
  · intro projectID _
    have hw := sendsWhen_mono _ _ _ _
      (fun req => req.Method = http.MethodPost ∧
        req.URL = env.parseURL (internal.langfuse.buildURL h ("api/public/projects/" ++ projectID ++ "/apiKeys")))
      (fun req hreq => ⟨hreq.1, hreq.2.1⟩)
      (organizationClientImpl_CreateProjectApiKey_sendsWhen env h publicKey privateKey projectID)
    simp only [hurl, String.append_assoc] at hw ⊢
    exact hw
  · intro projectID apiKeyID _ _
    have hw := sendsWhen_mono _ _ _ _
      (fun req => req.Method = http.MethodDelete ∧
        req.URL = env.parseURL (internal.langfuse.buildURL h ("api/public/projects/" ++ projectID ++ "/apiKeys/" ++ apiKeyID)))
      (fun req hreq => ⟨hreq.1, hreq.2.1⟩)
      (organizationClientImpl_DeleteProjectApiKey_sendsWhen env h publicKey privateKey projectID apiKeyID)
    simp only [hurl, String.append_assoc] at hw ⊢
    exact hw
  · intro projectID _ hbuilt
    rw [← hurl] at hbuilt
    obtain ⟨req0, hb⟩ := hbuilt
    have hvalid := buildBaseRequest_ok_none env _ _ req0 hb
    exact ⟨_, organizationClientImpl_ListProjects_sends env h publicKey privateKey hvalid,
      organizationClientImpl_GetProject_sends env h publicKey privateKey projectID hvalid⟩

/-- C22 (witness): two operations of clients on the sample host, whose requests can be
built. -/
theorem C22_operations_hit_documented_endpoints_witness :
    http.Sends Except.error
        (fun httpClient => internal.langfuse.adminClientImpl.GetOrganization sample.env
          { host := "https://cloud.langfuse.com", apiKey := "admin-key"
            httpClient := httpClient } "org-123")
        (fun req => req.Method = "GET" ∧
          req.URL = sample.env.parseURL
            ("https://cloud.langfuse.com" ++ "/" ++ "api/admin/organizations/"
              ++ "org-123")) ∧
    http.Sends some
        (fun httpClient => internal.langfuse.organizationClientImpl.DeleteProjectApiKey
          sample.env
          { host := "https://cloud.langfuse.com", publicKey := "pk-1234"
            privateKey := "sk-1234", httpClient := httpClient } "proj-123" "pak-123")
        (fun req => req.Method = "DELETE" ∧
          req.URL = sample.env.parseURL
            ("https://cloud.langfuse.com" ++ "/" ++ "api/public/projects/"
              ++ "proj-123" ++ "/apiKeys/" ++ "pak-123")) :=
  ⟨((C22_operations_hit_documented_endpoints sample.env "https://cloud.langfuse.com"
      "admin-key" "pk-1234" "sk-1234" (by decide)
      (by
        rintro ⟨h0, hh⟩
        have hd := congrArg (fun s : String => s.data.getLast?) hh
        simp only [data_ends_with_slash] at hd
        exact absurd hd (by decide))).2.1 "org-123" (by decide)).1 ⟨_, rfl⟩,
   ((C22_operations_hit_documented_endpoints sample.env "https://cloud.langfuse.com"
      "admin-key" "pk-1234" "sk-1234" (by decide)
      (by
        rintro ⟨h0, hh⟩
        have hd := congrArg (fun s : String => s.data.getLast?) hh
        simp only [data_ends_with_slash] at hd
        exact absurd hd (by decide))).2.2.2.2.2.2.2.2.2.2.2.2.2.2.2.1
      "proj-123" "pak-123" (by decide) (by decide)).1 ⟨_, rfl⟩⟩

/-! ## Phase lemmas: successful organization Create and Update -/

section OrganizationLemmas

open internal.provider

theorem organizationResource_Create_ok (r : organizationResource)
    (cfg : organizationResourceModel) (resp : resource.CreateResponse organizationResourceModel)
    (org : internal.langfuse.Organization) (hne : resp.Diagnostics.HasError = false)
    (h : r.AdminClient.CreateOrganization { Name := cfg.Name.ValueString, Metadata := [] }
      = .ok org) :
    r.Create ⟨⟨some cfg⟩⟩ resp
      = { resp := { State := ⟨some { ID := .known org.ID, Name := .known org.Name }⟩
                    Diagnostics := resp.Diagnostics }
          calls := [.CreateOrganization { Name := cfg.Name.ValueString, Metadata := [] }] } := by
  simp [organizationResource.Create, tfsdk.Config.Get, tfsdk.State.Set, diag_Append_nil, hne,
    h, types.StringValue]

theorem organizationResource_Update_ok (r : organizationResource)
    (cfg : organizationResourceModel) (prior : tfsdk.State organizationResourceModel)
    (resp : resource.UpdateResponse organizationResourceModel)
    (org : internal.langfuse.Organization) (hne : resp.Diagnostics.HasError = false)
    (h : r.AdminClient.UpdateOrganization cfg.ID.ValueString
      { Name := cfg.Name.ValueString, Metadata := [] } = .ok org) :
    r.Update ⟨⟨some cfg⟩, prior⟩ resp
      = { resp := { State := ⟨some { ID := .known org.ID, Name := .known org.Name }⟩
                    Diagnostics := resp.Diagnostics }
          calls := [.UpdateOrganization cfg.ID.ValueString
            { Name := cfg.Name.ValueString, Metadata := [] }] } := by
  simp [organizationResource.Update, tfsdk.Config.Get, tfsdk.State.Set, diag_Append_nil, hne,
    h, types.StringValue]

theorem organizationResource_Create_calls (r : organizationResource)
    (cfg : organizationResourceModel) (resp : resource.CreateResponse organizationResourceModel)
    (hne : resp.Diagnostics.HasError = false) :
    (r.Create ⟨⟨some cfg⟩⟩ resp).calls
      = [.CreateOrganization { Name := cfg.Name.ValueString, Metadata := [] }] := by
  cases h : r.AdminClient.CreateOrganization { Name := cfg.Name.ValueString, Metadata := [] } with
  | error e => rw [organizationResource_Create_err r cfg resp e hne h]
  | ok org => rw [organizationResource_Create_ok r cfg resp org hne h]

theorem organizationResource_Update_calls (r : organizationResource)
    (cfg : organizationResourceModel) (prior : tfsdk.State organizationResourceModel)
    (resp : resource.UpdateResponse organizationResourceModel)
    (hne : resp.Diagnostics.HasError = false) :
    (r.Update ⟨⟨some cfg⟩, prior⟩ resp).calls
      = [.UpdateOrganization cfg.ID.ValueString
          { Name := cfg.Name.ValueString, Metadata := [] }] := by
  cases h : r.AdminClient.UpdateOrganization cfg.ID.ValueString
      { Name := cfg.Name.ValueString, Metadata := [] } with
  | error e => rw [organizationResource_Update_err r cfg prior resp e hne h]
  | ok org => rw [organizationResource_Update_ok r cfg prior resp org hne h]

end OrganizationLemmas

/-! ## C23: what the organization reconciler sends and persists -/

/-- C23 (counterexample): `Create` sends the request with the name and no metadata, and
two clients whose returned organizations differ only in metadata leave the same persisted
record: the record does not contain the metadata. -/
theorem C23_organization_metadata_is_dropped :
    (internal.provider.organizationResource.Create ⟨sample.taggedAdminClient⟩
        ⟨⟨some sample.organizationConfig⟩⟩ ⟨⟨none⟩, []⟩).calls
      = [.CreateOrganization { Name := "Acme Inc", Metadata := [] }] ∧
    sample.taggedAdminClient.CreateOrganization { Name := "Acme Inc", Metadata := [] }
      = .ok { ID := "org-123", Name := "Acme Inc", Metadata := [("team", "ai")] } ∧
    sample.adminClient.CreateOrganization { Name := "Acme Inc", Metadata := [] }
      = .ok { ID := "org-123", Name := "Acme Inc", Metadata := [] } ∧
    (internal.provider.organizationResource.Create ⟨sample.taggedAdminClient⟩
        ⟨⟨some sample.organizationConfig⟩⟩ ⟨⟨none⟩, []⟩).resp.State
      = (internal.provider.organizationResource.Create ⟨sample.adminClient⟩
        ⟨⟨some sample.organizationConfig⟩⟩ ⟨⟨none⟩, []⟩).resp.State := by
  refine ⟨rfl, rfl, rfl, rfl⟩

/-- C23 (amended): for every declared name, `organizationResource.Create` and `Update` make
one call to the admin client, whose request holds the name and no metadata (the
configuration declares none); and for every organization that call returns, the persisted
record is its id and its name, the metadata left out. -/
theorem C23_organization_name_only :
    (∀ (r : internal.provider.organizationResource)
        (cfg : internal.provider.organizationResourceModel)
        (resp : resource.CreateResponse internal.provider.organizationResourceModel),
        resp.Diagnostics.HasError = false →
        (r.Create ⟨⟨some cfg⟩⟩ resp).calls
          = [.CreateOrganization { Name := cfg.Name.ValueString, Metadata := [] }] ∧
        ∀ org, r.AdminClient.CreateOrganization
            { Name := cfg.Name.ValueString, Metadata := [] } = .ok org →
          (r.Create ⟨⟨some cfg⟩⟩ resp).resp.State
            = ⟨some { ID := .known org.ID, Name := .known org.Name }⟩) ∧
    (∀ (r : internal.provider.organizationResource)
        (cfg : internal.provider.organizationResourceModel)
        (prior : tfsdk.State internal.provider.organizationResourceModel)
        (resp : resource.UpdateResponse internal.provider.organizationResourceModel),
        resp.Diagnostics.HasError = false →
        (∃ orgID, (r.Update ⟨⟨some cfg⟩, prior⟩ resp).calls
          = [.UpdateOrganization orgID { Name := cfg.Name.ValueString, Metadata := [] }]) ∧
        ∀ orgID org,
          (r.Update ⟨⟨some cfg⟩, prior⟩ resp).calls
            = [.UpdateOrganization orgID
                { Name := cfg.Name.ValueString, Metadata := [] }] →
          r.AdminClient.UpdateOrganization orgID
            { Name := cfg.Name.ValueString, Metadata := [] } = .ok org →
          (r.Update ⟨⟨some cfg⟩, prior⟩ resp).resp.State
            = ⟨some { ID := .known org.ID, Name := .known org.Name }⟩) := by
  constructor
  · intro r cfg resp hne
    refine ⟨organizationResource_Create_calls r cfg resp hne, fun org h => ?_⟩
    rw [organizationResource_Create_ok r cfg resp org hne h]
  · intro r cfg prior resp hne
    have hcalls := organizationResource_Update_calls r cfg prior resp hne
    refine ⟨⟨_, hcalls⟩, fun orgID org hmade h => ?_⟩
    rw [hcalls] at hmade
    simp only [List.cons.injEq, and_true,
      internal.langfuse.AdminClient.Call.UpdateOrganization.injEq] at hmade
    rw [← hmade] at h
    rw [organizationResource_Update_ok r cfg prior resp org hne h]

/-- C23 (witness): Create and Update over the client that returns metadata. -/
theorem C23_organization_name_only_witness :
    (internal.provider.organizationResource.Create ⟨sample.taggedAdminClient⟩
        ⟨⟨some sample.organizationConfig⟩⟩ ⟨⟨none⟩, []⟩).resp.State
      = ⟨some { ID := .known "org-123", Name := .known "Acme Inc" }⟩ ∧
    (internal.provider.organizationResource.Update ⟨sample.taggedAdminClient⟩
        ⟨⟨some sample.organizationState⟩, ⟨some sample.organizationState⟩⟩
        ⟨⟨some sample.organizationState⟩, []⟩).resp.State
      = ⟨some { ID := .known "org-123", Name := .known "Acme Inc" }⟩ :=
  ⟨(C23_organization_name_only.1 ⟨sample.taggedAdminClient⟩ sample.organizationConfig
      ⟨⟨none⟩, []⟩ rfl).2
      { ID := "org-123", Name := "Acme Inc", Metadata := [("team", "ai")] } rfl,
   (C23_organization_name_only.2 ⟨sample.taggedAdminClient⟩ sample.organizationState
      ⟨some sample.organizationState⟩ ⟨⟨some sample.organizationState⟩, []⟩ rfl).2
      "org-123" { ID := "org-123", Name := "Acme Inc", Metadata := [("team", "ai")] }
      rfl rfl⟩

/-! ## Phase lemmas: the call a Create makes -/

section CreateCallLemmas

theorem organizationApiKeyResource_Create_calls (r : internal.provider.organizationApiKeyResource)
    (cfg : internal.provider.organizationApiKeyResourceModel)
    (resp : resource.CreateResponse internal.provider.organizationApiKeyResourceModel)
    (hne : resp.Diagnostics.HasError = false) :
    (r.Create ⟨⟨some cfg⟩⟩ resp).calls
      = [.CreateOrganizationApiKey cfg.OrganizationID.ValueString] := by
  cases h : r.AdminClient.CreateOrganizationApiKey cfg.OrganizationID.ValueString with
  | error e => rw [organizationApiKeyResource_Create_err r cfg resp e hne h]
  | ok k => rw [organizationApiKeyResource_Create_ok r cfg resp k hne h]

theorem projectApiKeyResource_Create_calls (r : provider.projectApiKeyResource)
    (cfg : provider.projectApiKeyResourceModel)
    (resp : resource.CreateResponse provider.projectApiKeyResourceModel)
    (hne : resp.Diagnostics.HasError = false) :
    (r.Create ⟨⟨some cfg⟩⟩ resp).calls
      = [⟨cfg.OrganizationPublicKey.ValueString, cfg.OrganizationPrivateKey.ValueString,
          .CreateProjectApiKey cfg.ProjectID.ValueString⟩] := by
  cases h : (r.ClientFactory.NewOrganizationClient cfg.OrganizationPublicKey.ValueString
      cfg.OrganizationPrivateKey.ValueString).CreateProjectApiKey
        cfg.ProjectID.ValueString with
  | error e => rw [projectApiKeyResource_Create_err r cfg resp e hne h]
  | ok k => rw [projectApiKeyResource_Create_ok r cfg resp k hne h]

end CreateCallLemmas

/-! ## C24: Create does not validate required fields -/

/-- C24 (counterexample): the organization `Create` over a configuration whose required
name is absent reports no error and invokes `CreateOrganization`, with the empty name; so
do the organization-credential `Create` without an organization id and the
project-credential `Create` without a project id, with the empty id. -/
theorem C24_create_calls_client_without_name :
    (sample.emptyOrganizationConfig.Name = .null ∧
      (internal.provider.organizationResource.Create ⟨sample.adminClient⟩
          ⟨⟨some sample.emptyOrganizationConfig⟩⟩ ⟨⟨none⟩, []⟩).resp.Diagnostics.HasError
        = false ∧
      (internal.provider.organizationResource.Create ⟨sample.adminClient⟩
          ⟨⟨some sample.emptyOrganizationConfig⟩⟩ ⟨⟨none⟩, []⟩).calls
        = [.CreateOrganization { Name := "", Metadata := [] }]) ∧
    ((internal.provider.organizationApiKeyResource.Create ⟨sample.adminClient⟩
          ⟨⟨some { sample.organizationApiKeyConfig with OrganizationID := .null }⟩⟩
          ⟨⟨none⟩, []⟩).resp.Diagnostics.HasError
        = false ∧
      (internal.provider.organizationApiKeyResource.Create ⟨sample.adminClient⟩
          ⟨⟨some { sample.organizationApiKeyConfig with OrganizationID := .null }⟩⟩
          ⟨⟨none⟩, []⟩).calls
        = [.CreateOrganizationApiKey ""]) ∧
    ((provider.projectApiKeyResource.Create ⟨sample.projectFactory⟩
          ⟨⟨some { sample.projectApiKeyConfig with ProjectID := .null }⟩⟩
          ⟨⟨none⟩, []⟩).resp.Diagnostics.HasError
        = false ∧
      (provider.projectApiKeyResource.Create ⟨sample.projectFactory⟩
          ⟨⟨some { sample.projectApiKeyConfig with ProjectID := .null }⟩⟩
          ⟨⟨none⟩, []⟩).calls
        = [⟨"pk_test_123", "sk_test_456", .CreateProjectApiKey ""⟩]) := by
  refine ⟨⟨rfl, rfl, rfl⟩, ⟨rfl, rfl⟩, ⟨rfl, rfl⟩⟩

/-- C24 (amended): `Create` of the organization, organization-credential and
project-credential reconcilers does no validation of its own. For every configuration in
which a required field is absent (organization: name; organization credential:
organization_id; project credential: project_id or either organization key), it reads the
field as the empty string and invokes its client operation with it, and when the client
accepts the call it adds no diagnostic. That the fields are required is declared in the
schemas only: name of the organization and of the project, organization_id, project_id and
the two organization keys of the project credential have `Required: true`. For the project
reconciler the statement stands: for every configuration in which the name is absent,
`Create` reports an error and invokes no client operation. -/
theorem C24_create_does_not_validate :
    (∀ (r : internal.provider.organizationResource)
        (cfg : internal.provider.organizationResourceModel)
        (resp : resource.CreateResponse internal.provider.organizationResourceModel),
        resp.Diagnostics.HasError = false → cfg.Name = .null →
        (r.Create ⟨⟨some cfg⟩⟩ resp).calls
          = [.CreateOrganization { Name := "", Metadata := [] }] ∧
        ∀ org, r.AdminClient.CreateOrganization { Name := "", Metadata := [] } = .ok org →
          (r.Create ⟨⟨some cfg⟩⟩ resp).resp.Diagnostics = resp.Diagnostics) ∧
    (∀ (r : internal.provider.organizationApiKeyResource)
        (cfg : internal.provider.organizationApiKeyResourceModel)
        (resp : resource.CreateResponse internal.provider.organizationApiKeyResourceModel),
        resp.Diagnostics.HasError = false → cfg.OrganizationID = .null →
        (r.Create ⟨⟨some cfg⟩⟩ resp).calls = [.CreateOrganizationApiKey ""] ∧
        ∀ k, r.AdminClient.CreateOrganizationApiKey "" = .ok k →
          (r.Create ⟨⟨some cfg⟩⟩ resp).resp.Diagnostics = resp.Diagnostics) ∧
    (∀ (r : provider.projectResource) (cfg : provider.projectResourceModel)
        (resp : resource.CreateResponse provider.projectResourceModel),
        cfg.Name = .null →
        (r.Create ⟨⟨some cfg⟩⟩ resp).resp.Diagnostics.HasError = true ∧
        (r.Create ⟨⟨some cfg⟩⟩ resp).calls = []) ∧
    (∀ (r : provider.projectApiKeyResource) (cfg : provider.projectApiKeyResourceModel)
        (resp : resource.CreateResponse provider.projectApiKeyResourceModel),
        resp.Diagnostics.HasError = false →
        (cfg.ProjectID = .null →
          (r.Create ⟨⟨some cfg⟩⟩ resp).calls
            = [⟨cfg.OrganizationPublicKey.ValueString, cfg.OrganizationPrivateKey.ValueString,
                .CreateProjectApiKey ""⟩]) ∧
        (cfg.OrganizationPublicKey = .null →
          (r.Create ⟨⟨some cfg⟩⟩ resp).calls
            = [⟨"", cfg.OrganizationPrivateKey.ValueString,
                .CreateProjectApiKey cfg.ProjectID.ValueString⟩]) ∧
        (cfg.OrganizationPrivateKey = .null →
          (r.Create ⟨⟨some cfg⟩⟩ resp).calls
            = [⟨cfg.OrganizationPublicKey.ValueString, "",
                .CreateProjectApiKey cfg.ProjectID.ValueString⟩]) ∧
        ∀ k, (r.ClientFactory.NewOrganizationClient cfg.OrganizationPublicKey.ValueString
            cfg.OrganizationPrivateKey.ValueString).CreateProjectApiKey
              cfg.ProjectID.ValueString = .ok k →
          (r.Create ⟨⟨some cfg⟩⟩ resp).resp.Diagnostics = resp.Diagnostics) ∧
    (Option.map schema.Attribute.Required
        (internal.provider.organizationResource.Schema.attr "name") = some true ∧
      Option.map schema.Attribute.Required
        (internal.provider.organizationApiKeyResource.Schema.attr "organization_id")
          = some true ∧
      Option.map schema.Attribute.Required
        (provider.projectResource.Schema.attr "name") = some true ∧
      Option.map schema.Attribute.Required
        (provider.projectApiKeyResource.Schema.attr "project_id") = some true ∧
      Option.map schema.Attribute.Required
        (provider.projectApiKeyResource.Schema.attr "organization_public_key") = some true ∧
      Option.map schema.Attribute.Required
        (provider.projectApiKeyResource.Schema.attr "organization_private_key")
          = some true) := by
  refine ⟨?_, ?_, ?_, ?_, ?_⟩
  · intro r cfg resp hne hnull
    have hcalls := organizationResource_Create_calls r cfg resp hne
    rw [hnull] at hcalls
    refine ⟨hcalls, fun org h => ?_⟩
    have hok := organizationResource_Create_ok r cfg resp org hne (by rw [hnull]; exact h)
    rw [hok]
  · intro r cfg resp hne hnull
    have hcalls := organizationApiKeyResource_Create_calls r cfg resp hne
    rw [hnull] at hcalls
    refine ⟨hcalls, fun k h => ?_⟩
    have hok := organizationApiKeyResource_Create_ok r cfg resp k hne (by rw [hnull]; exact h)
    rw [hok]
  · intro r cfg resp _
    rw [projectResource_Create_stops r cfg resp]
    exact ⟨diag_HasError_Append_wrongType _ _ _, rfl⟩
  · intro r cfg resp hne
    have hcalls := projectApiKeyResource_Create_calls r cfg resp hne
    refine ⟨fun hnull => ?_, fun hnull => ?_, fun hnull => ?_, fun k h => ?_⟩
    · rw [hcalls, hnull]; rfl
    · rw [hcalls, hnull]; rfl
    · rw [hcalls, hnull]; rfl
    · rw [projectApiKeyResource_Create_ok r cfg resp k hne h]
  · refine ⟨rfl, rfl, rfl, rfl, rfl, rfl⟩

/-- C24 (witness): the organization `Create` at a configuration without a name. -/
theorem C24_create_does_not_validate_witness :
    (internal.provider.organizationResource.Create ⟨sample.adminClient⟩
        ⟨⟨some sample.emptyOrganizationConfig⟩⟩ ⟨⟨none⟩, []⟩).calls
      = [.CreateOrganization { Name := "", Metadata := [] }] ∧
    (internal.provider.organizationResource.Create ⟨sample.adminClient⟩
        ⟨⟨some sample.emptyOrganizationConfig⟩⟩ ⟨⟨none⟩, []⟩).resp.Diagnostics = [] :=
  ⟨(C24_create_does_not_validate.1 ⟨sample.adminClient⟩ sample.emptyOrganizationConfig
      ⟨⟨none⟩, []⟩ rfl rfl).1,
   (C24_create_does_not_validate.1 ⟨sample.adminClient⟩ sample.emptyOrganizationConfig
      ⟨⟨none⟩, []⟩ rfl rfl).2 { ID := "org-123", Name := "", Metadata := [] } rfl⟩

/-! ## C25: what `NewProjectResource` returns -/

/-- C25 (divergence): the resource `NewProjectResource` returns is an `organizationResource`,
not a `projectResource`, and for the provider type name `langfuse` its `Metadata` reports
`langfuse_organization`; for every provider type name, `projectResource.Metadata` reports the
name followed by `_project`, and the reported name of the returned resource differs from it
at `langfuse`. -/
theorem C25_NewProjectResource_is_organization_resource :
    provider.NewProjectResource = .organizationResource ∧
    provider.NewProjectResource ≠ .projectResource ∧
    (provider.NewProjectResource.Metadata ⟨"langfuse"⟩ ⟨""⟩).TypeName
      = "langfuse_organization" ∧
    (∀ n resp, (provider.projectResource.Metadata ⟨n⟩ resp).TypeName = n ++ "_project") ∧
    (provider.NewProjectResource.Metadata ⟨"langfuse"⟩ ⟨""⟩).TypeName
      ≠ (provider.projectResource.Metadata ⟨"langfuse"⟩ ⟨""⟩).TypeName := by
  refine ⟨rfl, by decide, rfl, fun _ _ => rfl, by decide⟩

/-! ## C26: credential immutability in the schemas -/

/-- C26: in the organization-credential schema `organization_id` is required with the plan
modifier RequiresReplace, in the project-credential schema `project_id` is required with
the plan modifier RequiresReplace, and in both schemas `id`, `public_key` and `secret_key`
are computed, `public_key` and `secret_key` being sensitive with the plan modifier
UseStateForUnknown. -/
theorem C26_credential_schema_declares_immutability :
    (∃ a, internal.provider.organizationApiKeyResource.Schema.attr "organization_id" = some a ∧
      a.Required = true ∧ schema.PlanModifier.RequiresReplace ∈ a.PlanModifiers) ∧
    (∃ a, provider.projectApiKeyResource.Schema.attr "project_id" = some a ∧
      a.Required = true ∧ schema.PlanModifier.RequiresReplace ∈ a.PlanModifiers) ∧
    (∀ s ∈ [internal.provider.organizationApiKeyResource.Schema,
        provider.projectApiKeyResource.Schema],
      (∃ a, s.attr "id" = some a ∧ a.Computed = true) ∧
      (∀ name ∈ ["public_key", "secret_key"],
        ∃ a, s.attr name = some a ∧ a.Computed = true ∧ a.Sensitive = true ∧
          schema.PlanModifier.UseStateForUnknown ∈ a.PlanModifiers)) := by
  refine ⟨⟨_, rfl, rfl, by decide⟩, ⟨_, rfl, rfl, by decide⟩, ?_⟩
  intro s hs
  simp only [List.mem_cons, List.mem_singleton, List.not_mem_nil, or_false] at hs
  rcases hs with rfl | rfl
  · refine ⟨⟨_, rfl, rfl⟩, ?_⟩
    intro name hname
    simp only [List.mem_cons, List.mem_singleton, List.not_mem_nil, or_false] at hname
    rcases hname with rfl | rfl
    · exact ⟨_, rfl, rfl, rfl, by decide⟩
    · exact ⟨_, rfl, rfl, rfl, by decide⟩
  · refine ⟨⟨_, rfl, rfl⟩, ?_⟩
    intro name hname
    simp only [List.mem_cons, List.mem_singleton, List.not_mem_nil, or_false] at hname
    rcases hname with rfl | rfl
    · exact ⟨_, rfl, rfl, rfl, by decide⟩
    · exact ⟨_, rfl, rfl, rfl, by decide⟩

/-! ## C27: exact success condition of `DeleteOrganization` -/

/-- C27: when the request of `DeleteOrganization` is answered with a response, the operation
returns no error if and only if the status is in [200,300), the body is read and decodes as
a delete response, and the decoded success flag is true. In particular, on a status in
[200,300) with a readable body, a body the decoder rejects (as it does the empty body) fails
the delete with the decoder's error, and a body that decodes with the flag left false (as an
object without a success field does) fails it with the text naming the id. -/
theorem C27_delete_succeeds_exactly_on_true_flag (env : internal.langfuse.Env)
    (c : internal.langfuse.adminClientImpl) (orgID : String) (resp : http.Response)
    (hreq : c.makeRequest env http.MethodDelete ("api/admin/organizations/" ++ orgID) none
      = .ok resp) :
    (c.DeleteOrganization env orgID = none ↔
      (200 ≤ resp.StatusCode ∧ resp.StatusCode < 300 ∧ resp.Body.err = none ∧
        ∃ d, env.unmarshalDeleteOrganization resp.Body.data = .ok d ∧ d.Success = true)) ∧
    (200 ≤ resp.StatusCode → resp.StatusCode < 300 → resp.Body.err = none →
      ∀ e, env.unmarshalDeleteOrganization resp.Body.data = .error e →
        c.DeleteOrganization env orgID
          = some ("failed to unmarshal response body: " ++ e)) ∧
    (200 ≤ resp.StatusCode → resp.StatusCode < 300 → resp.Body.err = none →
      ∀ d, env.unmarshalDeleteOrganization resp.Body.data = .ok d → d.Success = false →
        c.DeleteOrganization env orgID
          = some ("failed to delete organization with ID " ++ orgID)) := by
  refine ⟨?_, ?_, ?_⟩
  · simp only [internal.langfuse.adminClientImpl.DeleteOrganization, hreq,
      internal.langfuse.decodeResponse]
    by_cases hst : resp.StatusCode < 200 ∨ resp.StatusCode ≥ 300
    · simp only [hst, if_true]
      constructor
      · intro h; cases h
      · rintro ⟨hlo, hhi, _⟩; omega
    · have hlo : 200 ≤ resp.StatusCode := by omega
      have hhi : resp.StatusCode < 300 := by omega
      simp only [hst, if_false]
      cases hread : resp.Body.err with
      | some err => simp
      | none =>
        cases hjson : env.unmarshalDeleteOrganization resp.Body.data with
        | error e => simp
        | ok d =>
          cases hflag : d.Success with
          | false => simp [hlo, hhi, hflag]
          | true => simp [hlo, hhi, hflag]
  · intro hlo hhi hread e hjson
    have hst : ¬ (resp.StatusCode < 200 ∨ resp.StatusCode ≥ 300) := by omega
    simp [internal.langfuse.adminClientImpl.DeleteOrganization, hreq,
      internal.langfuse.decodeResponse, hst, hread, hjson]
  · intro hlo hhi hread d hjson hflag
    simp [internal.langfuse.adminClientImpl.DeleteOrganization, hreq,
      decodeResponse_ok env.unmarshalDeleteOrganization resp d hlo hhi hread hjson, hflag]

/-- C27 (witness): a 2xx answer with the empty body, with the empty object, and with an
accepted delete. -/
theorem C27_delete_succeeds_exactly_on_true_flag_witness :
    internal.langfuse.adminClientImpl.DeleteOrganization sample.edgeEnv
        (sample.adminImpl (sample.answering "")) "org-123"
      = some "failed to unmarshal response body: unexpected end of JSON input" ∧
    internal.langfuse.adminClientImpl.DeleteOrganization sample.edgeEnv
        (sample.adminImpl (sample.answering sample.emptyObject)) "org-123"
      = some "failed to delete organization with ID org-123" ∧
    internal.langfuse.adminClientImpl.DeleteOrganization sample.edgeEnv
        (sample.adminImpl (sample.answering sample.deleteAccepted)) "org-123"
      = none :=
  ⟨(C27_delete_succeeds_exactly_on_true_flag sample.edgeEnv
      (sample.adminImpl (sample.answering "")) "org-123"
      { StatusCode := 200, Body := { data := "", err := none } } rfl).2.1
      (by decide) (by decide) rfl "unexpected end of JSON input" rfl,
   (C27_delete_succeeds_exactly_on_true_flag sample.edgeEnv
      (sample.adminImpl (sample.answering sample.emptyObject)) "org-123"
      { StatusCode := 200, Body := { data := sample.emptyObject, err := none } } rfl).2.2
      (by decide) (by decide) rfl { Success := false } rfl rfl,
   (C27_delete_succeeds_exactly_on_true_flag sample.edgeEnv
      (sample.adminImpl (sample.answering sample.deleteAccepted)) "org-123"
      { StatusCode := 200, Body := { data := sample.deleteAccepted, err := none } } rfl).1.2
      ⟨by decide, by decide, rfl, { Success := true }, rfl, rfl⟩⟩

/-! ## C28: `GetProject` on a listing with a null entry -/

/-- C28 (divergence): a null entry at the head of the scanned listing aborts `GetProject`
for every id: over a 2xx answer whose body decodes to the listing with one null entry the
call ends in a nil dereference, while over a body without a projects field it returns the
not-found error. -/
theorem C28_null_entry_aborts_GetProject :
    (∀ projectID rest, internal.langfuse.scanProjects projectID (none :: rest) = .panic) ∧
    sample.edgeEnv.unmarshalListProjects sample.nullEntryListing
      = .ok { Projects := [none] } ∧
    internal.langfuse.organizationClientImpl.GetProject sample.edgeEnv
        (sample.organizationImpl (sample.answering sample.nullEntryListing)) "proj-123"
      = .panic ∧
    internal.langfuse.organizationClientImpl.GetProject sample.edgeEnv
        (sample.organizationImpl (sample.answering sample.emptyObject)) "proj-123"
      = .err "cannot find project with ID proj-123" := by
  refine ⟨fun _ _ => rfl, rfl, rfl, rfl⟩

/-! ## C29: the id `Update` of the organization targets -/

/-- C29 (divergence): over the persisted record with id `org-123` and a configuration whose
computed id is null, `organizationResource.Update` calls `UpdateOrganization` with the empty
id, the id of the configuration, and persists the organization returned for it. -/
theorem C29_update_targets_configuration_id :
    sample.organizationState.ID = .known "org-123" ∧
    sample.renameOrganizationConfig.ID = .null ∧
    (internal.provider.organizationResource.Update ⟨sample.adminClient⟩
        ⟨⟨some sample.renameOrganizationConfig⟩, ⟨some sample.organizationState⟩⟩
        ⟨⟨some sample.organizationState⟩, []⟩).calls
      = [.UpdateOrganization "" { Name := "Acme Corporation", Metadata := [] }] ∧
    (internal.provider.organizationResource.Update ⟨sample.adminClient⟩
        ⟨⟨some sample.renameOrganizationConfig⟩, ⟨some sample.organizationState⟩⟩
        ⟨⟨some sample.organizationState⟩, []⟩).resp.State
      = ⟨some { ID := .known "", Name := .known "Acme Corporation" }⟩ := by
  refine ⟨rfl, rfl, rfl, rfl⟩

/-! ## C30: `buildURL` is total -/

section BuildURLLemmas

theorem utf8ByteSize_pos_of_ne_empty (h : String) (hne : h ≠ "") : 0 < h.utf8ByteSize := by
  obtain ⟨cs⟩ := h
  cases cs with
  | nil => exact absurd rfl hne
  | cons c rest =>
    have hc := Char.utf8Size_pos c
    simp only [String.utf8ByteSize, String.utf8ByteSize.go]
    omega

theorem getLast_some_of_ne_empty (h : String) (hne : h ≠ "") :
    ∃ c, h.data.getLast? = some c := by
  obtain ⟨cs⟩ := h
  cases cs with
  | nil => exact absurd rfl hne
  | cons c rest => exact ⟨(c :: rest).getLast (by simp), List.getLast?_eq_getLast _ (by simp)⟩

end BuildURLLemmas

/-- C30: `buildURL` returns a string for every host and path. Either the host is empty and
the path is returned unchanged, before any indexing, or the host is not empty, the index
`len(host)-1` lies inside the host and the byte tested there exists; and in every case the
result starts with the host and ends with the path. -/
theorem C30_buildURL_total (host apiPath : String) :
    ((host = "" ∧ internal.langfuse.buildURL host apiPath = apiPath) ∨
      (host ≠ "" ∧ host.utf8ByteSize - 1 < host.utf8ByteSize ∧
        ∃ c, host.data.getLast? = some c)) ∧
    (∃ rest, internal.langfuse.buildURL host apiPath = host ++ rest) ∧
    (∃ pre, internal.langfuse.buildURL host apiPath = pre ++ apiPath) := by
  by_cases hempty : host = ""
  · subst hempty
    refine ⟨Or.inl ⟨rfl, rfl⟩, ⟨apiPath, ?_⟩, ⟨"", ?_⟩⟩
    · simp [internal.langfuse.buildURL]
    · simp [internal.langfuse.buildURL]
  · have hpos := utf8ByteSize_pos_of_ne_empty host hempty
    refine ⟨Or.inr ⟨hempty, by omega, getLast_some_of_ne_empty host hempty⟩, ?_, ?_⟩
    · unfold internal.langfuse.buildURL
      simp only [hempty, if_false]
      split_ifs
      · exact ⟨apiPath, rfl⟩
      · exact ⟨"/" ++ apiPath, by rw [String.append_assoc]⟩
    · unfold internal.langfuse.buildURL
      simp only [hempty, if_false]
      split_ifs
      · exact ⟨host, rfl⟩
      · exact ⟨host ++ "/", rfl⟩
